import Mathlib

/-!
The software 3-D geometry pipeline of `src/src/main.SDL3_v6.cpp`.

A shallow embedding of the vector, matrix, triangle, mesh and clipping code of
`main.SDL3_v6.cpp`, and the properties of its specification proved over it.

Scalars.  The program computes with `float`.  The embedding is generic in a scalar type `F`
that is a linearly ordered field (exact arithmetic: no rounding, no NaN, no infinities)
together with a square-root operation `HasSqrt.sqrt`, the stand-in for `std::sqrt`.  The
definitions are computable: they run on `ℚ` with `Rat.sqrt`.  Properties that rely on
`std::sqrt` being the square root assume `ExactSqrt F`, which holds for `ℝ` with `Real.sqrt`.

Integers.  An `int` has 32 bits.  The `int` arithmetic of the height-map code
(`Mesh::generate_height_map`, `Mesh::create_from_height_map`) is reduced modulo `2 ^ 32` to
the range `-2 ^ 31 .. 2 ^ 31 - 1` (`wrap_int`): a signed overflow, undefined in the standard,
wraps around in the compiled program.  `static_cast<int>` of a scalar truncates toward zero
and is undefined when the truncated value is no `int`.  What is undefined in the source, or
ends in an exception no one catches, makes the embedded function return `none`: an array or
vector access outside its bounds, a conversion to `int` out of range, an array or a vector of
negative size.  The other `int` values are counts of at most a few points or triangles and
the vertex indices of the loader, which the extraction keeps in the range of `int`.

Output parameters.  A function that writes through pointers takes the values the pointees
hold before the call and returns the values they hold after it.

The frame.  `Game::on_update` is embedded stage by stage: the camera update
(`Game.update_camera`), the body of the loop over the mesh triangles
(`Game.process_triangle`, for the `world` and `view` matrices computed before the loop), the
depth sort (`Game.depth_sort`) and the viewport clipping of one sorted triangle
(`Game.viewport_clip`).  The keyboard state is a record of booleans; `std::exp` is an
operation `HasExp.exp` of the scalar type, of which nothing is assumed; `std::sort` is a merge
sort driven by the comparator of the source; `static_cast<uint8_t>` truncates toward zero and
keeps the low 8 bits.  `front()` of an empty vector, undefined in the source, makes the
embedded function return `none`.  The calls that print and draw are left out.

Library calls.  `std::cos`, `std::sin` and `std::tan` are operations `HasTrig.cos`,
`HasTrig.sin`, `HasTrig.tan` of the scalar type; properties that rely on them being the
cosine and the sine of one angle assume `ExactTrig F`, which holds for `ℝ`.  A quotient by
zero, an infinity or a NaN in `float`, is the field's `x / 0`; no property relies on its value.

Files.  `Mesh::load_from_obj_file` is embedded on the outcome of opening the file: its
contents, or `none` when it cannot be opened.  `std::getline` and the extraction operators of
`std::istringstream` have stand-ins on lists of characters; a variable that no extraction has
set is `none`, and reading it makes the embedded function return `none`.  A decimal literal in
the range of `float` is read as its exact value; one that rounds beyond `FLT_MAX` stores
`FLT_MAX` or `-FLT_MAX` and fails the stream.
-/

namespace Sandbox

/-- The scalar type offers a square root, the stand-in for `std::sqrt`. -/
class HasSqrt (F : Type) where
  /-- The square root operation. -/
  sqrt : F → F

instance instHasSqrtRat : HasSqrt ℚ := ⟨Rat.sqrt⟩

noncomputable instance instHasSqrtReal : HasSqrt ℝ := ⟨Real.sqrt⟩

/-- The scalar type offers the trigonometric functions, the stand-ins for `std::cos`,
`std::sin` and `std::tan`. -/
class HasTrig (F : Type) where
  /-- The cosine. -/
  cos : F → F
  /-- The sine. -/
  sin : F → F
  /-- The tangent. -/
  tan : F → F

noncomputable instance instHasTrigReal : HasTrig ℝ := ⟨Real.cos, Real.sin, Real.tan⟩

/-- In exact arithmetic `std::sqrt` returns the non-negative root of every
non-negative number. -/
def ExactSqrt (F : Type) [LinearOrderedField F] [HasSqrt F] : Prop :=
  ∀ x : F, 0 ≤ x → 0 ≤ HasSqrt.sqrt x ∧ HasSqrt.sqrt x * HasSqrt.sqrt x = x

/-! ## `class Error` -/

/-- Embeds `class Error`: the members `m_type` and `m_message`. -/
structure Error where
  m_type : String
  m_message : Option String
  deriving DecidableEq, Repr

/-! ## `SDL_Color` -/

/-- Embeds `SDL_Color`: four 8-bit channels. -/
structure SDL_Color where
  r : Nat
  g : Nat
  b : Nat
  a : Nat
  deriving DecidableEq, Repr

/-! ## `class Vec4` -/

/-- Embeds `class Vec4`: the four members `m_x`, `m_y`, `m_z`, `m_w`. -/
structure Vec4 (F : Type) where
  x : F
  y : F
  z : F
  w : F
  deriving DecidableEq, Repr

namespace Vec4

variable {F : Type} [LinearOrderedField F]

/-- Embeds `Vec4()`: the origin with `w = 1`. -/
def zero : Vec4 F := ⟨0, 0, 0, 1⟩

/-- Embeds `Vec4(float x, float y, float z)`: `w` is set to `1`. -/
def mk3 (x y z : F) : Vec4 F := ⟨x, y, z, 1⟩

instance : Inhabited (Vec4 F) := ⟨zero⟩

/-- Embeds `Vec4::add`. -/
def add (lhs rhs : Vec4 F) : Vec4 F :=
  mk3 (lhs.x + rhs.x) (lhs.y + rhs.y) (lhs.z + rhs.z)

/-- Embeds `Vec4::subtract`. -/
def subtract (lhs rhs : Vec4 F) : Vec4 F :=
  mk3 (lhs.x - rhs.x) (lhs.y - rhs.y) (lhs.z - rhs.z)

/-- Embeds `Vec4::multiply`. -/
def multiply (lhs : Vec4 F) (k : F) : Vec4 F :=
  mk3 (lhs.x * k) (lhs.y * k) (lhs.z * k)

/-- Embeds `Vec4::divide`. -/
def divide (lhs : Vec4 F) (k : F) : Vec4 F :=
  mk3 (lhs.x / k) (lhs.y / k) (lhs.z / k)

/-- Embeds `Vec4::dot_product`. -/
def dot_product (lhs rhs : Vec4 F) : F :=
  lhs.x * rhs.x + lhs.y * rhs.y + lhs.z * rhs.z

/-- Embeds `Vec4::length`. -/
def length [HasSqrt F] (vec : Vec4 F) : F :=
  HasSqrt.sqrt (dot_product vec vec)

/-- Embeds `Vec4::distance`. -/
def distance [HasSqrt F] (a b : Vec4 F) : F :=
  let dx := b.x - a.x
  let dy := b.y - a.y
  let dz := b.z - a.z
  HasSqrt.sqrt (dx * dx + dy * dy + dz * dz)

/-- Embeds `Vec4::normalize`. -/
def normalize [HasSqrt F] (vec : Vec4 F) : Vec4 F :=
  let len := length vec
  mk3 (vec.x / len) (vec.y / len) (vec.z / len)

/-- Embeds `Vec4::cross_product`. -/
def cross_product (lhs rhs : Vec4 F) : Vec4 F :=
  mk3 (lhs.y * rhs.z - lhs.z * rhs.y)
    (lhs.z * rhs.x - lhs.x * rhs.z)
    (lhs.x * rhs.y - lhs.y * rhs.x)

/-- Embeds `Vec4::intersect_plane`. -/
def intersect_plane [HasSqrt F] (plane_p plane_n line_start line_end : Vec4 F) : Vec4 F :=
  let plane_n_norm := normalize plane_n
  let plane_d := -dot_product plane_n_norm plane_p
  let ad := dot_product line_start plane_n_norm
  let bd := dot_product line_end plane_n_norm
  let t := (-plane_d - ad) / (bd - ad)
  let line_start_to_end := subtract line_end line_start
  let line_to_intersect := multiply line_start_to_end t
  add line_start line_to_intersect

end Vec4

/-! ## `class Triangle` -/

/-- Embeds `class Triangle`: the array `m_points[3]` and `m_color`. -/
structure Triangle (F : Type) where
  m_points_0 : Vec4 F
  m_points_1 : Vec4 F
  m_points_2 : Vec4 F
  m_color : SDL_Color
  deriving DecidableEq, Repr

namespace Triangle

variable {F : Type} [LinearOrderedField F]

/-- The color `{0xff, 0xff, 0xff, 0xff}` of the constructors that take no color. -/
def white : SDL_Color := ⟨0xff, 0xff, 0xff, 0xff⟩

/-- Embeds `Triangle()`: three points `Vec4(0, 0, 0)`, white. -/
def empty : Triangle F :=
  ⟨Vec4.mk3 0 0 0, Vec4.mk3 0 0 0, Vec4.mk3 0 0 0, white⟩

instance : Inhabited (Triangle F) := ⟨empty⟩

/-- Embeds `Triangle(x1, y1, z1, x2, y2, z2, x3, y3, z3, color)`. -/
def ofCoords (x1 y1 z1 x2 y2 z2 x3 y3 z3 : F) (color : SDL_Color) : Triangle F :=
  ⟨Vec4.mk3 x1 y1 z1, Vec4.mk3 x2 y2 z2, Vec4.mk3 x3 y3 z3, color⟩

/-- Embeds `Triangle(p0, p1, p2)`: white. -/
def ofPoints (p0 p1 p2 : Vec4 F) : Triangle F := ⟨p0, p1, p2, white⟩

/-- Embeds `Triangle::shortest_distance`. -/
def shortest_distance (plane_p plane_n p : Vec4 F) : F :=
  plane_n.x * p.x + plane_n.y * p.y + plane_n.z * p.z - Vec4.dot_product plane_n plane_p

/-- The two local arrays of `clip_against_plane`, `inside_points[3]` and
`outside_points[3]`, with their fill counts. -/
structure Buckets (F : Type) where
  inside_points : List (Vec4 F)
  inside_point_count : Nat
  outside_points : List (Vec4 F)
  outside_point_count : Nat

/-- The arrays as declared: `{{}, {}, {}}` and count `0`. -/
def Buckets.init : Buckets F :=
  ⟨[Vec4.zero, Vec4.zero, Vec4.zero], 0, [Vec4.zero, Vec4.zero, Vec4.zero], 0⟩

/-- One `if (d >= 0) inside_points[inside_point_count++] = p; else
outside_points[outside_point_count++] = p;`. -/
def Buckets.classify (s : Buckets F) (d : F) (p : Vec4 F) : Buckets F :=
  if d ≥ 0 then
    { s with inside_points := s.inside_points.set s.inside_point_count p
             inside_point_count := s.inside_point_count + 1 }
  else
    { s with outside_points := s.outside_points.set s.outside_point_count p
             outside_point_count := s.outside_point_count + 1 }

/-- Embeds `Triangle::clip_against_plane`.  The two output slots `*out_tri1`, `*out_tri2` are
passed in with the values they hold before the call; the result is the returned count
and the values of the two slots after the call. -/
def clip_against_plane [HasSqrt F] (plane_p plane_n : Vec4 F) (in_tri : Triangle F)
    (out_tri1 out_tri2 : Triangle F) : Nat × Triangle F × Triangle F :=
  let _plane_n := Vec4.normalize plane_n
  let d0 := shortest_distance plane_p _plane_n in_tri.m_points_0
  let d1 := shortest_distance plane_p _plane_n in_tri.m_points_1
  let d2 := shortest_distance plane_p _plane_n in_tri.m_points_2
  let s := Buckets.init
  let s := s.classify d0 in_tri.m_points_0
  let s := s.classify d1 in_tri.m_points_1
  let s := s.classify d2 in_tri.m_points_2
  let inside (i : Nat) : Vec4 F := s.inside_points.getD i Vec4.zero
  let outside (i : Nat) : Vec4 F := s.outside_points.getD i Vec4.zero
  if s.inside_point_count = 0 then
    (0, out_tri1, out_tri2)
  else if s.inside_point_count = 3 then
    (1, { out_tri1 with m_points_0 := inside 0, m_points_1 := inside 1, m_points_2 := inside 2 },
      out_tri2)
  else if s.inside_point_count = 1 ∧ s.outside_point_count = 2 then
    (1,
      { m_color := in_tri.m_color
        m_points_0 := inside 0
        m_points_1 := Vec4.intersect_plane plane_p _plane_n (inside 0) (outside 0)
        m_points_2 := Vec4.intersect_plane plane_p _plane_n (inside 0) (outside 1) },
      out_tri2)
  else if s.inside_point_count = 2 ∧ s.outside_point_count = 1 then
    let p2 := Vec4.intersect_plane plane_p _plane_n (inside 0) (outside 0)
    (2,
      { m_color := in_tri.m_color
        m_points_0 := inside 0
        m_points_1 := inside 1
        m_points_2 := p2 },
      { m_color := in_tri.m_color
        m_points_0 := inside 1
        m_points_1 := p2
        m_points_2 := Vec4.intersect_plane plane_p _plane_n (inside 1) (outside 0) })
  else
    (0, out_tri1, out_tri2)

/-- The calls of `Vec4::intersect_plane` that `clip_against_plane` makes, in order: the
arguments `(line_start, line_end)` of each; the plane point and the normalised normal are the
same in all of them. -/
def intersect_calls [HasSqrt F] (plane_p plane_n : Vec4 F) (in_tri : Triangle F) :
    List (Vec4 F × Vec4 F) :=
  let _plane_n := Vec4.normalize plane_n
  let d0 := shortest_distance plane_p _plane_n in_tri.m_points_0
  let d1 := shortest_distance plane_p _plane_n in_tri.m_points_1
  let d2 := shortest_distance plane_p _plane_n in_tri.m_points_2
  let s := Buckets.init
  let s := s.classify d0 in_tri.m_points_0
  let s := s.classify d1 in_tri.m_points_1
  let s := s.classify d2 in_tri.m_points_2
  let inside (i : Nat) : Vec4 F := s.inside_points.getD i Vec4.zero
  let outside (i : Nat) : Vec4 F := s.outside_points.getD i Vec4.zero
  if s.inside_point_count = 0 then []
  else if s.inside_point_count = 3 then []
  else if s.inside_point_count = 1 ∧ s.outside_point_count = 2 then
    [(inside 0, outside 0), (inside 0, outside 1)]
  else if s.inside_point_count = 2 ∧ s.outside_point_count = 1 then
    [(inside 0, outside 0), (inside 1, outside 0)]
  else []

end Triangle

/-! ## `class Mesh` -/

/-- Embeds `static_cast<int>(f)` on a scalar: truncation toward zero. -/
def toInt {F : Type} [LinearOrderedField F] [FloorRing F] (f : F) : Int :=
  if 0 ≤ f then ⌊f⌋ else ⌈f⌉

/-- The `int` an arithmetic operation leaves when its mathematical result is `i`: `i` reduced
modulo `2 ^ 32` to the range `-2 ^ 31 .. 2 ^ 31 - 1`.  Inside the range it is `i`; outside,
where the standard leaves signed overflow undefined, it is the value the two's-complement
machine instruction computes. -/
def wrap_int (i : Int) : Int :=
  (i + 2147483648) % 4294967296 - 2147483648

/-- Embeds `static_cast<int>(f)` on a scalar where the height-map code uses it: truncation
toward zero, `none` when the truncated value is outside the range of `int` (the conversion is
then undefined in the source). -/
def static_cast_int {F : Type} [LinearOrderedField F] [FloorRing F] (f : F) : Option Int :=
  let i := toInt f
  if -2147483648 ≤ i ∧ i ≤ 2147483647 then some i else none

/-- Reading `a[i]` for an `int` index: `none` outside the bounds of the array or vector
(where the read is undefined in the source). -/
def readAt {α : Type} (a : List α) (i : Int) : Option α :=
  if 0 ≤ i then a[i.toNat]? else none

/-- Writing `a[i] = v` for an `int` index: `none` outside the bounds. -/
def writeAt {α : Type} (a : List α) (i : Int) (v : α) : Option (List α) :=
  if 0 ≤ i ∧ i.toNat < a.length then some (a.set i.toNat v) else none

/-! ### Input streams of the standard library -/

/-- Stand-in for `std::isspace` in the classic locale: space, tab, line feed, vertical tab,
form feed, carriage return. -/
def isspace (c : Char) : Bool := c.toNat == 32 || (9 ≤ c.toNat && c.toNat ≤ 13)

/-- Stand-in for `std::isdigit`. -/
def isdigit (c : Char) : Bool := 48 ≤ c.toNat && c.toNat ≤ 57

/-- The lines the calls `std::getline(file, line)` deliver until one fails, for the characters
left in the file and the characters of the line read so far: a line ends at a line feed, which
is dropped, or at the end of the file; the call fails at the end of the file when it has
read no character. -/
def getlines : List Char → List Char → List (List Char)
  | [], line => if line.isEmpty then [] else [line]
  | c :: file, line =>
    if c.toNat = 10 then line :: getlines file [] else getlines file (line ++ [c])

/-- The state of a `std::istringstream`: the characters not yet read, and whether an
extraction has failed. -/
structure IStringStream where
  buf : List Char
  failbit : Bool
  deriving DecidableEq, Repr

/-- Stand-in for `iss >> str` on a `std::string`: after leading white space the characters up
to the next white space.  A failed stream, or one with nothing but white space left, leaves
`str` as it is. -/
def extract_string (iss : IStringStream) (str : List Char) : IStringStream × List Char :=
  if iss.failbit then (iss, str)
  else
    let buf := iss.buf.dropWhile isspace
    if buf.isEmpty then (⟨buf, true⟩, str)
    else (⟨buf.dropWhile (fun c => !isspace c), false⟩, buf.takeWhile (fun c => !isspace c))

/-- An optional sign at the head of the buffer: whether it is `-`, and the rest. -/
def read_sign : List Char → Bool × List Char
  | [] => (false, [])
  | c :: cs => if c = '-' then (true, cs) else if c = '+' then (false, cs) else (false, c :: cs)

/-- The decimal digits at the head of the buffer: the number they continue from `acc`, how
many there are on top of `n`, and the rest. -/
def read_digits : List Char → Nat → Nat → Nat × Nat × List Char
  | [], acc, n => (acc, n, [])
  | c :: cs, acc, n =>
    if isdigit c then read_digits cs (acc * 10 + (c.toNat - 48)) (n + 1) else (acc, n, c :: cs)

/-- Stand-in for `iss >> v` on an `int`, in base ten.  The variable `v` is `none` while it is
uninitialised.  A failed stream, or one with nothing but white space left, leaves `v` as it
is; a field that is no number stores `0` and fails the stream; a number outside the range of
`int` stores the nearest bound and fails the stream. -/
def extract_int (iss : IStringStream) (v : Option Int) : IStringStream × Option Int :=
  if iss.failbit then (iss, v)
  else
    let buf := iss.buf.dropWhile isspace
    if buf.isEmpty then (⟨buf, true⟩, v)
    else
      let sign := read_sign buf
      let digits := read_digits sign.2 0 0
      if digits.2.1 = 0 then (⟨digits.2.2, true⟩, some 0)
      else
        let value : Int := if sign.1 then -(digits.1 : Int) else (digits.1 : Int)
        if value > 2147483647 then (⟨digits.2.2, true⟩, some 2147483647)
        else if value < -2147483648 then (⟨digits.2.2, true⟩, some (-2147483648))
        else (⟨digits.2.2, false⟩, some value)

section Streams
variable {F : Type} [LinearOrderedField F]

/-- The number a decimal literal denotes: `mantissa / 10 ^ fraction_digits` times or over
`10 ^ exponent`, with its sign. -/
def decimal_value (negative : Bool) (mantissa fraction_digits : Nat) (exponent_negative : Bool)
    (exponent : Nat) : F :=
  let m : F := (mantissa : F) / 10 ^ fraction_digits
  let m : F := if exponent_negative then m / 10 ^ exponent else m * 10 ^ exponent
  if negative then -m else m

/-- The largest `float`, `FLT_MAX = (2 ^ 24 - 1) * 2 ^ 104`. -/
def FLT_MAX : F := 340282346638528859811704183484516925440

/-- The least number that rounds to no `float`: half way from `FLT_MAX` to `2 ^ 128`, that is
`2 ^ 128 - 2 ^ 103`. -/
def FLT_OVERFLOW : F := 340282356779733661637539395458142568448

/-- The outcome of `iss >> v` on a `float` once a decimal literal of the given value has
been read, the buffer after it being `rest`: the value is stored; a value out of the range of
`float` stores the nearest of `FLT_MAX` and `-FLT_MAX` and fails the stream. -/
def store_float (rest : List Char) (value : F) : IStringStream × Option F :=
  if value ≥ FLT_OVERFLOW then (⟨rest, true⟩, some FLT_MAX)
  else if value ≤ -FLT_OVERFLOW then (⟨rest, true⟩, some (-FLT_MAX))
  else (⟨rest, false⟩, some value)

/-- Stand-in for `iss >> v` on a `float`, for decimal literals: an optional sign, digits with an
optional decimal point, an optional exponent; the value of a literal in the range of `float`
is exact.  The variable `v` is `none` while it is uninitialised.  A failed stream, or one
with nothing but white space left, leaves `v` as it is; a field that is no number stores `0`
and fails the stream; a number out of the range of `float` stores the nearest of `FLT_MAX` and
`-FLT_MAX` and fails the stream. -/
def extract_float (iss : IStringStream) (v : Option F) : IStringStream × Option F :=
  if iss.failbit then (iss, v)
  else
    let buf := iss.buf.dropWhile isspace
    if buf.isEmpty then (⟨buf, true⟩, v)
    else
      let sign := read_sign buf
      let whole := read_digits sign.2 0 0
      let fraction := match whole.2.2 with
        | c :: cs => if c = '.' then read_digits cs whole.1 0 else (whole.1, 0, c :: cs)
        | [] => (whole.1, 0, [])
      if whole.2.1 + fraction.2.1 = 0 then (⟨fraction.2.2, true⟩, some 0)
      else
        match fraction.2.2 with
        | c :: cs =>
          if c = 'e' ∨ c = 'E' then
            let exponent_sign := read_sign cs
            let exponent := read_digits exponent_sign.2 0 0
            if exponent.2.1 = 0 then (⟨exponent.2.2, true⟩, some 0)
            else store_float exponent.2.2
              (decimal_value sign.1 fraction.1 fraction.2.1 exponent_sign.1 exponent.1)
          else store_float (c :: cs) (decimal_value sign.1 fraction.1 fraction.2.1 false 0)
        | [] => store_float [] (decimal_value sign.1 fraction.1 fraction.2.1 false 0)

end Streams

/-! ### The mesh -/

/-- Embeds `class Mesh`: the vector `m_triangles`. -/
structure Mesh (F : Type) where
  m_triangles : List (Triangle F)

namespace Mesh

variable {F : Type} [LinearOrderedField F]

/-- The body of the loop `while (std::getline(file, line))` of `Mesh::load_from_obj_file` on
the vectors `vertices` and `triangles`.  The value is `none` where the source is undefined:
when it reads a variable no extraction has set, or `vertices` outside its bounds. -/
def load_line (line : List Char) (vertices : List (Vec4 F)) (triangles : List (Triangle F)) :
    Option (List (Vec4 F) × List (Triangle F)) :=
  let iss : IStringStream := ⟨line, false⟩
  let r := extract_string iss []
  let iss := r.1
  let type := r.2
  if type = ['v'] then
    let rx := extract_float iss (none : Option F)
    let ry := extract_float rx.1 (none : Option F)
    let rz := extract_float ry.1 (none : Option F)
    do
      let x ← rx.2
      let y ← ry.2
      let z ← rz.2
      pure (vertices ++ [⟨x, y, z, 1⟩], triangles)
  else if type = ['f'] then
    let r1 := extract_int iss none
    let r2 := extract_int r1.1 none
    let r3 := extract_int r2.1 none
    do
      let v1 ← r1.2
      let v2 ← r2.2
      let v3 ← r3.2
      let p1 ← readAt vertices (v1 - 1)
      let p2 ← readAt vertices (v2 - 1)
      let p3 ← readAt vertices (v3 - 1)
      pure (vertices, triangles ++ [Triangle.ofPoints p1 p2 p3])
  else
    some (vertices, triangles)

/-- Embeds `Mesh::load_from_obj_file`, on the outcome of opening the file: `none` when it
cannot be opened, its contents otherwise.  The result is the `std::variant<Mesh, Error>`, or
`none` where the source is undefined. -/
def load_from_obj_file (file : Option String) : Option (Except Error (Mesh F)) :=
  match file with
  | none => some (Except.error ⟨"file", some "Could not open file"⟩)
  | some contents => do
    let r ← (getlines contents.toList []).foldlM
      (fun (state : List (Vec4 F) × List (Triangle F)) line => load_line line state.1 state.2)
      ([], [])
    pure (Except.ok ⟨r.2⟩)

/-- Embeds `Mesh::color_given_heights`. -/
def color_given_heights (z1 z2 z3 : F) : SDL_Color :=
  if z1 = 0 ∧ z2 = 0 ∧ z3 = 0 then
    ⟨0x00, 0x00, 0xff, 0xcc⟩
  else if z1 = 0 ∨ z2 = 0 ∨ z3 = 0 then
    ⟨0xff, 0xff, 0x70, 0x99⟩
  else
    ⟨0x00, 0x70, 0x00, 0x99⟩

/-- The body of the inner loop of `create_from_height_map` for the loop counters
`z` and `x`: the two assignments `triangles[n1] = ...` and `triangles[n2] = ...`.  The `int`
operations wrap around; the result is `none` when a conversion to `int` is out of range or an
array access falls outside its bounds. -/
def cell_body [FloorRing F] (height_map : List F) (stride_f : F) (z x : F)
    (triangles : List (Triangle F)) : Option (List (Triangle F)) := do
  let n ← static_cast_int (z * stride_f + x)
  let n1 := wrap_int (n * 2)
  let n2 := wrap_int (n1 + 1)
  let h0 ← static_cast_int (z * (stride_f + 1) + x)
  let h1 := h0
  let h2 := wrap_int (h1 + 1)
  let h3 ← static_cast_int ((z + 1) * (stride_f + 1) + x)
  let h4 := wrap_int (h3 + 1)
  let v1 ← readAt height_map h1
  let v2 ← readAt height_map h2
  let v3 ← readAt height_map h3
  let v4 ← readAt height_map h4
  let triangles ← writeAt triangles n1
    (Triangle.ofCoords x v1 z x v3 (z + 1) (x + 1) v4 (z + 1) (color_given_heights v1 v3 v4))
  writeAt triangles n2
    (Triangle.ofCoords x v1 z (x + 1) v4 (z + 1) (x + 1) v2 z (color_given_heights v1 v4 v2))

/-- Embeds `Mesh::create_from_height_map`.  The `float` loop counters `z` and `x` start at `0`
and grow by `1` while they are below `stride_f = static_cast<float>(stride)`: they take
the values `0, 1, ..., stride - 1`, the casts of the naturals below `stride` (none when
`stride` is not positive).  The `int` operations wrap around.  The result is `none` when the
conversion of the square root to `int` is out of range, when `triangles_size` is negative (no
array `Triangle triangles[triangles_size]` exists) or when an array access falls outside its
bounds. -/
def create_from_height_map [HasSqrt F] [FloorRing F] (height_map : List F) :
    Option (Mesh F) := do
  let height_map_size_f : F := (height_map.length : F)
  let height_map_length_sqrt := HasSqrt.sqrt height_map_size_f
  let stride_plus_one ← static_cast_int height_map_length_sqrt
  let stride := wrap_int (stride_plus_one - 1)
  let stride_f : F := (stride : F)
  let triangles_size := wrap_int (wrap_int (stride * stride) * 2)
  if triangles_size < 0 then none
  else do
    let triangles : List (Triangle F) := List.replicate triangles_size.toNat Triangle.empty
    let triangles ← (List.range stride.toNat).foldlM
      (fun tris (z : Nat) => (List.range stride.toNat).foldlM
        (fun tris (x : Nat) => cell_body height_map stride_f (z : F) (x : F) tris) tris)
      triangles
    let triangles_vec := (List.range triangles_size.toNat).filterMap (fun i => triangles[i]?)
    pure ⟨triangles_vec⟩

end Mesh

/-! ## `class Matrix4x4` -/

/-- Embeds `class Matrix4x4`: the array `m_matrix[4][4]`, row index first. -/
structure Matrix4x4 (F : Type) where
  m_matrix : Fin 4 → Fin 4 → F

namespace Matrix4x4

variable {F : Type} [LinearOrderedField F]

/-- Embeds `Matrix4x4(m0, ..., mf)`: the sixteen entries row by row. -/
def ofEntries (m0 m1 m2 m3 m4 m5 m6 m7 m8 m9 ma mb mc md me mf : F) : Matrix4x4 F :=
  ⟨![![m0, m1, m2, m3], ![m4, m5, m6, m7], ![m8, m9, ma, mb], ![mc, md, me, mf]]⟩

/-- Embeds `Matrix4x4::multiply_vector`. -/
def multiply_vector (m : Matrix4x4 F) (i : Vec4 F) : Vec4 F :=
  ⟨i.x * m.m_matrix 0 0 + i.y * m.m_matrix 1 0 + i.z * m.m_matrix 2 0 + m.m_matrix 3 0,
   i.x * m.m_matrix 0 1 + i.y * m.m_matrix 1 1 + i.z * m.m_matrix 2 1 + m.m_matrix 3 1,
   i.x * m.m_matrix 0 2 + i.y * m.m_matrix 1 2 + i.z * m.m_matrix 2 2 + m.m_matrix 3 2,
   i.x * m.m_matrix 0 3 + i.y * m.m_matrix 1 3 + i.z * m.m_matrix 2 3 + m.m_matrix 3 3⟩

/-- Embeds `Matrix4x4::make_identity`. -/
def make_identity : Matrix4x4 F :=
  ofEntries
    1 0 0 0
    0 1 0 0
    0 0 1 0
    0 0 0 1

/-- Embeds `Matrix4x4::make_translation`. -/
def make_translation (x y z : F) : Matrix4x4 F :=
  ofEntries
    1 0 0 0
    0 1 0 0
    0 0 1 0
    x y z 1

/-- Embeds `Matrix4x4::make_rotation_x`. -/
def make_rotation_x [HasTrig F] (angle_rad : F) : Matrix4x4 F :=
  ofEntries
    1 0 0 0
    0 (HasTrig.cos angle_rad) (HasTrig.sin angle_rad) 0
    0 (-HasTrig.sin angle_rad) (HasTrig.cos angle_rad) 0
    0 0 0 1

/-- Embeds `Matrix4x4::make_rotation_y`. -/
def make_rotation_y [HasTrig F] (angle_rad : F) : Matrix4x4 F :=
  ofEntries
    (HasTrig.cos angle_rad) 0 (-HasTrig.sin angle_rad) 0
    0 1 0 0
    (HasTrig.sin angle_rad) 0 (HasTrig.cos angle_rad) 0
    0 0 0 1

/-- Embeds `Matrix4x4::make_rotation_z`. -/
def make_rotation_z [HasTrig F] (angle_rad : F) : Matrix4x4 F :=
  ofEntries
    (HasTrig.cos angle_rad) (HasTrig.sin angle_rad) 0 0
    (-HasTrig.sin angle_rad) (HasTrig.cos angle_rad) 0 0
    0 0 1 0
    0 0 0 1

/-- Embeds `Matrix4x4::make_projection`; the literal `3.14159f` is the rational
`314159 / 100000`. -/
def make_projection [HasTrig F] (fov_degrees aspect_ratio near far : F) : Matrix4x4 F :=
  let fov_rad := 1 / HasTrig.tan (fov_degrees * (1 / 2) / 180 * (314159 / 100000))
  ofEntries
    (aspect_ratio * fov_rad) 0 0 0
    0 fov_rad 0 0
    0 0 (far / (far - near)) 1
    0 0 ((-far * near) / (far - near)) 0

/-- Embeds `Matrix4x4::multiply`: every entry `[r][c]` is assigned once, by the loop body. -/
def multiply (m1 m2 : Matrix4x4 F) : Matrix4x4 F :=
  ⟨fun r c =>
    m1.m_matrix r 0 * m2.m_matrix 0 c + m1.m_matrix r 1 * m2.m_matrix 1 c +
      m1.m_matrix r 2 * m2.m_matrix 2 c + m1.m_matrix r 3 * m2.m_matrix 3 c⟩

/-- Embeds `Matrix4x4::point_at`. -/
def point_at [HasSqrt F] (pos target up : Vec4 F) : Matrix4x4 F :=
  let new_forward := Vec4.subtract target pos
  let new_forward := Vec4.normalize new_forward
  let a := Vec4.multiply new_forward (Vec4.dot_product up new_forward)
  let new_up := Vec4.subtract up a
  let new_up := Vec4.normalize new_up
  let new_right := Vec4.cross_product new_up new_forward
  ofEntries
    new_right.x new_right.y new_right.z 0
    new_up.x new_up.y new_up.z 0
    new_forward.x new_forward.y new_forward.z 0
    pos.x pos.y pos.z 1

/-- Embeds `Matrix4x4::quick_inverse`.  The last row reads the entries of the result assigned
before it, as the source does. -/
def quick_inverse (m : Matrix4x4 F) : Matrix4x4 F :=
  let matrix_00 := m.m_matrix 0 0
  let matrix_01 := m.m_matrix 1 0
  let matrix_02 := m.m_matrix 2 0
  let matrix_10 := m.m_matrix 0 1
  let matrix_11 := m.m_matrix 1 1
  let matrix_12 := m.m_matrix 2 1
  let matrix_20 := m.m_matrix 0 2
  let matrix_21 := m.m_matrix 1 2
  let matrix_22 := m.m_matrix 2 2
  ofEntries
    matrix_00 matrix_01 matrix_02 0
    matrix_10 matrix_11 matrix_12 0
    matrix_20 matrix_21 matrix_22 0
    (-(m.m_matrix 3 0 * matrix_00 + m.m_matrix 3 1 * matrix_10 + m.m_matrix 3 2 * matrix_20))
    (-(m.m_matrix 3 0 * matrix_01 + m.m_matrix 3 1 * matrix_11 + m.m_matrix 3 2 * matrix_21))
    (-(m.m_matrix 3 0 * matrix_02 + m.m_matrix 3 1 * matrix_12 + m.m_matrix 3 2 * matrix_22))
    1

end Matrix4x4

/-! ## `class Game` -/

/-- The scalar type offers an exponential, the stand-in for `std::exp`. -/
class HasExp (F : Type) where
  /-- The exponential operation. -/
  exp : F → F

noncomputable instance instHasExpReal : HasExp ℝ := ⟨Real.exp⟩

/-- Stand-in for `std::sort(first, last, comp)`: a merge sort that puts `a` before `b` unless
`comp(b, a)`.  The C++ standard leaves the order of elements that `comp` does not separate
unspecified; this stand-in keeps their input order.  What is proved of its result, that it
is a permutation of the input in which no element comes before one that `comp` puts first,
holds for every order of such elements. -/
def std_sort {α : Type} (comp : α → α → Bool) (l : List α) : List α :=
  l.mergeSort (fun a b => !comp b a)

/-- Embeds `static_cast<uint8_t>(f)` on a scalar: truncation toward zero, kept to 8 bits. -/
def to_uint8 {F : Type} [LinearOrderedField F] [FloorRing F] (f : F) : Nat :=
  (toInt f % 256).toNat

namespace Triangle

variable {F : Type} [LinearOrderedField F]

/-- Embeds `Triangle::point_at`. -/
def point_at (t : Triangle F) (index : Nat) : Vec4 F :=
  match index with
  | 0 => t.m_points_0
  | 1 => t.m_points_1
  | _ => t.m_points_2

/-- Embeds `Triangle::set_point_at`. -/
def set_point_at (t : Triangle F) (index : Nat) (point : Vec4 F) : Triangle F :=
  match index with
  | 0 => { t with m_points_0 := point }
  | 1 => { t with m_points_1 := point }
  | _ => { t with m_points_2 := point }

/-- Embeds `Triangle::set_x_on_point_at`. -/
def set_x_on_point_at (t : Triangle F) (index : Nat) (x : F) : Triangle F :=
  t.set_point_at index { t.point_at index with x := x }

/-- Embeds `Triangle::set_y_on_point_at`. -/
def set_y_on_point_at (t : Triangle F) (index : Nat) (y : F) : Triangle F :=
  t.set_point_at index { t.point_at index with y := y }

/-- Embeds `Triangle::set_color`. -/
def set_color (t : Triangle F) (color : SDL_Color) : Triangle F :=
  { t with m_color := color }

end Triangle

/-- The keys read by `Game::on_update` from `SDL_GetKeyboardState`. -/
structure Keys where
  SDL_SCANCODE_UP : Bool
  SDL_SCANCODE_DOWN : Bool
  SDL_SCANCODE_LEFT : Bool
  SDL_SCANCODE_RIGHT : Bool
  SDL_SCANCODE_W : Bool
  SDL_SCANCODE_S : Bool
  SDL_SCANCODE_Q : Bool
  SDL_SCANCODE_E : Bool
  SDL_SCANCODE_A : Bool
  SDL_SCANCODE_D : Bool
  SDL_SCANCODE_T : Bool
  SDL_SCANCODE_G : Bool
  SDL_SCANCODE_U : Bool
  SDL_SCANCODE_J : Bool

/-- Embeds `class Game`: the members the geometry pipeline reads and writes. -/
structure Game (F : Type) where
  m_width : F
  m_height : F
  m_projection_matrix : Matrix4x4 F
  m_camera : Vec4 F
  m_look_direction : Vec4 F
  m_yaw : F
  m_pitch : F
  m_roll : F
  m_theta : F
  m_mesh : Option (Mesh F)

namespace Game

variable {F : Type} [LinearOrderedField F]

/-- The assignment `m_camera = camera`. -/
def with_camera (g : Game F) (camera : Vec4 F) : Game F := { g with m_camera := camera }

/-- The assignment `m_yaw = yaw`. -/
def with_yaw (g : Game F) (yaw : F) : Game F := { g with m_yaw := yaw }

/-- The assignment `m_pitch = pitch`. -/
def with_pitch (g : Game F) (pitch : F) : Game F := { g with m_pitch := pitch }

/-- The camera-update step of `Game::on_update` (from the key reads to the floor of the camera
height), in source order. -/
def update_camera [HasExp F] (g : Game F) (keyboard_state : Keys) (elapsed : F) : Game F :=
  let g : Game F := if keyboard_state.SDL_SCANCODE_UP then
      g.with_camera ⟨g.m_camera.x, g.m_camera.y + 8 * elapsed, g.m_camera.z, g.m_camera.w⟩
    else g
  let g : Game F := if keyboard_state.SDL_SCANCODE_DOWN then
      g.with_camera ⟨g.m_camera.x, g.m_camera.y - 8 * elapsed, g.m_camera.z, g.m_camera.w⟩
    else g
  let g : Game F := if keyboard_state.SDL_SCANCODE_LEFT then
      g.with_camera ⟨g.m_camera.x + 8 * elapsed, g.m_camera.y, g.m_camera.z, g.m_camera.w⟩
    else g
  let g : Game F := if keyboard_state.SDL_SCANCODE_RIGHT then
      g.with_camera ⟨g.m_camera.x - 8 * elapsed, g.m_camera.y, g.m_camera.z, g.m_camera.w⟩
    else g
  let forward : Vec4 F := Vec4.multiply g.m_look_direction
    (HasExp.exp (HasExp.exp g.m_pitch - 1) * 8 * elapsed)
  let g : Game F := if keyboard_state.SDL_SCANCODE_W then
      let w := Vec4.add g.m_camera forward
      g.with_camera ⟨w.x, g.m_camera.y, w.z, w.w⟩
    else g
  let g : Game F := if keyboard_state.SDL_SCANCODE_S then
      let s := Vec4.subtract g.m_camera forward
      g.with_camera ⟨s.x, g.m_camera.y, s.z, s.w⟩
    else g
  let g : Game F := if keyboard_state.SDL_SCANCODE_Q then
      g.with_yaw (g.m_yaw - 2 * elapsed)
    else g
  let g : Game F := if keyboard_state.SDL_SCANCODE_E then
      g.with_yaw (g.m_yaw + 2 * elapsed)
    else g
  let up : Vec4 F := ⟨0, 1, 0, 1⟩
  let direction : Vec4 F := Vec4.cross_product up forward
  let g : Game F := if keyboard_state.SDL_SCANCODE_A then
      g.with_camera
        ⟨g.m_camera.x + direction.x, g.m_camera.y, g.m_camera.z + direction.z, g.m_camera.w⟩
    else g
  let g : Game F := if keyboard_state.SDL_SCANCODE_D then
      g.with_camera
        ⟨g.m_camera.x - direction.x, g.m_camera.y, g.m_camera.z - direction.z, g.m_camera.w⟩
    else g
  let g : Game F := if keyboard_state.SDL_SCANCODE_T then
      let g : Game F := g.with_camera (Vec4.add g.m_camera forward)
      g.with_camera ⟨g.m_camera.x, g.m_camera.y - 8 * elapsed, g.m_camera.z, g.m_camera.w⟩
    else g
  let g : Game F := if keyboard_state.SDL_SCANCODE_G then
      let g : Game F := g.with_camera (Vec4.subtract g.m_camera forward)
      g.with_camera ⟨g.m_camera.x, g.m_camera.y + 8 * elapsed, g.m_camera.z, g.m_camera.w⟩
    else g
  let g : Game F := if keyboard_state.SDL_SCANCODE_U then
      g.with_pitch (g.m_pitch - 2 * elapsed)
    else g
  let g : Game F := if keyboard_state.SDL_SCANCODE_J then
      g.with_pitch (g.m_pitch + 2 * elapsed)
    else g
  let g : Game F := g.with_pitch (min (max 0 g.m_pitch) (3 / 2))
  if g.m_camera.y < 1 / 2 then
    g.with_camera ⟨g.m_camera.x, 1 / 2, g.m_camera.z, g.m_camera.w⟩
  else g

/-- The body of the loop `for (n < clipped_triangles)` of `Game::on_update`: projection,
perspective divide, inversion of x and y, offset and scaling of one clipped triangle; the value
is the triangle pushed onto `triangles`. -/
def project_clipped (g : Game F) (tri_projected clipped_n : Triangle F) : Triangle F :=
  let tri_projected := tri_projected.set_point_at 0
    (Matrix4x4.multiply_vector g.m_projection_matrix (clipped_n.point_at 0))
  let tri_projected := tri_projected.set_point_at 1
    (Matrix4x4.multiply_vector g.m_projection_matrix (clipped_n.point_at 1))
  let tri_projected := tri_projected.set_point_at 2
    (Matrix4x4.multiply_vector g.m_projection_matrix (clipped_n.point_at 2))
  let tri_projected := tri_projected.set_color clipped_n.m_color
  let tri_projected := tri_projected.set_point_at 0
    (Vec4.divide (tri_projected.point_at 0) (tri_projected.point_at 0).w)
  let tri_projected := tri_projected.set_point_at 1
    (Vec4.divide (tri_projected.point_at 1) (tri_projected.point_at 1).w)
  let tri_projected := tri_projected.set_point_at 2
    (Vec4.divide (tri_projected.point_at 2) (tri_projected.point_at 2).w)
  let tri_projected := tri_projected.set_x_on_point_at 0 ((tri_projected.point_at 0).x * -1)
  let tri_projected := tri_projected.set_x_on_point_at 1 ((tri_projected.point_at 1).x * -1)
  let tri_projected := tri_projected.set_x_on_point_at 2 ((tri_projected.point_at 2).x * -1)
  let tri_projected := tri_projected.set_y_on_point_at 0 ((tri_projected.point_at 0).y * -1)
  let tri_projected := tri_projected.set_y_on_point_at 1 ((tri_projected.point_at 1).y * -1)
  let tri_projected := tri_projected.set_y_on_point_at 2 ((tri_projected.point_at 2).y * -1)
  let offset_view : Vec4 F := ⟨1, 1, 0, 1⟩
  let tri_projected := tri_projected.set_point_at 0
    (Vec4.add (tri_projected.point_at 0) offset_view)
  let tri_projected := tri_projected.set_point_at 1
    (Vec4.add (tri_projected.point_at 1) offset_view)
  let tri_projected := tri_projected.set_point_at 2
    (Vec4.add (tri_projected.point_at 2) offset_view)
  let tri_projected := tri_projected.set_x_on_point_at 0
    ((tri_projected.point_at 0).x * (1 / 2) * g.m_width)
  let tri_projected := tri_projected.set_y_on_point_at 0
    ((tri_projected.point_at 0).y * (1 / 2) * g.m_height)
  let tri_projected := tri_projected.set_x_on_point_at 1
    ((tri_projected.point_at 1).x * (1 / 2) * g.m_width)
  let tri_projected := tri_projected.set_y_on_point_at 1
    ((tri_projected.point_at 1).y * (1 / 2) * g.m_height)
  let tri_projected := tri_projected.set_x_on_point_at 2
    ((tri_projected.point_at 2).x * (1 / 2) * g.m_width)
  let tri_projected := tri_projected.set_y_on_point_at 2
    ((tri_projected.point_at 2).y * (1 / 2) * g.m_height)
  tri_projected

/-- The loop `for (n < clipped_triangles)` of `Game::on_update`: `tri_projected` is declared
before the loop and carried through it; the value is the list of triangles pushed. -/
def project_loop (g : Game F) (clipped : List (Triangle F)) :
    Nat → Nat → Triangle F → List (Triangle F)
  | 0, _, _ => []
  | fuel + 1, n, tri_projected =>
    match clipped[n]? with
    | none => []
    | some clipped_n =>
      let tri_projected := project_clipped g tri_projected clipped_n
      tri_projected :: project_loop g clipped fuel (n + 1) tri_projected

/-- The body of the loop over the mesh triangles of `Game::on_update`, for the locals `world`
and `view` computed before the loop: the list of triangles it pushes onto `triangles` for the
mesh triangle `tri` (empty when the body is left by `continue` or the triangle faces away). -/
def process_triangle [HasSqrt F] [FloorRing F] (g : Game F) (world view : Matrix4x4 F)
    (tri : Triangle F) : List (Triangle F) :=
  let tri_transformed : Triangle F := Triangle.empty
  let tri_transformed := tri_transformed.set_point_at 0
    (Matrix4x4.multiply_vector world (tri.point_at 0))
  if Vec4.distance (tri_transformed.point_at 0) g.m_camera > 50 ∨
      Vec4.dot_product
        (Vec4.normalize (Vec4.subtract (tri_transformed.point_at 0) g.m_camera))
        g.m_look_direction < 0 then
    []
  else
    let tri_projected : Triangle F := Triangle.empty
    let tri_viewed : Triangle F := Triangle.empty
    let tri_transformed := tri_transformed.set_point_at 1
      (Matrix4x4.multiply_vector world (tri.point_at 1))
    let tri_transformed := tri_transformed.set_point_at 2
      (Matrix4x4.multiply_vector world (tri.point_at 2))
    let tri_transformed := tri_transformed.set_color tri.m_color
    let line1 := Vec4.subtract (tri_transformed.point_at 1) (tri_transformed.point_at 0)
    let line2 := Vec4.subtract (tri_transformed.point_at 2) (tri_transformed.point_at 0)
    let normal := Vec4.cross_product line1 line2
    let normal := Vec4.normalize normal
    let camera_ray := Vec4.subtract (tri_transformed.point_at 0) g.m_camera
    if Vec4.dot_product normal camera_ray < 0 then
      let light_direction : Vec4 F := ⟨0, 1, -1, 1⟩
      let light_direction := Vec4.normalize light_direction
      let dp := max (1 / 10) (Vec4.dot_product normal light_direction)
      let tri_transformed := tri_transformed.set_color
        ⟨to_uint8 ((tri_transformed.m_color.r : F) * dp),
         to_uint8 ((tri_transformed.m_color.g : F) * dp),
         to_uint8 ((tri_transformed.m_color.b : F) * dp),
         tri_transformed.m_color.a⟩
      let tri_viewed := tri_viewed.set_point_at 0
        (Matrix4x4.multiply_vector view (tri_transformed.point_at 0))
      let tri_viewed := tri_viewed.set_point_at 1
        (Matrix4x4.multiply_vector view (tri_transformed.point_at 1))
      let tri_viewed := tri_viewed.set_point_at 2
        (Matrix4x4.multiply_vector view (tri_transformed.point_at 2))
      let tri_viewed := tri_viewed.set_color tri_transformed.m_color
      let r := Triangle.clip_against_plane ⟨0, 0, 1 / 10, 1⟩ ⟨0, 0, 1, 1⟩ tri_viewed
        Triangle.empty Triangle.empty
      let clipped_triangles := r.1
      let clipped := [r.2.1, r.2.2]
      project_loop g clipped clipped_triangles 0 tri_projected
    else
      []

/-- The loop over the mesh triangles of `Game::on_update`: the list `triangles` before the
sort. -/
def collect_triangles [HasSqrt F] [FloorRing F] (g : Game F) (world view : Matrix4x4 F) :
    List (Triangle F) :=
  match g.m_mesh with
  | none => []
  | some mesh => mesh.m_triangles.flatMap (process_triangle g world view)

/-- The comparator of the depth sort of `Game::on_update`. -/
def depth_comp (a b : Triangle F) : Bool :=
  let z1 := ((a.point_at 0).z + (a.point_at 1).z + (a.point_at 2).z) / 3
  let z2 := ((b.point_at 0).z + (b.point_at 1).z + (b.point_at 2).z) / 3
  decide (z1 > z2)

/-- The depth-sort stage of `Game::on_update`. -/
def depth_sort (triangles : List (Triangle F)) : List (Triangle F) :=
  std_sort depth_comp triangles

/-- The `switch (p)` of the viewport clipping: the plane point and the plane normal of pass
`p`; no case matches another `p`, and none is reached. -/
def viewport_plane (g : Game F) (p : Nat) : Option (Vec4 F × Vec4 F) :=
  match p with
  | 0 => some (⟨0, 0, 0, 1⟩, ⟨0, 1, 0, 1⟩)
  | 1 => some (⟨0, g.m_height - 1, 0, 1⟩, ⟨0, -1, 0, 1⟩)
  | 2 => some (⟨0, 0, 0, 1⟩, ⟨1, 0, 0, 1⟩)
  | 3 => some (⟨g.m_width - 1, 0, 0, 1⟩, ⟨-1, 0, 0, 1⟩)
  | _ => none

/-- The loop `while (new_triangles > 0)` of one pass `p` of the viewport clipping, on the
queue `inner_triangles` and the two slots of `clipped`; `tris_to_add` keeps its value when no
case of the switch matches.  The value is `none` when `front()` is taken of an empty queue. -/
def clip_pass [HasSqrt F] (g : Game F) (p : Nat) :
    Nat → List (Triangle F) × Triangle F × Triangle F × Nat →
      Option (List (Triangle F) × Triangle F × Triangle F × Nat)
  | 0, state => some state
  | new_triangles + 1, (inner_triangles, clipped_0, clipped_1, tris_to_add) =>
    match inner_triangles with
    | [] => none
    | test :: inner_triangles =>
      let r := match viewport_plane g p with
        | some (plane_p, plane_n) =>
          Triangle.clip_against_plane plane_p plane_n test clipped_0 clipped_1
        | none => (tris_to_add, clipped_0, clipped_1)
      let tris_to_add := r.1
      let clipped_0 := r.2.1
      let clipped_1 := r.2.2
      let inner_triangles := inner_triangles ++ [clipped_0, clipped_1].take tris_to_add
      clip_pass g p new_triangles (inner_triangles, clipped_0, clipped_1, tris_to_add)

/-- The body of the loop `for (const auto triangle_to_raster : triangles)` of
`Game::on_update` up to the drawing: the four passes `p = 0, 1, 2, 3`; the value is
`inner_triangles` after them. -/
def viewport_clip [HasSqrt F] (g : Game F) (triangle_to_raster : Triangle F) :
    Option (List (Triangle F)) := do
  let clipped_0 : Triangle F := Triangle.empty
  let clipped_1 : Triangle F := Triangle.empty
  let inner_triangles := [triangle_to_raster]
  let new_triangles := 1
  let (inner_triangles, clipped_0, clipped_1, _) ←
    clip_pass g 0 new_triangles (inner_triangles, clipped_0, clipped_1, 0)
  let new_triangles := inner_triangles.length
  let (inner_triangles, clipped_0, clipped_1, _) ←
    clip_pass g 1 new_triangles (inner_triangles, clipped_0, clipped_1, 0)
  let new_triangles := inner_triangles.length
  let (inner_triangles, clipped_0, clipped_1, _) ←
    clip_pass g 2 new_triangles (inner_triangles, clipped_0, clipped_1, 0)
  let new_triangles := inner_triangles.length
  let (inner_triangles, _, _, _) ←
    clip_pass g 3 new_triangles (inner_triangles, clipped_0, clipped_1, 0)
  pure inner_triangles

/-- The local `camera_rotation` of `Game::on_update`. -/
def camera_rotation [HasTrig F] (g : Game F) : Matrix4x4 F :=
  Matrix4x4.multiply
    (Matrix4x4.multiply (Matrix4x4.make_rotation_x g.m_pitch) (Matrix4x4.make_rotation_y g.m_yaw))
    (Matrix4x4.make_rotation_z g.m_roll)

/-- The assignment `m_look_direction = Matrix4x4::multiply_vector(camera_rotation, target)` of
`Game::on_update`, for the initial `target = (0, 0, 1)`. -/
def update_look_direction [HasTrig F] (g : Game F) : Game F :=
  let target : Vec4 F := ⟨0, 0, 1, 1⟩
  { g with m_look_direction := Matrix4x4.multiply_vector (camera_rotation g) target }

end Game

/-! ## Notions of the specification -/

section SpecDefs

variable {F : Type} [LinearOrderedField F]

/-- In exact arithmetic `std::cos` and `std::sin` are the cosine and the sine of one angle:
their squares add up to `1`. -/
def ExactTrig (F : Type) [LinearOrderedField F] [HasTrig F] : Prop :=
  ∀ a : F, HasTrig.cos a * HasTrig.cos a + HasTrig.sin a * HasTrig.sin a = 1

/-- The signed distance of the specification: `dot(normal, vertex) - dot(normal, planePoint)`
with the plane normal normalised. -/
def signedDistance [HasSqrt F] (plane_p plane_n v : Vec4 F) : F :=
  Vec4.dot_product (Vec4.normalize plane_n) v - Vec4.dot_product (Vec4.normalize plane_n) plane_p

/-- A vector is non-zero when one of `x`, `y`, `z` is. -/
def Vec4.Nonzero (v : Vec4 F) : Prop := v.x ≠ 0 ∨ v.y ≠ 0 ∨ v.z ≠ 0

instance (v : Vec4 F) : Decidable v.Nonzero := by
  unfold Vec4.Nonzero; infer_instance

/-- The vertices of a triangle in their original order. -/
def Triangle.vertices (t : Triangle F) : List (Vec4 F) :=
  [t.m_points_0, t.m_points_1, t.m_points_2]

/-- The inside bucket of the specification: the vertices with `d ≥ 0`, in original order. -/
def insideVertices [HasSqrt F] (plane_p plane_n : Vec4 F) (t : Triangle F) : List (Vec4 F) :=
  t.vertices.filter (fun v => decide (0 ≤ signedDistance plane_p plane_n v))

/-- The outside bucket of the specification: the vertices with `d < 0`, in original order. -/
def outsideVertices [HasSqrt F] (plane_p plane_n : Vec4 F) (t : Triangle F) : List (Vec4 F) :=
  t.vertices.filter (fun v => decide (signedDistance plane_p plane_n v < 0))

/-- The area of the triangle `(a, b, c)`: half the length of `cross(b - a, c - a)`. -/
def triangleArea [HasSqrt F] (a b c : Vec4 F) : F :=
  Vec4.length (Vec4.cross_product (Vec4.subtract b a) (Vec4.subtract c a)) / 2

/-- The area of a `Triangle`. -/
def Triangle.area [HasSqrt F] (t : Triangle F) : F := triangleArea t.m_points_0 t.m_points_1 t.m_points_2

/-- The parameter `t` of `intersect_plane` in terms of the signed distances of the end points. -/
def intersectParam [HasSqrt F] (plane_p plane_n line_start line_end : Vec4 F) : F :=
  signedDistance plane_p plane_n line_start /
    (signedDistance plane_p plane_n line_start - signedDistance plane_p plane_n line_end)

/-- The point `a + (u - a) * s` on the line through `a` and `u`. -/
def lerp (a u : Vec4 F) (s : F) : Vec4 F :=
  Vec4.mk3 (a.x + (u.x - a.x) * s) (a.y + (u.y - a.y) * s) (a.z + (u.z - a.z) * s)

/-! ### Sample inputs -/

/-- The near plane point of `Game::on_update`, `{0, 0, 0.1, 1}`. -/
def near_plane_p : Vec4 F := ⟨0, 0, 1 / 10, 1⟩

/-- The near plane normal of `Game::on_update`, `{0, 0, 1, 1}`. -/
def near_plane_n : Vec4 F := ⟨0, 0, 1, 1⟩

/-- A shaded water color. -/
def sample_color : SDL_Color := ⟨0, 0, 25, 204⟩

/-- A view-space triangle with only its first vertex in front of the near plane. -/
def sample_one_inside : Triangle F :=
  ⟨Vec4.mk3 0 0 1, Vec4.mk3 1 0 0, Vec4.mk3 0 1 0, sample_color⟩

/-- A view-space triangle with only its second vertex behind the near plane. -/
def sample_two_inside : Triangle F :=
  ⟨Vec4.mk3 0 0 1, Vec4.mk3 1 0 0, Vec4.mk3 0 1 1, sample_color⟩

/-- A view-space triangle wholly in front of the near plane. -/
def sample_three_inside : Triangle F :=
  ⟨Vec4.mk3 0 0 1, Vec4.mk3 1 0 1, Vec4.mk3 0 1 1, sample_color⟩

/-- A projection-like matrix, whose last column is `(0, 0, 1, 0)` as in `make_projection`. -/
def sample_projection : Matrix4x4 F :=
  Matrix4x4.ofEntries
    1 0 0 0
    0 1 0 0
    0 0 1 1
    0 0 0 0

/-! ### The height-map mesh -/

/-- The height stored at index `i` of the height map. -/
def heightAt (heights : List F) (i : Nat) : F := heights.getD i 0

/-- Triangle A of the cell `(x, z)`, as the specification gives it. -/
def cellTriangleA (heights : List F) (stride x z : Nat) : Triangle F :=
  let h1 := z * (stride + 1) + x
  let h3 := h1 + stride + 1
  let h4 := h3 + 1
  ⟨Vec4.mk3 (x : F) (heightAt heights h1) (z : F),
   Vec4.mk3 (x : F) (heightAt heights h3) ((z : F) + 1),
   Vec4.mk3 ((x : F) + 1) (heightAt heights h4) ((z : F) + 1),
   Mesh.color_given_heights (heightAt heights h1) (heightAt heights h3) (heightAt heights h4)⟩

/-- Triangle B of the cell `(x, z)`, as the specification gives it. -/
def cellTriangleB (heights : List F) (stride x z : Nat) : Triangle F :=
  let h1 := z * (stride + 1) + x
  let h2 := h1 + 1
  let h3 := h1 + stride + 1
  let h4 := h3 + 1
  ⟨Vec4.mk3 (x : F) (heightAt heights h1) (z : F),
   Vec4.mk3 ((x : F) + 1) (heightAt heights h4) ((z : F) + 1),
   Vec4.mk3 ((x : F) + 1) (heightAt heights h2) (z : F),
   Mesh.color_given_heights (heightAt heights h1) (heightAt heights h4) (heightAt heights h2)⟩

/-- The triangles of the first `k` cells in row-major order (`n = z * stride + x`), two per
cell. -/
def cellTriangles (heights : List F) (stride : Nat) : Nat → List (Triangle F)
  | 0 => []
  | k + 1 => cellTriangles heights stride k ++
      [cellTriangleA heights stride (k % stride) (k / stride),
       cellTriangleB heights stride (k % stride) (k / stride)]

/-- The terrain colors of the specification. -/
def water : SDL_Color := ⟨0, 0, 255, 204⟩

/-- Sand. -/
def sand : SDL_Color := ⟨255, 255, 112, 153⟩

/-- The array `triangles` after the first `k` cells have been written: their triangles,
followed by the default-constructed rest. -/
def trianglesAfter (heights : List F) (stride k : Nat) : List (Triangle F) :=
  cellTriangles heights stride k ++ List.replicate (2 * (stride * stride - k)) Triangle.empty

/-! ### The frame pipeline -/

/-- The mean of the three vertex `z` values of a triangle. -/
def avgZ (t : Triangle F) : F := (t.m_points_0.z + t.m_points_1.z + t.m_points_2.z) / 3

/-- The clipping primitive in the words of the specification (section 4.4): with the plane normal
normalised, zero inside vertices emit nothing, three emit the triangle unchanged, one emits
`[inside0, intersect(inside0, outside0), intersect(inside0, outside1)]`, two emit the two
triangles of the quad. -/
def specClip [HasSqrt F] (plane_p plane_n : Vec4 F) (t : Triangle F) : List (Triangle F) :=
  match insideVertices plane_p plane_n t, outsideVertices plane_p plane_n t with
  | [_, _, _], _ => [t]
  | [a], [u, v] =>
      [⟨a, Vec4.intersect_plane plane_p plane_n.normalize a u,
           Vec4.intersect_plane plane_p plane_n.normalize a v, t.m_color⟩]
  | [a, b], [u] =>
      [⟨a, b, Vec4.intersect_plane plane_p plane_n.normalize a u, t.m_color⟩,
       ⟨b, Vec4.intersect_plane plane_p plane_n.normalize a u,
           Vec4.intersect_plane plane_p plane_n.normalize b u, t.m_color⟩]
  | _, _ => []

/-- Clipping sequentially against a list of planes (point, normal): each pass applies the
clipping primitive once to every triangle accumulated from the previous pass. -/
def specSequentialClip [HasSqrt F] (planes : List (Vec4 F × Vec4 F)) (t : Triangle F) :
    List (Triangle F) :=
  planes.foldl (fun acc plane => acc.flatMap (specClip plane.1 plane.2)) [t]

/-- The left edge of the viewport: point `(0, 0, 0)`, normal `(1, 0, 0)`. -/
def leftPlane : Vec4 F × Vec4 F := (⟨0, 0, 0, 1⟩, ⟨1, 0, 0, 1⟩)

/-- The right edge of the viewport: point `(width - 1, 0, 0)`, normal `(-1, 0, 0)`. -/
def rightPlane (width : F) : Vec4 F × Vec4 F := (⟨width - 1, 0, 0, 1⟩, ⟨-1, 0, 0, 1⟩)

/-- The top edge of the viewport: point `(0, 0, 0)`, normal `(0, 1, 0)`. -/
def topPlane : Vec4 F × Vec4 F := (⟨0, 0, 0, 1⟩, ⟨0, 1, 0, 1⟩)

/-- The bottom edge of the viewport: point `(0, height - 1, 0)`, normal `(0, -1, 0)`. -/
def bottomPlane (height : F) : Vec4 F × Vec4 F := (⟨0, height - 1, 0, 1⟩, ⟨0, -1, 0, 1⟩)

/-- The flat-shading intensity of the specification:
`max(0.1, dot(normal, normalize((0, 1, -1))))`. -/
def shadeIntensity [HasSqrt F] (normal : Vec4 F) : F :=
  max (1 / 10) (Vec4.dot_product normal (Vec4.normalize ⟨0, 1, -1, 1⟩))

/-- A color with R, G and B scaled by an intensity (truncated to 8 bits) and alpha unchanged. -/
def shadedColor [FloorRing F] (c : SDL_Color) (intensity : F) : SDL_Color :=
  ⟨to_uint8 ((c.r : F) * intensity), to_uint8 ((c.g : F) * intensity),
   to_uint8 ((c.b : F) * intensity), c.a⟩

/-- A triangle with its three vertices transformed by a matrix: the world-space triangle of a
mesh triangle for the world matrix, the view-space triangle of a world-space triangle for the
view matrix. -/
def transformTriangle (m : Matrix4x4 F) (tri : Triangle F) : Triangle F :=
  ⟨Matrix4x4.multiply_vector m tri.m_points_0,
   Matrix4x4.multiply_vector m tri.m_points_1,
   Matrix4x4.multiply_vector m tri.m_points_2, tri.m_color⟩

/-- The face normal of the specification: `normalize(cross(v1 - v0, v2 - v0))`. -/
def faceNormal [HasSqrt F] (t : Triangle F) : Vec4 F :=
  Vec4.normalize (Vec4.cross_product (Vec4.subtract t.m_points_1 t.m_points_0)
    (Vec4.subtract t.m_points_2 t.m_points_0))

/-- The coarse cull of the specification on the first world-space vertex: skip if
`distance(v0, camera) > 50` or `dot(normalize(v0 - camera), lookDirection) < 0`. -/
def coarseCulled [HasSqrt F] (g : Game F) (v0 : Vec4 F) : Prop :=
  Vec4.distance v0 g.m_camera > 50 ∨
    Vec4.dot_product (Vec4.normalize (Vec4.subtract v0 g.m_camera)) g.m_look_direction < 0

/-- The number of triangles the near-plane clip returns for a view-space triangle, by the
number of its vertices in front of the near plane. -/
def nearClipCount [HasSqrt F] (t : Triangle F) : Nat :=
  if (insideVertices near_plane_p near_plane_n t).length = 2 then 2
  else if (insideVertices near_plane_p near_plane_n t).length = 1 ∨
      (insideVertices near_plane_p near_plane_n t).length = 3 then 1
  else 0

/-- A frame state with a 100 by 100 viewport, for the given camera and look direction. -/
def sample_game (camera look_direction : Vec4 F) (mesh : Option (Mesh F)) : Game F :=
  { m_width := 100, m_height := 100, m_projection_matrix := sample_projection,
    m_camera := camera, m_look_direction := look_direction, m_yaw := 0, m_pitch := 0,
    m_roll := 0, m_theta := 0, m_mesh := mesh }

/-- The view matrix `Game::on_update` computes for a camera and a look direction:
`quick_inverse(point_at(camera, camera + look_direction, (0, 1, 0)))`. -/
def sample_view [HasSqrt F] (camera look_direction : Vec4 F) : Matrix4x4 F :=
  Matrix4x4.quick_inverse
    (Matrix4x4.point_at camera (Vec4.add camera look_direction) ⟨0, 1, 0, 1⟩)

/-- The world matrix of `Game::on_update` for `m_theta = 0`: the translation by
`(0, 0, 10)`. -/
def sample_world : Matrix4x4 F := Matrix4x4.make_translation 0 0 10

/-- Triangle A of the cell `(0, 0)` of the flat height map, water colored. -/
def sample_mesh_triangle : Triangle F :=
  Triangle.ofCoords 0 0 0 0 0 1 1 0 1 ⟨0, 0, 255, 204⟩

/-- Triangle B of the cell `(0, 0)` of the flat height map, water colored. -/
def sample_mesh_triangle_b : Triangle F :=
  Triangle.ofCoords 0 0 0 1 0 1 1 0 0 ⟨0, 0, 255, 204⟩

/-- A camera three units above and four units in front of the first world-space vertex of
`sample_mesh_triangle`. -/
def sample_camera : Vec4 F := ⟨0, 3, 6, 1⟩

/-- The look direction for yaw, pitch and roll `0`. -/
def sample_look : Vec4 F := ⟨0, 0, 1, 1⟩

/-- A camera sixty units above the first world-space vertex of `sample_mesh_triangle`. -/
def sample_far_camera : Vec4 F := ⟨0, 60, 10, 1⟩

/-- A camera half a unit above the ground, just behind the first world-space vertex of
`sample_mesh_triangle_b` when looking along the negative z axis. -/
def sample_near_camera : Vec4 F := ⟨0, 1 / 2, 10 + 11 / 120, 1⟩

/-- The look direction for yaw half a turn, pitch and roll `0`. -/
def sample_look_back : Vec4 F := ⟨0, 0, -1, 1⟩

/-- The screen-space triangle pushed for `sample_mesh_triangle` seen from `sample_camera`. -/
def sample_screen_triangle : Triangle F :=
  ⟨⟨50, 175 / 2, 1, 1⟩, ⟨50, 80, 1, 1⟩, ⟨40, 80, 1, 1⟩, ⟨255, 255, 255, 255⟩⟩

/-- The frame state of the sample: the camera at `sample_camera` looking along
`sample_look`, the mesh made of `sample_mesh_triangle`. -/
def sample_frame : Game F :=
  sample_game sample_camera sample_look (some ⟨[sample_mesh_triangle]⟩)

/-- A screen-space triangle that crosses the top and the left edge of the viewport. -/
def sample_corner_triangle : Triangle F :=
  Triangle.ofCoords (-1) 1 0 3 (-1) 0 3 3 0 ⟨0, 0, 255, 204⟩

/-- The uniform scale by `2`, an invertible matrix that is no look-at matrix. -/
def sample_scale : Matrix4x4 F :=
  Matrix4x4.ofEntries
    2 0 0 0
    0 2 0 0
    0 0 2 0
    0 0 0 1

/-- The inverse of `sample_scale`: the uniform scale by `1 / 2`. -/
def sample_scale_inverse : Matrix4x4 F :=
  Matrix4x4.ofEntries
    (1 / 2) 0 0 0
    0 (1 / 2) 0 0
    0 0 (1 / 2) 0
    0 0 0 1

/-! ### The text mesh source -/

/-- The leading token of a line: its first run of characters that are not white space. -/
def leadingToken (line : List Char) : List Char :=
  (extract_string ⟨line, false⟩ []).2

/-- The vertex a `v x y z` line declares, with `w = 1`: the leading token is `v` and the three
fields after it read as the numbers `x`, `y`, `z`.  Any other line declares none. -/
def declaredVertex (line : List Char) : Option (Vec4 F) :=
  if leadingToken line = ['v'] then
    let rx := extract_float (extract_string ⟨line, false⟩ []).1 (none : Option F)
    let ry := extract_float rx.1 (none : Option F)
    let rz := extract_float ry.1 (none : Option F)
    if rz.1.failbit then none
    else
      match rx.2, ry.2, rz.2 with
      | some x, some y, some z => some ⟨x, y, z, 1⟩
      | _, _, _ => none
  else none

/-- The indices of an `f i1 i2 i3` line: the leading token is `f` and the three fields after
it read as the integers `i1`, `i2`, `i3`.  Any other line has none. -/
def faceIndices (line : List Char) : Option (Int × Int × Int) :=
  if leadingToken line = ['f'] then
    let r1 := extract_int (extract_string ⟨line, false⟩ []).1 none
    let r2 := extract_int r1.1 none
    let r3 := extract_int r2.1 none
    if r3.1.failbit then none
    else
      match r1.2, r2.2, r3.2 with
      | some i1, some i2, some i3 => some (i1, i2, i3)
      | _, _, _ => none
  else none

/-- The `i`-th element of a list, counting from `1`. -/
def nthFromOne {α : Type} (l : List α) (i : Int) : Option α :=
  if 1 ≤ i then l[(i - 1).toNat]? else none

/-- The vertices declared by the `v x y z` lines among the given lines, in line order. -/
def declaredVertices (lines : List (List Char)) : List (Vec4 F) :=
  lines.filterMap declaredVertex

/-- The triangle of an `f i1 i2 i3` line for the vertices declared so far: the `i1`-th,
`i2`-th and `i3`-th of them, in that order, white and fully opaque.  There is none when the
line is no such line or an index is out of range. -/
def faceTriangle (declared : List (Vec4 F)) (line : List Char) : Option (Triangle F) :=
  match faceIndices line with
  | some (i1, i2, i3) =>
    match nthFromOne declared i1, nthFromOne declared i2, nthFromOne declared i3 with
    | some p1, some p2, some p3 => some ⟨p1, p2, p3, ⟨255, 255, 255, 255⟩⟩
    | _, _, _ => none
  | none => none

/-- The triangles of a text mesh source in the words of the specification: one per
`f i1 i2 i3` line, in line order, built from the vertices declared by the `v x y z` lines
before it. -/
def specTriangles (lines : List (List Char)) : List (Triangle F) :=
  (List.range lines.length).filterMap
    (fun k => faceTriangle (declaredVertices (lines.take k)) (lines.getD k []))

/-- A text mesh source is well formed: every line with the leading token `v` is a
`v x y z` line, and every line with the leading token `f` is an `f i1 i2 i3` line whose
indices are in the range of the vertices declared before it. -/
def WellFormedObj (F : Type) [LinearOrderedField F] (lines : List (List Char)) : Prop :=
  ∀ k, k < lines.length →
    (leadingToken (lines.getD k []) = ['v'] →
      (declaredVertex (lines.getD k []) : Option (Vec4 F)).isSome = true) ∧
    (leadingToken (lines.getD k []) = ['f'] →
      (faceTriangle (declaredVertices (lines.take k) : List (Vec4 F))
        (lines.getD k [])).isSome = true)

/-- The text mesh source of the specification: three vertices and one face. -/
def sample_obj : String := "v 0 0 0\nv 1 0 0\nv 0 1 0\nf 1 2 3\n"

/-- A text mesh source whose third vertex has a malformed third field. -/
def sample_malformed_obj : String := "v 0 0 0\nv 1 0 0\nv 0 1 x\nf 1 2 3\n"

/-- The vertex the loader pushes for a line with the leading token `v`: the values the three
extractions leave in `x`, `y` and `z`, whether or not they succeeded, with `w = 1`.  There is
none when the line has another leading token or leaves one of the three variables unset. -/
def storedVertex (line : List Char) : Option (Vec4 F) :=
  if leadingToken line = ['v'] then
    let rx := extract_float (extract_string ⟨line, false⟩ []).1 (none : Option F)
    let ry := extract_float rx.1 (none : Option F)
    let rz := extract_float ry.1 (none : Option F)
    match rx.2, ry.2, rz.2 with
    | some x, some y, some z => some ⟨x, y, z, 1⟩
    | _, _, _ => none
  else none

/-- The vertices the loader has pushed after the given lines, in line order. -/
def storedVertices (lines : List (List Char)) : List (Vec4 F) :=
  lines.filterMap storedVertex

/-- The triangles of the `f i1 i2 i3` lines of a text mesh source, each built from the
vertices the loader has pushed before it. -/
def loadedTriangles (lines : List (List Char)) : List (Triangle F) :=
  (List.range lines.length).filterMap
    (fun k => faceTriangle (storedVertices (lines.take k)) (lines.getD k []))

/-- A text mesh source the loader reads without reading an unset variable or outside the
vector of vertices: every line with the leading token `v` leaves `x`, `y` and `z` set (it
has two numeric fields and a third field, numeric or not), and every line with the leading
token `f` is an `f i1 i2 i3` line whose indices are in the range of the vertices pushed
before it. -/
def ReadableObj (F : Type) [LinearOrderedField F] (lines : List (List Char)) : Prop :=
  ∀ k, k < lines.length →
    (leadingToken (lines.getD k []) = ['v'] →
      (storedVertex (lines.getD k []) : Option (Vec4 F)).isSome = true) ∧
    (leadingToken (lines.getD k []) = ['f'] →
      (faceTriangle (storedVertices (lines.take k) : List (Vec4 F))
        (lines.getD k [])).isSome = true)

/-- A text mesh source with a malformed third vertex line followed by a fourth vertex. -/
def sample_shifted_obj : String := "v 0 0 0\nv 1 0 0\nv 0 1 x\nv 5 5 5\nf 1 2 3\n"

/-! ### Invariants of the pipeline -/

/-- The winding vector of a triangle, `cross(v1 - v0, v2 - v0)`. -/
def Triangle.winding (t : Triangle F) : Vec4 F :=
  Vec4.cross_product (Vec4.subtract t.m_points_1 t.m_points_0)
    (Vec4.subtract t.m_points_2 t.m_points_0)

/-- The triangles a call of `clip_against_plane` emits: as many of the two slots as the
returned count says. -/
def emitted (r : Nat × Triangle F × Triangle F) : List (Triangle F) :=
  [r.2.1, r.2.2].take r.1

/-- The depth of a view-space point after projection and perspective divide. -/
def projectedDepth (projection : Matrix4x4 F) (v : Vec4 F) : F :=
  (Vec4.divide (Matrix4x4.multiply_vector projection v)
    (Matrix4x4.multiply_vector projection v).w).z

/-- A view-space triangle with only its second vertex in front of the near plane. -/
def sample_middle_inside : Triangle F :=
  ⟨Vec4.mk3 1 0 0, Vec4.mk3 0 0 1, Vec4.mk3 0 1 0, sample_color⟩

/-- A frame state with the yaw, pitch and roll of `Game::on_create`, pitch rounded to
`0.77`. -/
def sample_pose : Game F :=
  { m_width := 100, m_height := 100, m_projection_matrix := sample_projection,
    m_camera := ⟨8, 9, 2, 1⟩, m_look_direction := ⟨0, 0, 1, 1⟩, m_yaw := 0,
    m_pitch := 77 / 100, m_roll := 0, m_theta := 0, m_mesh := none }

/-- The vector `a` is `k` times the vector `b`, in `x`, `y` and `z`. -/
def Vec4.IsMultiple (a : Vec4 F) (k : F) (b : Vec4 F) : Prop :=
  a.x = k * b.x ∧ a.y = k * b.y ∧ a.z = k * b.z

end SpecDefs

/-! ## Square roots and normalisation -/

section DotLemmas

variable {F : Type} [LinearOrderedField F]

theorem Vec4.dot_self_nonneg (v : Vec4 F) : 0 ≤ Vec4.dot_product v v := by
  unfold Vec4.dot_product
  nlinarith [mul_self_nonneg v.x, mul_self_nonneg v.y, mul_self_nonneg v.z]

theorem Vec4.dot_self_pos {v : Vec4 F} (hv : v.Nonzero) : 0 < Vec4.dot_product v v := by
  unfold Vec4.dot_product
  rcases hv with hv | hv | hv
  · nlinarith [mul_self_pos.mpr hv, mul_self_nonneg v.y, mul_self_nonneg v.z]
  · nlinarith [mul_self_pos.mpr hv, mul_self_nonneg v.x, mul_self_nonneg v.z]
  · nlinarith [mul_self_pos.mpr hv, mul_self_nonneg v.x, mul_self_nonneg v.y]

end DotLemmas

section SqrtLemmas

variable {F : Type} [LinearOrderedField F] [HasSqrt F]

theorem sqrt_rat_one : HasSqrt.sqrt (1 : ℚ) = 1 := by
  show Rat.sqrt 1 = 1
  have h := Rat.sqrt_eq 1
  rw [mul_one, abs_one] at h
  exact h

theorem exactSqrt_real : ExactSqrt ℝ := fun x hx =>
  ⟨Real.sqrt_nonneg x, Real.mul_self_sqrt hx⟩

theorem ExactSqrt.sqrt_nonneg (h : ExactSqrt F) {x : F} (hx : 0 ≤ x) :
    0 ≤ HasSqrt.sqrt x := (h x hx).1

theorem ExactSqrt.mul_self_sqrt (h : ExactSqrt F) {x : F} (hx : 0 ≤ x) :
    HasSqrt.sqrt x * HasSqrt.sqrt x = x := (h x hx).2

/-- The root is determined by its square. -/
theorem ExactSqrt.sqrt_eq (h : ExactSqrt F) {x y : F} (hy : 0 ≤ y) (hxy : y * y = x) :
    HasSqrt.sqrt x = y := by
  have hx : 0 ≤ x := by rw [← hxy]; exact mul_nonneg hy hy
  have h1 := h.sqrt_nonneg hx
  have h2 := h.mul_self_sqrt hx
  nlinarith [mul_nonneg h1 hy, mul_self_nonneg (HasSqrt.sqrt x - y)]

theorem ExactSqrt.sqrt_one (h : ExactSqrt F) : HasSqrt.sqrt (1 : F) = 1 :=
  h.sqrt_eq zero_le_one (mul_one 1)

theorem Vec4.length_mul_self (h : ExactSqrt F) (v : Vec4 F) :
    Vec4.length v * Vec4.length v = Vec4.dot_product v v :=
  h.mul_self_sqrt v.dot_self_nonneg

theorem Vec4.length_pos (h : ExactSqrt F) {v : Vec4 F} (hv : v.Nonzero) :
    0 < Vec4.length v := by
  have h1 : 0 ≤ Vec4.length v := h.sqrt_nonneg v.dot_self_nonneg
  have h2 := Vec4.length_mul_self h v
  have h3 := Vec4.dot_self_pos hv
  rcases h1.lt_or_eq with h4 | h4
  · exact h4
  · rw [← h4] at h2; simp at h2; linarith

/-- A normalised non-zero vector has unit length squared. -/
theorem Vec4.dot_normalize_self (h : ExactSqrt F) {v : Vec4 F} (hv : v.Nonzero) :
    Vec4.dot_product v.normalize v.normalize = 1 := by
  have hl := Vec4.length_pos h hv
  have h2 := Vec4.length_mul_self h v
  simp only [Vec4.normalize, Vec4.dot_product, Vec4.mk3] at h2 ⊢
  field_simp
  linarith

theorem Vec4.length_normalize (h : ExactSqrt F) {v : Vec4 F} (hv : v.Nonzero) :
    Vec4.length v.normalize = 1 := by
  unfold Vec4.length
  rw [Vec4.dot_normalize_self h hv]
  exact h.sqrt_one

/-- Normalising twice is normalising once. -/
theorem Vec4.normalize_normalize (h : ExactSqrt F) {v : Vec4 F} (hv : v.Nonzero) :
    v.normalize.normalize = v.normalize := by
  have h1 := Vec4.length_normalize h hv
  have h2 : v.normalize.normalize = Vec4.mk3 (v.normalize.x / v.normalize.length)
      (v.normalize.y / v.normalize.length) (v.normalize.z / v.normalize.length) := rfl
  rw [h2, h1]
  simp [Vec4.normalize, Vec4.mk3]

/-- The plane normal handed to `intersect_plane` may be normalised beforehand. -/
theorem Vec4.intersect_plane_normalize (h : ExactSqrt F) (plane_p : Vec4 F) {plane_n : Vec4 F}
    (hn : plane_n.Nonzero) (line_start line_end : Vec4 F) :
    Vec4.intersect_plane plane_p plane_n.normalize line_start line_end
      = Vec4.intersect_plane plane_p plane_n line_start line_end := by
  unfold Vec4.intersect_plane
  rw [Vec4.normalize_normalize h hn]

end SqrtLemmas

/-! ## `Triangle::clip_against_plane` -/

section ClipLemmas
variable {F : Type} [LinearOrderedField F] [HasSqrt F]

theorem shortest_distance_normalize (plane_p plane_n v : Vec4 F) :
    Triangle.shortest_distance plane_p (Vec4.normalize plane_n) v
      = signedDistance plane_p plane_n v := by
  simp [Triangle.shortest_distance, signedDistance, Vec4.dot_product]

/-- When the three distances are non-negative the count is `1`, the first slot gets the three
input vertices and keeps the color it had, and the second slot is untouched. -/
theorem three_inside_passthrough (plane_p plane_n : Vec4 F) (in_tri out_tri1 out_tri2 : Triangle F)
    (h0 : 0 ≤ signedDistance plane_p plane_n in_tri.m_points_0)
    (h1 : 0 ≤ signedDistance plane_p plane_n in_tri.m_points_1)
    (h2 : 0 ≤ signedDistance plane_p plane_n in_tri.m_points_2) :
    Triangle.clip_against_plane plane_p plane_n in_tri out_tri1 out_tri2
      = (1, ⟨in_tri.m_points_0, in_tri.m_points_1, in_tri.m_points_2, out_tri1.m_color⟩,
          out_tri2) := by
  simp [Triangle.clip_against_plane, Triangle.Buckets.classify, Triangle.Buckets.init,
    shortest_distance_normalize, h0, h1, h2]

/-- The code's two buckets are the two filtered vertex lists of the specification, and the
result is determined by them. -/
theorem clip_eq_buckets (plane_p plane_n : Vec4 F) (in_tri out_tri1 out_tri2 : Triangle F) :
    Triangle.clip_against_plane plane_p plane_n in_tri out_tri1 out_tri2 =
      match insideVertices plane_p plane_n in_tri, outsideVertices plane_p plane_n in_tri with
      | [a, b, c], _ => (1, ⟨a, b, c, out_tri1.m_color⟩, out_tri2)
      | [a], [u, v] =>
          (1, ⟨a, Vec4.intersect_plane plane_p plane_n.normalize a u,
                Vec4.intersect_plane plane_p plane_n.normalize a v, in_tri.m_color⟩, out_tri2)
      | [a, b], [u] =>
          (2, ⟨a, b, Vec4.intersect_plane plane_p plane_n.normalize a u, in_tri.m_color⟩,
              ⟨b, Vec4.intersect_plane plane_p plane_n.normalize a u,
                  Vec4.intersect_plane plane_p plane_n.normalize b u, in_tri.m_color⟩)
      | _, _ => (0, out_tri1, out_tri2) := by
  simp only [insideVertices, outsideVertices, Triangle.vertices, Triangle.clip_against_plane,
    Triangle.Buckets.classify, Triangle.Buckets.init, shortest_distance_normalize]
  by_cases h0 : 0 ≤ signedDistance plane_p plane_n in_tri.m_points_0 <;>
  by_cases h1 : 0 ≤ signedDistance plane_p plane_n in_tri.m_points_1 <;>
  by_cases h2 : 0 ≤ signedDistance plane_p plane_n in_tri.m_points_2 <;>
  simp [List.filter, h0, h1, h2, not_le.mp, not_lt.mpr]


theorem mem_insideVertices {plane_p plane_n : Vec4 F} {t : Triangle F} {v : Vec4 F}
    (hv : v ∈ insideVertices plane_p plane_n t) : 0 ≤ signedDistance plane_p plane_n v := by
  simpa using (List.mem_filter.mp hv).2

theorem mem_outsideVertices {plane_p plane_n : Vec4 F} {t : Triangle F} {v : Vec4 F}
    (hv : v ∈ outsideVertices plane_p plane_n t) : signedDistance plane_p plane_n v < 0 := by
  simpa using (List.mem_filter.mp hv).2

/-- The point returned by `intersect_plane` has signed distance `0` when the two end points
have different signed distances. -/
theorem signedDistance_intersect_plane (plane_p plane_n line_start line_end : Vec4 F)
    (hne : signedDistance plane_p plane_n line_end ≠ signedDistance plane_p plane_n line_start) :
    signedDistance plane_p plane_n
      (Vec4.intersect_plane plane_p plane_n line_start line_end) = 0 := by
  simp only [signedDistance, Vec4.intersect_plane, Vec4.dot_product, Vec4.add, Vec4.multiply,
    Vec4.subtract, Vec4.mk3] at hne ⊢
  have hd : plane_n.normalize.x * line_end.x + plane_n.normalize.y * line_end.y
      + plane_n.normalize.z * line_end.z
      - (plane_n.normalize.x * line_start.x + plane_n.normalize.y * line_start.y
      + plane_n.normalize.z * line_start.z) ≠ 0 := by
    intro h0
    apply hne
    linarith
  have hd2 : line_end.x * plane_n.normalize.x + line_end.y * plane_n.normalize.y
      + line_end.z * plane_n.normalize.z
      - (line_start.x * plane_n.normalize.x + line_start.y * plane_n.normalize.y
      + line_start.z * plane_n.normalize.z) ≠ 0 := by
    intro h0
    apply hd
    linarith
  field_simp
  ring

end ClipLemmas

section ClipTheorems
variable {F : Type} [LinearOrderedField F] [HasSqrt F]

/-- C2: for every plane and input triangle, `clip_against_plane` returns 0 if and only if the
three signed distances `dot(n̂, vertex) - dot(n̂, planePoint)` are all negative, and its count is
2 when exactly two vertices are inside (`d ≥ 0`), 1 when exactly one or exactly three are, and
0 otherwise.  It holds for every plane normal, the non-zero ones included. -/
theorem clip_count_by_inside (plane_p plane_n : Vec4 F)
    (in_tri out_tri1 out_tri2 : Triangle F) :
    ((Triangle.clip_against_plane plane_p plane_n in_tri out_tri1 out_tri2).1 = 0 ↔
        signedDistance plane_p plane_n in_tri.m_points_0 < 0 ∧
        signedDistance plane_p plane_n in_tri.m_points_1 < 0 ∧
        signedDistance plane_p plane_n in_tri.m_points_2 < 0) ∧
    (Triangle.clip_against_plane plane_p plane_n in_tri out_tri1 out_tri2).1 =
      (if (insideVertices plane_p plane_n in_tri).length = 2 then 2
       else if (insideVertices plane_p plane_n in_tri).length = 1 ∨
          (insideVertices plane_p plane_n in_tri).length = 3 then 1
       else 0) := by
  rw [clip_eq_buckets]
  simp only [insideVertices, outsideVertices, Triangle.vertices]
  by_cases h0 : 0 ≤ signedDistance plane_p plane_n in_tri.m_points_0 <;>
  by_cases h1 : 0 ≤ signedDistance plane_p plane_n in_tri.m_points_1 <;>
  by_cases h2 : 0 ≤ signedDistance plane_p plane_n in_tri.m_points_2 <;>
  simp [List.filter, h0, h1, h2, not_le.mp, not_lt.mpr]

/-- C3: for a plane with a non-zero normal and a triangle whose inside bucket is `[a]` and
whose outside bucket is `[u, v]` (original vertex order), `clip_against_plane` returns 1 and the
first output triangle is `[a, intersect(a, u), intersect(a, v)]` with the color of the input,
and the second and third vertices have signed distance exactly `0` to the plane. -/
theorem clip_one_inside_triangle (hsqrt : ExactSqrt F) (plane_p plane_n : Vec4 F)
    (hn : plane_n.Nonzero) (in_tri out_tri1 out_tri2 : Triangle F) (a u v : Vec4 F)
    (hin : insideVertices plane_p plane_n in_tri = [a])
    (hout : outsideVertices plane_p plane_n in_tri = [u, v]) :
    Triangle.clip_against_plane plane_p plane_n in_tri out_tri1 out_tri2 =
      (1, ⟨a, Vec4.intersect_plane plane_p plane_n a u,
           Vec4.intersect_plane plane_p plane_n a v, in_tri.m_color⟩, out_tri2) ∧
    signedDistance plane_p plane_n (Vec4.intersect_plane plane_p plane_n a u) = 0 ∧
    signedDistance plane_p plane_n (Vec4.intersect_plane plane_p plane_n a v) = 0 := by
  have ha : 0 ≤ signedDistance plane_p plane_n a := mem_insideVertices (t := in_tri) (by simp [hin])
  have hu : signedDistance plane_p plane_n u < 0 := mem_outsideVertices (t := in_tri) (by simp [hout])
  have hv : signedDistance plane_p plane_n v < 0 := mem_outsideVertices (t := in_tri) (by simp [hout])
  refine ⟨?_, ?_, ?_⟩
  · rw [clip_eq_buckets, hin, hout]
    simp only [Vec4.intersect_plane_normalize hsqrt plane_p hn]
  · exact signedDistance_intersect_plane _ _ _ _ (by linarith)
  · exact signedDistance_intersect_plane _ _ _ _ (by linarith)

/-- With the inside bucket `[a, b]` and the outside bucket `[u]` the result is the quad
`[a, b, intersect(a, u)]`, `[b, intersect(a, u), intersect(b, u)]`. -/
theorem two_inside_result (hsqrt : ExactSqrt F) (plane_p plane_n : Vec4 F)
    (hn : plane_n.Nonzero) (in_tri out_tri1 out_tri2 : Triangle F) (a b u : Vec4 F)
    (hin : insideVertices plane_p plane_n in_tri = [a, b])
    (hout : outsideVertices plane_p plane_n in_tri = [u]) :
    Triangle.clip_against_plane plane_p plane_n in_tri out_tri1 out_tri2 =
      (2, ⟨a, b, Vec4.intersect_plane plane_p plane_n a u, in_tri.m_color⟩,
          ⟨b, Vec4.intersect_plane plane_p plane_n a u,
              Vec4.intersect_plane plane_p plane_n b u, in_tri.m_color⟩) := by
  rw [clip_eq_buckets, hin, hout]
  simp only [Vec4.intersect_plane_normalize hsqrt plane_p hn]

/-- C4: for a plane with a non-zero normal and a triangle whose inside bucket is `[a, b]` and
whose outside bucket is `[u]`, `clip_against_plane` returns 2, the first output triangle is
`[a, b, intersect(a, u)]`, the second is `[b, intersect(a, u), intersect(b, u)]`, both with the
color of the input, and the second vertex of the second triangle is the third vertex of the
first. -/
theorem clip_two_inside_quad (hsqrt : ExactSqrt F) (plane_p plane_n : Vec4 F)
    (hn : plane_n.Nonzero) (in_tri out_tri1 out_tri2 : Triangle F) (a b u : Vec4 F)
    (hin : insideVertices plane_p plane_n in_tri = [a, b])
    (hout : outsideVertices plane_p plane_n in_tri = [u]) :
    Triangle.clip_against_plane plane_p plane_n in_tri out_tri1 out_tri2 =
      (2, ⟨a, b, Vec4.intersect_plane plane_p plane_n a u, in_tri.m_color⟩,
          ⟨b, Vec4.intersect_plane plane_p plane_n a u,
              Vec4.intersect_plane plane_p plane_n b u, in_tri.m_color⟩) ∧
    (Triangle.clip_against_plane plane_p plane_n in_tri out_tri1 out_tri2).2.2.m_points_1 =
      (Triangle.clip_against_plane plane_p plane_n in_tri out_tri1 out_tri2).2.1.m_points_2 := by
  rw [two_inside_result hsqrt plane_p plane_n hn in_tri out_tri1 out_tri2 a b u hin hout]
  exact ⟨rfl, rfl⟩


end ClipTheorems

section Area
variable {F : Type} [LinearOrderedField F] [HasSqrt F]

theorem intersect_plane_eq_lerp (plane_p plane_n line_start line_end : Vec4 F) :
    Vec4.intersect_plane plane_p plane_n line_start line_end =
      Vec4.mk3
        (line_start.x + (line_end.x - line_start.x) *
          intersectParam plane_p plane_n line_start line_end)
        (line_start.y + (line_end.y - line_start.y) *
          intersectParam plane_p plane_n line_start line_end)
        (line_start.z + (line_end.z - line_start.z) *
          intersectParam plane_p plane_n line_start line_end) := by
  have ht : (-(-Vec4.dot_product plane_n.normalize plane_p)
        - Vec4.dot_product line_start plane_n.normalize) /
        (Vec4.dot_product line_end plane_n.normalize
          - Vec4.dot_product line_start plane_n.normalize)
      = intersectParam plane_p plane_n line_start line_end := by
    unfold intersectParam signedDistance
    rw [← neg_div_neg_eq]
    congr 1
    · simp only [Vec4.dot_product]; ring
    · simp only [Vec4.dot_product]; ring
  simp only [Vec4.intersect_plane, ht, Vec4.add, Vec4.multiply, Vec4.subtract, Vec4.mk3]

theorem intersectParam_bounds {plane_p plane_n line_start line_end : Vec4 F}
    (hs : 0 ≤ signedDistance plane_p plane_n line_start)
    (he : signedDistance plane_p plane_n line_end < 0) :
    0 ≤ intersectParam plane_p plane_n line_start line_end ∧
      intersectParam plane_p plane_n line_start line_end < 1 := by
  unfold intersectParam
  have hd : 0 < signedDistance plane_p plane_n line_start
      - signedDistance plane_p plane_n line_end := by linarith
  constructor
  · exact div_nonneg hs hd.le
  · rw [div_lt_one hd]; linarith

theorem length_of_smul (hsqrt : ExactSqrt F) (X N : Vec4 F) (k : F)
    (hx : X.x = k * N.x) (hy : X.y = k * N.y) (hz : X.z = k * N.z) :
    Vec4.length X = |k| * Vec4.length N := by
  have hN := Vec4.length_mul_self hsqrt N
  have hN0 : 0 ≤ Vec4.length N := hsqrt.sqrt_nonneg N.dot_self_nonneg
  unfold Vec4.length at hN hN0 ⊢
  apply hsqrt.sqrt_eq (mul_nonneg (abs_nonneg k) hN0)
  have : |k| * HasSqrt.sqrt (N.dot_product N) * (|k| * HasSqrt.sqrt (N.dot_product N))
      = (|k| * |k|) * (HasSqrt.sqrt (N.dot_product N) * HasSqrt.sqrt (N.dot_product N)) := by ring
  rw [this, hN, abs_mul_abs_self]
  simp only [Vec4.dot_product, hx, hy, hz]
  ring


theorem triangleArea_of_smul (hsqrt : ExactSqrt F) (a b c a' b' c' : Vec4 F) (k : F)
    (hx : (Vec4.cross_product (Vec4.subtract b' a') (Vec4.subtract c' a')).x
      = k * (Vec4.cross_product (Vec4.subtract b a) (Vec4.subtract c a)).x)
    (hy : (Vec4.cross_product (Vec4.subtract b' a') (Vec4.subtract c' a')).y
      = k * (Vec4.cross_product (Vec4.subtract b a) (Vec4.subtract c a)).y)
    (hz : (Vec4.cross_product (Vec4.subtract b' a') (Vec4.subtract c' a')).z
      = k * (Vec4.cross_product (Vec4.subtract b a) (Vec4.subtract c a)).z) :
    triangleArea a' b' c' = |k| * triangleArea a b c := by
  unfold triangleArea
  rw [length_of_smul hsqrt _ _ k hx hy hz]
  ring

/-- Cutting the corner `u` off the triangle `(a, b, u)`: the two triangles of the remaining
quad and the corner triangle add up to the whole. -/
theorem area_split (hsqrt : ExactSqrt F) (a b u : Vec4 F) (s r : F)
    (hs0 : 0 ≤ s) (hs1 : s ≤ 1) (hr0 : 0 ≤ r) (hr1 : r ≤ 1) :
    triangleArea a b (lerp a u s) + triangleArea b (lerp a u s) (lerp b u r)
      + triangleArea u (lerp a u s) (lerp b u r) = triangleArea a b u := by
  rw [triangleArea_of_smul hsqrt a b u a b (lerp a u s) s
      (by simp only [lerp, Vec4.cross_product, Vec4.subtract, Vec4.mk3]; ring)
      (by simp only [lerp, Vec4.cross_product, Vec4.subtract, Vec4.mk3]; ring)
      (by simp only [lerp, Vec4.cross_product, Vec4.subtract, Vec4.mk3]; ring),
    triangleArea_of_smul hsqrt a b u b (lerp a u s) (lerp b u r) (-(r * (1 - s)))
      (by simp only [lerp, Vec4.cross_product, Vec4.subtract, Vec4.mk3]; ring)
      (by simp only [lerp, Vec4.cross_product, Vec4.subtract, Vec4.mk3]; ring)
      (by simp only [lerp, Vec4.cross_product, Vec4.subtract, Vec4.mk3]; ring),
    triangleArea_of_smul hsqrt a b u u (lerp a u s) (lerp b u r) ((1 - s) * (1 - r))
      (by simp only [lerp, Vec4.cross_product, Vec4.subtract, Vec4.mk3]; ring)
      (by simp only [lerp, Vec4.cross_product, Vec4.subtract, Vec4.mk3]; ring)
      (by simp only [lerp, Vec4.cross_product, Vec4.subtract, Vec4.mk3]; ring)]
  have h1 : 0 ≤ 1 - s := by linarith
  have h2 : 0 ≤ 1 - r := by linarith
  rw [abs_of_nonneg hs0, abs_neg, abs_of_nonneg (mul_nonneg hr0 h1),
    abs_of_nonneg (mul_nonneg h1 h2)]
  ring

/-- With two vertices inside and one outside, the input triangle is one of three
arrangements of the two buckets. -/
theorem vertices_of_two_inside {plane_p plane_n : Vec4 F} {t : Triangle F} {a b u : Vec4 F}
    (hin : insideVertices plane_p plane_n t = [a, b])
    (hout : outsideVertices plane_p plane_n t = [u]) :
    t.vertices = [u, a, b] ∨ t.vertices = [a, u, b] ∨ t.vertices = [a, b, u] := by
  simp only [insideVertices, outsideVertices, Triangle.vertices] at hin hout ⊢
  by_cases h0 : 0 ≤ signedDistance plane_p plane_n t.m_points_0 <;>
  by_cases h1 : 0 ≤ signedDistance plane_p plane_n t.m_points_1 <;>
  by_cases h2 : 0 ≤ signedDistance plane_p plane_n t.m_points_2 <;>
  simp [List.filter, h0, h1, h2, not_le.mp, not_lt.mpr] at hin hout <;>
  simp [hin, hout]

/-- C5: for a plane with a non-zero normal and a triangle with two vertices `a`, `b` inside
and one vertex `u` outside, the areas of the two emitted triangles and of the cut-off corner
`(u, intersect(a, u), intersect(b, u))` add up to the area of the input triangle.  It holds for
degenerate input triangles as well. -/
theorem clip_two_inside_area_sum (hsqrt : ExactSqrt F) (plane_p plane_n : Vec4 F)
    (hn : plane_n.Nonzero) (in_tri out_tri1 out_tri2 : Triangle F) (a b u : Vec4 F)
    (hin : insideVertices plane_p plane_n in_tri = [a, b])
    (hout : outsideVertices plane_p plane_n in_tri = [u]) :
    (Triangle.clip_against_plane plane_p plane_n in_tri out_tri1 out_tri2).2.1.area
      + (Triangle.clip_against_plane plane_p plane_n in_tri out_tri1 out_tri2).2.2.area
      + triangleArea u (Vec4.intersect_plane plane_p plane_n a u)
          (Vec4.intersect_plane plane_p plane_n b u)
      = in_tri.area := by
  have ha : 0 ≤ signedDistance plane_p plane_n a := mem_insideVertices (t := in_tri) (by simp [hin])
  have hb : 0 ≤ signedDistance plane_p plane_n b := mem_insideVertices (t := in_tri) (by simp [hin])
  have hu : signedDistance plane_p plane_n u < 0 := mem_outsideVertices (t := in_tri) (by simp [hout])
  obtain ⟨hs0, hs1⟩ := intersectParam_bounds ha hu
  obtain ⟨hr0, hr1⟩ := intersectParam_bounds hb hu
  have hclip := two_inside_result hsqrt plane_p plane_n hn in_tri out_tri1 out_tri2
    a b u hin hout
  have harea : in_tri.area = triangleArea a b u := by
    unfold Triangle.area
    have hk : ∀ (p q r : Vec4 F) (k : F), |k| = 1 →
        (Vec4.cross_product (Vec4.subtract q p) (Vec4.subtract r p)).x
          = k * (Vec4.cross_product (Vec4.subtract b a) (Vec4.subtract u a)).x →
        (Vec4.cross_product (Vec4.subtract q p) (Vec4.subtract r p)).y
          = k * (Vec4.cross_product (Vec4.subtract b a) (Vec4.subtract u a)).y →
        (Vec4.cross_product (Vec4.subtract q p) (Vec4.subtract r p)).z
          = k * (Vec4.cross_product (Vec4.subtract b a) (Vec4.subtract u a)).z →
        triangleArea p q r = triangleArea a b u := by
      intro p q r k hk1 hx hy hz
      rw [triangleArea_of_smul hsqrt a b u p q r k hx hy hz, hk1, one_mul]
    rcases vertices_of_two_inside hin hout with h | h | h
    · simp only [Triangle.vertices, List.cons.injEq, and_true] at h
      obtain ⟨h0, h1, h2⟩ := h
      rw [h0, h1, h2]
      apply hk u a b 1 (by simp) <;>
        (simp only [Vec4.cross_product, Vec4.subtract, Vec4.mk3]; ring)
    · simp only [Triangle.vertices, List.cons.injEq, and_true] at h
      obtain ⟨h0, h1, h2⟩ := h
      rw [h0, h1, h2]
      apply hk a u b (-1) (by simp) <;>
        (simp only [Vec4.cross_product, Vec4.subtract, Vec4.mk3]; ring)
    · simp only [Triangle.vertices, List.cons.injEq, and_true] at h
      obtain ⟨h0, h1, h2⟩ := h
      rw [h0, h1, h2]
  rw [hclip, harea]
  simp only [Triangle.area, intersect_plane_eq_lerp]
  exact area_split hsqrt a b u _ _ hs0 hs1.le hr0 hr1.le

end Area

theorem sqrt_real_one : HasSqrt.sqrt (1 : ℝ) = 1 := Real.sqrt_one

section IntersectTheorems
variable {F : Type} [LinearOrderedField F] [HasSqrt F]

/-- C6: for every plane point, plane normal and segment with
`dot(lineEnd, n̂) ≠ dot(lineStart, n̂)`, `intersect_plane` returns
`lineStart + t * (lineEnd - lineStart)` with `t = (-d - ad) / (bd - ad)`,
`d = -dot(n̂, planePoint)`, `ad = dot(lineStart, n̂)`, `bd = dot(lineEnd, n̂)` and `w = 1`, and
that point lies on the plane: `dot(n̂, result) = dot(n̂, planePoint)`. -/
theorem intersect_plane_on_plane (plane_p plane_n line_start line_end : Vec4 F)
    (hne : Vec4.dot_product line_end plane_n.normalize
      ≠ Vec4.dot_product line_start plane_n.normalize) :
    Vec4.intersect_plane plane_p plane_n line_start line_end =
      ⟨line_start.x + (-(-Vec4.dot_product plane_n.normalize plane_p)
            - Vec4.dot_product line_start plane_n.normalize)
          / (Vec4.dot_product line_end plane_n.normalize
            - Vec4.dot_product line_start plane_n.normalize) * (line_end.x - line_start.x),
       line_start.y + (-(-Vec4.dot_product plane_n.normalize plane_p)
            - Vec4.dot_product line_start plane_n.normalize)
          / (Vec4.dot_product line_end plane_n.normalize
            - Vec4.dot_product line_start plane_n.normalize) * (line_end.y - line_start.y),
       line_start.z + (-(-Vec4.dot_product plane_n.normalize plane_p)
            - Vec4.dot_product line_start plane_n.normalize)
          / (Vec4.dot_product line_end plane_n.normalize
            - Vec4.dot_product line_start plane_n.normalize) * (line_end.z - line_start.z),
       1⟩ ∧
    Vec4.dot_product plane_n.normalize
        (Vec4.intersect_plane plane_p plane_n line_start line_end)
      = Vec4.dot_product plane_n.normalize plane_p := by
  constructor
  · simp only [Vec4.intersect_plane, Vec4.add, Vec4.multiply, Vec4.subtract, Vec4.mk3,
      Vec4.mk.injEq, and_true]
    refine ⟨?_, ?_, ?_⟩ <;> ring
  · have h := signedDistance_intersect_plane plane_p plane_n line_start line_end (by
      intro h
      apply hne
      simp only [signedDistance, Vec4.dot_product] at h ⊢
      linarith)
    unfold signedDistance at h
    linarith

end IntersectTheorems

/-- C1: at the near-plane call of `Game::on_update` on a triangle whose three signed distances
are non-negative, with the output slots holding `Triangle{}` as they do there,
`clip_against_plane` returns 1 and the first output triangle has the three input vertices in
their order, but its color is the white the slot held before the call, not the color of the
input triangle: the pass-through case copies the points and leaves `m_color` alone. -/
theorem clip_three_inside_color_not_copied :
    (0 ≤ signedDistance (near_plane_p : Vec4 ℚ) near_plane_n sample_three_inside.m_points_0 ∧
      0 ≤ signedDistance (near_plane_p : Vec4 ℚ) near_plane_n sample_three_inside.m_points_1 ∧
      0 ≤ signedDistance (near_plane_p : Vec4 ℚ) near_plane_n sample_three_inside.m_points_2) ∧
    Triangle.clip_against_plane (near_plane_p : Vec4 ℚ) near_plane_n sample_three_inside
        Triangle.empty Triangle.empty
      = ((1, ⟨Vec4.mk3 0 0 1, Vec4.mk3 1 0 1, Vec4.mk3 0 1 1, ⟨255, 255, 255, 255⟩⟩,
          Triangle.empty) : Nat × Triangle ℚ × Triangle ℚ) ∧
    (Triangle.clip_against_plane (near_plane_p : Vec4 ℚ) near_plane_n sample_three_inside
        Triangle.empty Triangle.empty).2.1.m_color
      ≠ (sample_three_inside : Triangle ℚ).m_color := by
  have h0 : 0 ≤ signedDistance (near_plane_p : Vec4 ℚ) near_plane_n
      sample_three_inside.m_points_0 := by
    norm_num [signedDistance, Vec4.normalize, Vec4.length, Vec4.dot_product, Vec4.mk3,
      sqrt_rat_one, near_plane_p, near_plane_n, sample_three_inside]
  have h1 : 0 ≤ signedDistance (near_plane_p : Vec4 ℚ) near_plane_n
      sample_three_inside.m_points_1 := by
    norm_num [signedDistance, Vec4.normalize, Vec4.length, Vec4.dot_product, Vec4.mk3,
      sqrt_rat_one, near_plane_p, near_plane_n, sample_three_inside]
  have h2 : 0 ≤ signedDistance (near_plane_p : Vec4 ℚ) near_plane_n
      sample_three_inside.m_points_2 := by
    norm_num [signedDistance, Vec4.normalize, Vec4.length, Vec4.dot_product, Vec4.mk3,
      sqrt_rat_one, near_plane_p, near_plane_n, sample_three_inside]
  have h := three_inside_passthrough (near_plane_p : Vec4 ℚ) near_plane_n sample_three_inside
    Triangle.empty Triangle.empty h0 h1 h2
  refine ⟨⟨h0, h1, h2⟩, ?_, ?_⟩
  · rw [h]
    rfl
  · rw [h]
    simp [sample_three_inside, sample_color, Triangle.empty, Triangle.white]

theorem intersect_plane_on_plane_witness :
    Vec4.dot_product (Vec4.mk3 (1 : ℚ) 0 0) (Vec4.normalize ⟨0, 0, 1, 1⟩)
      ≠ Vec4.dot_product (Vec4.mk3 (0 : ℚ) 0 1) (Vec4.normalize ⟨0, 0, 1, 1⟩) ∧
    Vec4.dot_product (Vec4.normalize (⟨0, 0, 1, 1⟩ : Vec4 ℚ))
        (Vec4.intersect_plane ⟨0, 0, 1/10, 1⟩ ⟨0, 0, 1, 1⟩ (Vec4.mk3 0 0 1) (Vec4.mk3 1 0 0))
      = Vec4.dot_product (Vec4.normalize (⟨0, 0, 1, 1⟩ : Vec4 ℚ)) ⟨0, 0, 1/10, 1⟩ :=
  ⟨by norm_num [Vec4.normalize, Vec4.length, Vec4.dot_product, Vec4.mk3, sqrt_rat_one],
   (intersect_plane_on_plane (⟨0, 0, 1/10, 1⟩ : Vec4 ℚ) ⟨0, 0, 1, 1⟩ (Vec4.mk3 0 0 1)
      (Vec4.mk3 1 0 0)
      (by norm_num [Vec4.normalize, Vec4.length, Vec4.dot_product, Vec4.mk3, sqrt_rat_one])).2⟩

theorem near_plane_n_nonzero : (near_plane_n : Vec4 ℝ).Nonzero := by
  simp [Vec4.Nonzero, near_plane_n]

theorem sample_one_inside_inside :
    insideVertices (near_plane_p : Vec4 ℝ) near_plane_n sample_one_inside = [Vec4.mk3 0 0 1] := by
  norm_num [insideVertices, Triangle.vertices, signedDistance, Vec4.normalize, Vec4.length,
      Vec4.dot_product, Vec4.mk3, sqrt_real_one, List.filter, near_plane_p, near_plane_n,
      sample_one_inside]

theorem sample_one_inside_outside :
    outsideVertices (near_plane_p : Vec4 ℝ) near_plane_n sample_one_inside
      = [Vec4.mk3 1 0 0, Vec4.mk3 0 1 0] := by
  norm_num [outsideVertices, Triangle.vertices, signedDistance, Vec4.normalize, Vec4.length,
      Vec4.dot_product, Vec4.mk3, sqrt_real_one, List.filter, near_plane_p, near_plane_n,
      sample_one_inside]

theorem clip_one_inside_triangle_witness :
    (insideVertices (near_plane_p : Vec4 ℝ) near_plane_n sample_one_inside = [Vec4.mk3 0 0 1] ∧
      outsideVertices (near_plane_p : Vec4 ℝ) near_plane_n sample_one_inside
        = [Vec4.mk3 1 0 0, Vec4.mk3 0 1 0]) ∧
    (Triangle.clip_against_plane (near_plane_p : Vec4 ℝ) near_plane_n sample_one_inside
        Triangle.empty Triangle.empty =
      (1, ⟨Vec4.mk3 0 0 1,
           Vec4.intersect_plane near_plane_p near_plane_n (Vec4.mk3 0 0 1) (Vec4.mk3 1 0 0),
           Vec4.intersect_plane near_plane_p near_plane_n (Vec4.mk3 0 0 1) (Vec4.mk3 0 1 0),
           sample_color⟩, Triangle.empty) ∧
    signedDistance (near_plane_p : Vec4 ℝ) near_plane_n
      (Vec4.intersect_plane near_plane_p near_plane_n (Vec4.mk3 0 0 1) (Vec4.mk3 1 0 0)) = 0 ∧
    signedDistance (near_plane_p : Vec4 ℝ) near_plane_n
      (Vec4.intersect_plane near_plane_p near_plane_n (Vec4.mk3 0 0 1) (Vec4.mk3 0 1 0)) = 0) :=
  ⟨⟨sample_one_inside_inside, sample_one_inside_outside⟩,
    clip_one_inside_triangle exactSqrt_real near_plane_p near_plane_n near_plane_n_nonzero
      sample_one_inside Triangle.empty Triangle.empty (Vec4.mk3 0 0 1) (Vec4.mk3 1 0 0)
      (Vec4.mk3 0 1 0) sample_one_inside_inside sample_one_inside_outside⟩

theorem sample_two_inside_inside :
    insideVertices (near_plane_p : Vec4 ℝ) near_plane_n sample_two_inside
      = [Vec4.mk3 0 0 1, Vec4.mk3 0 1 1] := by
  norm_num [insideVertices, Triangle.vertices, signedDistance, Vec4.normalize, Vec4.length,
      Vec4.dot_product, Vec4.mk3, sqrt_real_one, List.filter, near_plane_p, near_plane_n,
      sample_two_inside]

theorem sample_two_inside_outside :
    outsideVertices (near_plane_p : Vec4 ℝ) near_plane_n sample_two_inside
      = [Vec4.mk3 1 0 0] := by
  norm_num [outsideVertices, Triangle.vertices, signedDistance, Vec4.normalize, Vec4.length,
      Vec4.dot_product, Vec4.mk3, sqrt_real_one, List.filter, near_plane_p, near_plane_n,
      sample_two_inside]

theorem clip_two_inside_quad_witness :
    (insideVertices (near_plane_p : Vec4 ℝ) near_plane_n sample_two_inside
        = [Vec4.mk3 0 0 1, Vec4.mk3 0 1 1] ∧
      outsideVertices (near_plane_p : Vec4 ℝ) near_plane_n sample_two_inside
        = [Vec4.mk3 1 0 0]) ∧
    (Triangle.clip_against_plane (near_plane_p : Vec4 ℝ) near_plane_n sample_two_inside
        Triangle.empty Triangle.empty =
      (2, ⟨Vec4.mk3 0 0 1, Vec4.mk3 0 1 1,
           Vec4.intersect_plane near_plane_p near_plane_n (Vec4.mk3 0 0 1) (Vec4.mk3 1 0 0),
           sample_color⟩,
          ⟨Vec4.mk3 0 1 1,
           Vec4.intersect_plane near_plane_p near_plane_n (Vec4.mk3 0 0 1) (Vec4.mk3 1 0 0),
           Vec4.intersect_plane near_plane_p near_plane_n (Vec4.mk3 0 1 1) (Vec4.mk3 1 0 0),
           sample_color⟩) ∧
    (Triangle.clip_against_plane (near_plane_p : Vec4 ℝ) near_plane_n sample_two_inside
        Triangle.empty Triangle.empty).2.2.m_points_1 =
      (Triangle.clip_against_plane (near_plane_p : Vec4 ℝ) near_plane_n sample_two_inside
        Triangle.empty Triangle.empty).2.1.m_points_2) :=
  ⟨⟨sample_two_inside_inside, sample_two_inside_outside⟩,
    clip_two_inside_quad exactSqrt_real near_plane_p near_plane_n near_plane_n_nonzero
      sample_two_inside Triangle.empty Triangle.empty (Vec4.mk3 0 0 1) (Vec4.mk3 0 1 1)
      (Vec4.mk3 1 0 0) sample_two_inside_inside sample_two_inside_outside⟩

theorem clip_two_inside_area_sum_witness :
    (insideVertices (near_plane_p : Vec4 ℝ) near_plane_n sample_two_inside
        = [Vec4.mk3 0 0 1, Vec4.mk3 0 1 1] ∧
      outsideVertices (near_plane_p : Vec4 ℝ) near_plane_n sample_two_inside
        = [Vec4.mk3 1 0 0]) ∧
    (Triangle.clip_against_plane (near_plane_p : Vec4 ℝ) near_plane_n sample_two_inside
        Triangle.empty Triangle.empty).2.1.area
      + (Triangle.clip_against_plane (near_plane_p : Vec4 ℝ) near_plane_n sample_two_inside
        Triangle.empty Triangle.empty).2.2.area
      + triangleArea (Vec4.mk3 1 0 0)
          (Vec4.intersect_plane near_plane_p near_plane_n (Vec4.mk3 0 0 1) (Vec4.mk3 1 0 0))
          (Vec4.intersect_plane near_plane_p near_plane_n (Vec4.mk3 0 1 1) (Vec4.mk3 1 0 0))
      = (sample_two_inside : Triangle ℝ).area :=
  ⟨⟨sample_two_inside_inside, sample_two_inside_outside⟩,
    clip_two_inside_area_sum exactSqrt_real near_plane_p near_plane_n
      near_plane_n_nonzero sample_two_inside Triangle.empty Triangle.empty (Vec4.mk3 0 0 1)
      (Vec4.mk3 0 1 1) (Vec4.mk3 1 0 0) sample_two_inside_inside sample_two_inside_outside⟩

/-! ## `class Matrix4x4` -/

section MatrixEntries
variable {F : Type}

theorem Matrix4x4.ext_entries {A B : Matrix4x4 F} (h : ∀ r c, A.m_matrix r c = B.m_matrix r c) :
    A = B := by
  cases A; cases B
  simp only [Matrix4x4.mk.injEq]
  funext r c
  exact h r c

/-- The entries of `Matrix4x4(m0, ..., mf)`. -/
theorem Matrix4x4.ofEntries_entries (m0 m1 m2 m3 m4 m5 m6 m7 m8 m9 ma mb mc md me mf : F) :
    (Matrix4x4.ofEntries m0 m1 m2 m3 m4 m5 m6 m7 m8 m9 ma mb mc md me mf).m_matrix 0 0 = m0 ∧
    (Matrix4x4.ofEntries m0 m1 m2 m3 m4 m5 m6 m7 m8 m9 ma mb mc md me mf).m_matrix 0 1 = m1 ∧
    (Matrix4x4.ofEntries m0 m1 m2 m3 m4 m5 m6 m7 m8 m9 ma mb mc md me mf).m_matrix 0 2 = m2 ∧
    (Matrix4x4.ofEntries m0 m1 m2 m3 m4 m5 m6 m7 m8 m9 ma mb mc md me mf).m_matrix 0 3 = m3 ∧
    (Matrix4x4.ofEntries m0 m1 m2 m3 m4 m5 m6 m7 m8 m9 ma mb mc md me mf).m_matrix 1 0 = m4 ∧
    (Matrix4x4.ofEntries m0 m1 m2 m3 m4 m5 m6 m7 m8 m9 ma mb mc md me mf).m_matrix 1 1 = m5 ∧
    (Matrix4x4.ofEntries m0 m1 m2 m3 m4 m5 m6 m7 m8 m9 ma mb mc md me mf).m_matrix 1 2 = m6 ∧
    (Matrix4x4.ofEntries m0 m1 m2 m3 m4 m5 m6 m7 m8 m9 ma mb mc md me mf).m_matrix 1 3 = m7 ∧
    (Matrix4x4.ofEntries m0 m1 m2 m3 m4 m5 m6 m7 m8 m9 ma mb mc md me mf).m_matrix 2 0 = m8 ∧
    (Matrix4x4.ofEntries m0 m1 m2 m3 m4 m5 m6 m7 m8 m9 ma mb mc md me mf).m_matrix 2 1 = m9 ∧
    (Matrix4x4.ofEntries m0 m1 m2 m3 m4 m5 m6 m7 m8 m9 ma mb mc md me mf).m_matrix 2 2 = ma ∧
    (Matrix4x4.ofEntries m0 m1 m2 m3 m4 m5 m6 m7 m8 m9 ma mb mc md me mf).m_matrix 2 3 = mb ∧
    (Matrix4x4.ofEntries m0 m1 m2 m3 m4 m5 m6 m7 m8 m9 ma mb mc md me mf).m_matrix 3 0 = mc ∧
    (Matrix4x4.ofEntries m0 m1 m2 m3 m4 m5 m6 m7 m8 m9 ma mb mc md me mf).m_matrix 3 1 = md ∧
    (Matrix4x4.ofEntries m0 m1 m2 m3 m4 m5 m6 m7 m8 m9 ma mb mc md me mf).m_matrix 3 2 = me ∧
    (Matrix4x4.ofEntries m0 m1 m2 m3 m4 m5 m6 m7 m8 m9 ma mb mc md me mf).m_matrix 3 3 = mf :=
  ⟨rfl, rfl, rfl, rfl, rfl, rfl, rfl, rfl, rfl, rfl, rfl, rfl, rfl, rfl, rfl, rfl⟩

/-- A property of all index pairs of a 4×4 matrix, entry by entry. -/
theorem forall_fin4_pairs (P : Fin 4 → Fin 4 → Prop)
    (h : P 0 0 ∧ P 0 1 ∧ P 0 2 ∧ P 0 3 ∧ P 1 0 ∧ P 1 1 ∧ P 1 2 ∧ P 1 3 ∧ P 2 0 ∧ P 2 1 ∧ P 2 2 ∧ P 2 3 ∧ P 3 0 ∧ P 3 1 ∧ P 3 2 ∧ P 3 3) :
    ∀ r c, P r c := by
  obtain ⟨h00, h01, h02, h03, h10, h11, h12, h13, h20, h21, h22, h23, h30, h31, h32, h33⟩ := h
  intro r c
  fin_cases r <;> fin_cases c <;> assumption

end MatrixEntries

section MatrixLemmas
variable {F : Type} [LinearOrderedField F]

/-- The loop body of `multiply` is the product of `Matrix (Fin 4) (Fin 4) F`. -/
theorem Matrix4x4.multiply_eq_mul (A B : Matrix4x4 F) :
    (Matrix4x4.multiply A B).m_matrix
      = (Matrix.of A.m_matrix * Matrix.of B.m_matrix : Matrix (Fin 4) (Fin 4) F) := by
  funext r c
  simp [Matrix4x4.multiply, Matrix.mul_apply, Fin.sum_univ_four]

theorem Matrix4x4.make_identity_eq_one :
    (Matrix4x4.make_identity : Matrix4x4 F).m_matrix = (1 : Matrix (Fin 4) (Fin 4) F) := by
  funext r c
  revert r c
  apply forall_fin4_pairs
  simp only [Matrix4x4.make_identity, Matrix4x4.ofEntries_entries]
  simp

/-- A right inverse under `multiply` is a left inverse. -/
theorem Matrix4x4.multiply_comm_of_identity {A B : Matrix4x4 F}
    (h : Matrix4x4.multiply A B = Matrix4x4.make_identity) :
    Matrix4x4.multiply B A = Matrix4x4.make_identity := by
  have h1 : (Matrix.of A.m_matrix * Matrix.of B.m_matrix : Matrix (Fin 4) (Fin 4) F) = 1 := by
    rw [← Matrix4x4.multiply_eq_mul, h, Matrix4x4.make_identity_eq_one]
  have h2 := Matrix.mul_eq_one_comm.mp h1
  apply Matrix4x4.ext_entries
  intro r c
  rw [Matrix4x4.multiply_eq_mul, h2, Matrix4x4.make_identity_eq_one]

/-- For a matrix whose first three rows are orthonormal 3-vectors padded with `0` and whose
last row is a point padded with `1`, `quick_inverse` is a right inverse. -/
theorem Matrix4x4.multiply_quick_inverse_of_orthonormal (r u f p : Vec4 F)
    (hrr : Vec4.dot_product r r = 1) (huu : Vec4.dot_product u u = 1)
    (hff : Vec4.dot_product f f = 1) (hru : Vec4.dot_product r u = 0)
    (hrf : Vec4.dot_product r f = 0) (huf : Vec4.dot_product u f = 0) :
    Matrix4x4.multiply
        (Matrix4x4.ofEntries r.x r.y r.z 0 u.x u.y u.z 0 f.x f.y f.z 0 p.x p.y p.z 1)
        (Matrix4x4.quick_inverse
          (Matrix4x4.ofEntries r.x r.y r.z 0 u.x u.y u.z 0 f.x f.y f.z 0 p.x p.y p.z 1))
      = Matrix4x4.make_identity := by
  simp only [Vec4.dot_product] at hrr huu hff hru hrf huf
  apply Matrix4x4.ext_entries
  apply forall_fin4_pairs
  simp only [Matrix4x4.multiply, Matrix4x4.quick_inverse, Matrix4x4.make_identity,
    Matrix4x4.ofEntries_entries]
  refine ⟨?_, ?_, ?_, ?_, ?_, ?_, ?_, ?_, ?_, ?_, ?_, ?_, ?_, ?_, ?_, ?_⟩ <;> linarith

end MatrixLemmas

section CrossLemmas
variable {F : Type} [LinearOrderedField F]

/-- Lagrange: `|a × b|² = |a|² |b|² - (a · b)²`. -/
theorem Vec4.dot_cross_self (a b : Vec4 F) :
    Vec4.dot_product (Vec4.cross_product a b) (Vec4.cross_product a b)
      = Vec4.dot_product a a * Vec4.dot_product b b
        - Vec4.dot_product a b * Vec4.dot_product a b := by
  simp only [Vec4.dot_product, Vec4.cross_product, Vec4.mk3]
  ring

theorem Vec4.dot_cross_left (a b : Vec4 F) :
    Vec4.dot_product (Vec4.cross_product a b) a = 0 := by
  simp only [Vec4.dot_product, Vec4.cross_product, Vec4.mk3]
  ring

theorem Vec4.dot_cross_right (a b : Vec4 F) :
    Vec4.dot_product (Vec4.cross_product a b) b = 0 := by
  simp only [Vec4.dot_product, Vec4.cross_product, Vec4.mk3]
  ring

end CrossLemmas

section PointAt
variable {F : Type} [LinearOrderedField F] [HasSqrt F]

/-- The Gram-Schmidt vector `up - forward * dot(up, forward)` of `point_at` is non-zero when
`up` is not parallel to `target - pos`. -/
theorem gram_schmidt_nonzero (pos target up : Vec4 F)
    (hup : (Vec4.cross_product up (Vec4.subtract target pos)).Nonzero) :
    (Vec4.subtract up
      (Vec4.multiply (Vec4.normalize (Vec4.subtract target pos))
        (Vec4.dot_product up (Vec4.normalize (Vec4.subtract target pos))))).Nonzero := by
  by_contra hzero
  simp only [Vec4.Nonzero, not_or, not_not] at hzero
  obtain ⟨hx, hy, hz⟩ := hzero
  simp only [Vec4.subtract, Vec4.multiply, Vec4.mk3, Vec4.normalize] at hx hy hz
  simp only [Vec4.Nonzero, Vec4.cross_product, Vec4.subtract, Vec4.mk3] at hup
  rcases hup with h | h | h
  · apply h
    linear_combination (target.z - pos.z) * hy - (target.y - pos.y) * hz
  · apply h
    linear_combination (target.x - pos.x) * hz - (target.z - pos.z) * hx
  · apply h
    linear_combination (target.y - pos.y) * hx - (target.x - pos.x) * hy

/-- The three directions computed by `point_at` are orthonormal. -/
theorem point_at_orthonormal (hsqrt : ExactSqrt F) (pos target up : Vec4 F)
    (htarget : (Vec4.subtract target pos).Nonzero)
    (hup : (Vec4.cross_product up (Vec4.subtract target pos)).Nonzero)
    (f w u r : Vec4 F)
    (hf : f = Vec4.normalize (Vec4.subtract target pos))
    (hw : w = Vec4.subtract up (Vec4.multiply f (Vec4.dot_product up f)))
    (hu : u = Vec4.normalize w)
    (hr : r = Vec4.cross_product u f) :
    Vec4.dot_product r r = 1 ∧ Vec4.dot_product u u = 1 ∧ Vec4.dot_product f f = 1 ∧
      Vec4.dot_product r u = 0 ∧ Vec4.dot_product r f = 0 ∧ Vec4.dot_product u f = 0 := by
  have hff : Vec4.dot_product f f = 1 := by rw [hf]; exact Vec4.dot_normalize_self hsqrt htarget
  have hwn : w.Nonzero := by rw [hw, hf]; exact gram_schmidt_nonzero pos target up hup
  have huu : Vec4.dot_product u u = 1 := by rw [hu]; exact Vec4.dot_normalize_self hsqrt hwn
  have hwf : Vec4.dot_product w f = 0 := by
    have h1 : Vec4.dot_product w f
        = Vec4.dot_product up f - Vec4.dot_product f f * Vec4.dot_product up f := by
      rw [hw]
      simp only [Vec4.dot_product, Vec4.subtract, Vec4.multiply, Vec4.mk3]
      ring
    rw [h1, hff]
    ring
  have huf : Vec4.dot_product u f = 0 := by
    have h1 : Vec4.dot_product u f = Vec4.dot_product w f / Vec4.length w := by
      rw [hu]
      simp only [Vec4.dot_product, Vec4.normalize, Vec4.mk3]
      ring
    rw [h1, hwf, zero_div]
  refine ⟨?_, huu, hff, ?_, ?_, huf⟩
  · rw [hr, Vec4.dot_cross_self, huu, hff, huf]
    ring
  · rw [hr]; exact Vec4.dot_cross_left u f
  · rw [hr]; exact Vec4.dot_cross_right u f

/-- C7: for every position, target and up vector with `target - pos` non-zero and `up` not
parallel to it (`cross(up, target - pos)` non-zero), `quick_inverse(point_at(pos, target, up))`
is the inverse of `point_at(pos, target, up)` under `multiply`, on both sides. -/
theorem quick_inverse_point_at_identity (hsqrt : ExactSqrt F) (pos target up : Vec4 F)
    (htarget : (Vec4.subtract target pos).Nonzero)
    (hup : (Vec4.cross_product up (Vec4.subtract target pos)).Nonzero) :
    Matrix4x4.multiply (Matrix4x4.point_at pos target up)
        (Matrix4x4.quick_inverse (Matrix4x4.point_at pos target up)) = Matrix4x4.make_identity ∧
    Matrix4x4.multiply (Matrix4x4.quick_inverse (Matrix4x4.point_at pos target up))
        (Matrix4x4.point_at pos target up) = Matrix4x4.make_identity := by
  obtain ⟨hrr, huu, hff, hru, hrf, huf⟩ :=
    point_at_orthonormal hsqrt pos target up htarget hup _ _ _ _ rfl rfl rfl rfl
  have h := Matrix4x4.multiply_quick_inverse_of_orthonormal _ _ _ pos hrr huu hff hru hrf huf
  exact ⟨h, Matrix4x4.multiply_comm_of_identity h⟩

end PointAt

theorem quick_inverse_point_at_identity_witness :
    ((Vec4.subtract (Vec4.mk3 0 0 1) (Vec4.mk3 (0 : ℝ) 0 0)).Nonzero ∧
      (Vec4.cross_product (Vec4.mk3 0 1 0)
        (Vec4.subtract (Vec4.mk3 0 0 1) (Vec4.mk3 (0 : ℝ) 0 0))).Nonzero) ∧
    (Matrix4x4.multiply
        (Matrix4x4.point_at (Vec4.mk3 (0 : ℝ) 0 0) (Vec4.mk3 0 0 1) (Vec4.mk3 0 1 0))
        (Matrix4x4.quick_inverse
          (Matrix4x4.point_at (Vec4.mk3 (0 : ℝ) 0 0) (Vec4.mk3 0 0 1) (Vec4.mk3 0 1 0)))
        = Matrix4x4.make_identity ∧
      Matrix4x4.multiply
        (Matrix4x4.quick_inverse
          (Matrix4x4.point_at (Vec4.mk3 (0 : ℝ) 0 0) (Vec4.mk3 0 0 1) (Vec4.mk3 0 1 0)))
        (Matrix4x4.point_at (Vec4.mk3 (0 : ℝ) 0 0) (Vec4.mk3 0 0 1) (Vec4.mk3 0 1 0))
        = Matrix4x4.make_identity) :=
  have h1 : (Vec4.subtract (Vec4.mk3 0 0 1) (Vec4.mk3 (0 : ℝ) 0 0)).Nonzero := by
    simp [Vec4.Nonzero, Vec4.subtract, Vec4.mk3]
  have h2 : (Vec4.cross_product (Vec4.mk3 0 1 0)
      (Vec4.subtract (Vec4.mk3 0 0 1) (Vec4.mk3 (0 : ℝ) 0 0))).Nonzero := by
    simp [Vec4.Nonzero, Vec4.cross_product, Vec4.subtract, Vec4.mk3]
  ⟨⟨h1, h2⟩, quick_inverse_point_at_identity exactSqrt_real (Vec4.mk3 0 0 0) (Vec4.mk3 0 0 1)
    (Vec4.mk3 0 1 0) h1 h2⟩

section MultiplyVector
variable {F : Type} [LinearOrderedField F]

/-- How `multiply_vector` of a product differs from the two transforms in sequence: by the
last row of the second matrix, scaled by `w - 1` for the `w` of the intermediate vector. -/
theorem multiply_vector_multiply_defect (A B : Matrix4x4 F) (v : Vec4 F) :
    Matrix4x4.multiply_vector (Matrix4x4.multiply A B) v =
      ⟨(Matrix4x4.multiply_vector B (Matrix4x4.multiply_vector A v)).x
          + ((Matrix4x4.multiply_vector A v).w - 1) * B.m_matrix 3 0,
       (Matrix4x4.multiply_vector B (Matrix4x4.multiply_vector A v)).y
          + ((Matrix4x4.multiply_vector A v).w - 1) * B.m_matrix 3 1,
       (Matrix4x4.multiply_vector B (Matrix4x4.multiply_vector A v)).z
          + ((Matrix4x4.multiply_vector A v).w - 1) * B.m_matrix 3 2,
       (Matrix4x4.multiply_vector B (Matrix4x4.multiply_vector A v)).w
          + ((Matrix4x4.multiply_vector A v).w - 1) * B.m_matrix 3 3⟩ := by
  simp only [Matrix4x4.multiply_vector, Matrix4x4.multiply, Vec4.mk.injEq]
  refine ⟨?_, ?_, ?_, ?_⟩ <;> ring

/-- C8, amended: for all matrices A and B and every vector `v` for which
`multiply_vector(A, v)` has `w = 1`, transforming `v` by `multiply(A, B)` equals applying A and
then B. -/
theorem multiply_vector_composition_of_w_one (A B : Matrix4x4 F) (v : Vec4 F)
    (hw : (Matrix4x4.multiply_vector A v).w = 1) :
    Matrix4x4.multiply_vector (Matrix4x4.multiply A B) v
      = Matrix4x4.multiply_vector B (Matrix4x4.multiply_vector A v) := by
  rw [multiply_vector_multiply_defect, hw]
  simp

end MultiplyVector

/-- C8, counterexample: with A the projection-like matrix whose last column is
`(0, 0, 1, 0)`, B the translation by `(1, 0, 0)` and `v = (0, 0, 2)`, transforming `v` by
`multiply(A, B)` gives `(2, 0, 2, 2)` while applying A and then B gives `(1, 0, 2, 1)`:
`multiply_vector` reads the `w` of its input as `1`, and A maps `v` to a vector with `w = 2`. -/
theorem multiply_vector_composition_fails :
    Matrix4x4.multiply_vector
        (Matrix4x4.multiply sample_projection (Matrix4x4.make_translation 1 0 0))
        (Vec4.mk3 (0 : ℚ) 0 2) = ⟨2, 0, 2, 2⟩ ∧
    Matrix4x4.multiply_vector (Matrix4x4.make_translation 1 0 0)
        (Matrix4x4.multiply_vector sample_projection (Vec4.mk3 (0 : ℚ) 0 2)) = ⟨1, 0, 2, 1⟩ ∧
    Matrix4x4.multiply_vector
        (Matrix4x4.multiply sample_projection (Matrix4x4.make_translation 1 0 0))
        (Vec4.mk3 (0 : ℚ) 0 2)
      ≠ Matrix4x4.multiply_vector (Matrix4x4.make_translation 1 0 0)
        (Matrix4x4.multiply_vector sample_projection (Vec4.mk3 (0 : ℚ) 0 2)) := by
  have h1 : Matrix4x4.multiply_vector
      (Matrix4x4.multiply sample_projection (Matrix4x4.make_translation 1 0 0))
      (Vec4.mk3 (0 : ℚ) 0 2) = ⟨2, 0, 2, 2⟩ := by
    simp only [Matrix4x4.multiply_vector, Matrix4x4.multiply, sample_projection,
      Matrix4x4.make_translation, Matrix4x4.ofEntries_entries, Vec4.mk3]
    norm_num
  have h2 : Matrix4x4.multiply_vector (Matrix4x4.make_translation 1 0 0)
      (Matrix4x4.multiply_vector sample_projection (Vec4.mk3 (0 : ℚ) 0 2)) = ⟨1, 0, 2, 1⟩ := by
    simp only [Matrix4x4.multiply_vector, sample_projection,
      Matrix4x4.make_translation, Matrix4x4.ofEntries_entries, Vec4.mk3]
    norm_num
  refine ⟨h1, h2, ?_⟩
  rw [h1, h2]
  simp

theorem multiply_vector_composition_of_w_one_witness :
    (Matrix4x4.multiply_vector (Matrix4x4.make_translation 1 2 3) (Vec4.mk3 (4 : ℚ) 5 6)).w = 1 ∧
    Matrix4x4.multiply_vector
        (Matrix4x4.multiply (Matrix4x4.make_translation 1 2 3) sample_projection)
        (Vec4.mk3 (4 : ℚ) 5 6)
      = Matrix4x4.multiply_vector sample_projection
          (Matrix4x4.multiply_vector (Matrix4x4.make_translation 1 2 3) (Vec4.mk3 (4 : ℚ) 5 6)) :=
  have hw : (Matrix4x4.multiply_vector (Matrix4x4.make_translation 1 2 3)
      (Vec4.mk3 (4 : ℚ) 5 6)).w = 1 := by
    simp only [Matrix4x4.multiply_vector, Matrix4x4.make_translation,
      Matrix4x4.ofEntries_entries, Vec4.mk3]
    norm_num
  ⟨hw, multiply_vector_composition_of_w_one (Matrix4x4.make_translation 1 2 3) sample_projection
    (Vec4.mk3 4 5 6) hw⟩

/-! ## `Mesh::create_from_height_map` -/

section ListLemmas

theorem readAt_natCast {α : Type} (a : List α) (i : Nat) : readAt a (i : Int) = a[i]? := by
  simp [readAt]

theorem writeAt_natCast {α : Type} (a : List α) (i : Nat) (v : α) (h : i < a.length) :
    writeAt a (i : Int) v = some (a.set i v) := by
  simp [writeAt, h]

theorem set_two {α : Type} (P R : List α) (e1 e2 A B : α) :
    ((P ++ e1 :: e2 :: R).set P.length A).set (P.length + 1) B = P ++ A :: B :: R := by
  induction P with
  | nil => simp
  | cons p P ih => simp [ih]

theorem filterMap_range_getElem? {α : Type} (l : List α) (n : Nat) :
    (List.range n).filterMap (fun i => l[i]?) = l.take n := by
  induction n with
  | zero => simp
  | succ n ih =>
    rw [List.range_succ, List.filterMap_append, ih, List.take_succ]
    cases h : l[n]? <;> simp [h]

theorem wrap_int_eq (i : Int) (h1 : -2147483648 ≤ i) (h2 : i ≤ 2147483647) :
    wrap_int i = i := by
  unfold wrap_int
  omega

end ListLemmas

section MeshLemmas
variable {F : Type} [LinearOrderedField F]

theorem toInt_natCast [FloorRing F] (n : Nat) : toInt (n : F) = (n : Int) := by
  simp [toInt]

theorem cell_index_lt {stride x z : Nat} (hx : x < stride) (hz : z < stride) :
    z * stride + x < stride * stride := by
  have : z + 1 ≤ stride := hz
  nlinarith

theorem height_index_lt {stride x z : Nat} (hx : x < stride) (hz : z < stride) :
    z * (stride + 1) + x + stride + 1 + 1 < (stride + 1) * (stride + 1) := by
  have : z + 1 ≤ stride := hz
  nlinarith

theorem cell_index_bounds {stride x z : Nat} (hs : stride ≤ 32767) (hx : x < stride)
    (hz : z < stride) :
    z * stride + x ≤ 2147483647 ∧ (z * stride + x) * 2 ≤ 2147483647 ∧
      (z * stride + x) * 2 + 1 ≤ 2147483647 := by
  have h1 := cell_index_lt hx hz
  have h2 : stride * stride ≤ 32767 * 32767 := Nat.mul_le_mul hs hs
  omega

theorem height_index_bounds {stride x z : Nat} (hs : stride ≤ 32767) (hx : x < stride)
    (hz : z < stride) :
    z * (stride + 1) + x ≤ 2147483647 ∧ z * (stride + 1) + x + 1 ≤ 2147483647 ∧
      z * (stride + 1) + x + stride + 1 ≤ 2147483647 ∧
      z * (stride + 1) + x + stride + 1 + 1 ≤ 2147483647 := by
  have h1 := height_index_lt hx hz
  have h2 : (stride + 1) * (stride + 1) ≤ 32768 * 32768 :=
    Nat.mul_le_mul (Nat.succ_le_succ hs) (Nat.succ_le_succ hs)
  omega

theorem wrap_int_natCast (n : Nat) (h : n ≤ 2147483647) : wrap_int (n : Int) = (n : Int) :=
  wrap_int_eq _ (by omega) (by omega)

theorem static_cast_int_natCast [FloorRing F] (n : Nat) (h : n ≤ 2147483647) :
    static_cast_int (n : F) = some (n : Int) := by
  unfold static_cast_int
  rw [toInt_natCast]
  exact if_pos ⟨by omega, by omega⟩

theorem cell_body_natCast [FloorRing F] (heights : List F) (stride z x : Nat)
    (tris : List (Triangle F)) (hs : stride ≤ 32767) (hz : z < stride) (hx : x < stride)
    (hlen : heights.length = (stride + 1) * (stride + 1))
    (htris : (z * stride + x) * 2 + 1 < tris.length) :
    Mesh.cell_body heights (stride : F) (z : F) (x : F) tris =
      some ((tris.set ((z * stride + x) * 2) (cellTriangleA heights stride x z)).set
        ((z * stride + x) * 2 + 1) (cellTriangleB heights stride x z)) := by
  have e1 : (z : F) * (stride : F) + (x : F) = ((z * stride + x : Nat) : F) := by push_cast; ring
  have e2 : (z : F) * ((stride : F) + 1) + (x : F) = ((z * (stride + 1) + x : Nat) : F) := by
    push_cast; ring
  have e3 : ((z : F) + 1) * ((stride : F) + 1) + (x : F)
      = ((z * (stride + 1) + x + stride + 1 : Nat) : F) := by
    push_cast; ring
  have i1 : ((z * stride + x : Nat) : Int) * 2 = (((z * stride + x) * 2 : Nat) : Int) := by
    push_cast; ring
  have i2 : (((z * stride + x) * 2 : Nat) : Int) + 1 = (((z * stride + x) * 2 + 1 : Nat) : Int) := by
    push_cast; ring
  have i3 : ((z * (stride + 1) + x : Nat) : Int) + 1 = ((z * (stride + 1) + x + 1 : Nat) : Int) := by
    push_cast; ring
  have i4 : ((z * (stride + 1) + x + stride + 1 : Nat) : Int) + 1
      = ((z * (stride + 1) + x + stride + 1 + 1 : Nat) : Int) := by
    push_cast; ring
  have hb : z * (stride + 1) + x + stride + 1 + 1 < heights.length := by
    rw [hlen]
    exact height_index_lt hx hz
  have g1 : heights[z * (stride + 1) + x]? = some (heightAt heights (z * (stride + 1) + x)) := by
    rw [heightAt, List.getD_eq_getElem?_getD, List.getElem?_eq_getElem (by omega)]; rfl
  have g2 : heights[z * (stride + 1) + x + 1]?
      = some (heightAt heights (z * (stride + 1) + x + 1)) := by
    rw [heightAt, List.getD_eq_getElem?_getD, List.getElem?_eq_getElem (by omega)]; rfl
  have g3 : heights[z * (stride + 1) + x + stride + 1]?
      = some (heightAt heights (z * (stride + 1) + x + stride + 1)) := by
    rw [heightAt, List.getD_eq_getElem?_getD, List.getElem?_eq_getElem (by omega)]; rfl
  have g4 : heights[z * (stride + 1) + x + stride + 1 + 1]?
      = some (heightAt heights (z * (stride + 1) + x + stride + 1 + 1)) := by
    rw [heightAt, List.getD_eq_getElem?_getD, List.getElem?_eq_getElem (by omega)]; rfl
  obtain ⟨bn, bn1, bn2⟩ := cell_index_bounds hs hx hz
  obtain ⟨bh1, bh2, bh3, bh4⟩ := height_index_bounds hs hx hz
  have c1 : static_cast_int ((z * stride + x : Nat) : F) = some ((z * stride + x : Nat) : Int) :=
    static_cast_int_natCast _ bn
  have c2 : static_cast_int ((z * (stride + 1) + x : Nat) : F)
      = some ((z * (stride + 1) + x : Nat) : Int) :=
    static_cast_int_natCast _ bh1
  have c3 : static_cast_int ((z * (stride + 1) + x + stride + 1 : Nat) : F)
      = some ((z * (stride + 1) + x + stride + 1 : Nat) : Int) :=
    static_cast_int_natCast _ bh3
  have w1 : wrap_int (((z * stride + x) * 2 : Nat) : Int) = (((z * stride + x) * 2 : Nat) : Int) :=
    wrap_int_natCast _ bn1
  have w2 : wrap_int (((z * stride + x) * 2 + 1 : Nat) : Int)
      = (((z * stride + x) * 2 + 1 : Nat) : Int) :=
    wrap_int_natCast _ bn2
  have w3 : wrap_int ((z * (stride + 1) + x + 1 : Nat) : Int)
      = ((z * (stride + 1) + x + 1 : Nat) : Int) :=
    wrap_int_natCast _ bh2
  have w4 : wrap_int ((z * (stride + 1) + x + stride + 1 + 1 : Nat) : Int)
      = ((z * (stride + 1) + x + stride + 1 + 1 : Nat) : Int) :=
    wrap_int_natCast _ bh4
  unfold Mesh.cell_body
  simp only [e1, e2, e3, c1, c2, c3, Option.bind_eq_bind, Option.some_bind]
  rw [i1, w1, i2, w2, i3, w3, i4, w4]
  simp only [readAt_natCast, g1, g2, g3, g4, Option.some_bind]
  rw [writeAt_natCast _ _ _ (Nat.lt_of_succ_lt htris)]
  simp only [Option.some_bind]
  rw [writeAt_natCast _ _ _ (by rw [List.length_set]; exact htris)]
  rfl


theorem length_cellTriangles (heights : List F) (stride k : Nat) :
    (cellTriangles heights stride k).length = 2 * k := by
  induction k with
  | zero => rfl
  | succ k ih => simp [cellTriangles, ih]; omega

theorem length_trianglesAfter (heights : List F) (stride k : Nat) (hk : k ≤ stride * stride) :
    (trianglesAfter heights stride k).length = 2 * (stride * stride) := by
  simp [trianglesAfter, length_cellTriangles]
  omega

theorem trianglesAfter_step (heights : List F) (stride k : Nat) (hk : k < stride * stride) :
    ((trianglesAfter heights stride k).set (k * 2)
        (cellTriangleA heights stride (k % stride) (k / stride))).set (k * 2 + 1)
        (cellTriangleB heights stride (k % stride) (k / stride))
      = trianglesAfter heights stride (k + 1) := by
  unfold trianglesAfter
  obtain ⟨m, hm⟩ : ∃ m, stride * stride - k = m + 1 := ⟨stride * stride - k - 1, by omega⟩
  have hm' : stride * stride - (k + 1) = m := by omega
  have hlen : k * 2 = (cellTriangles heights stride k).length := by
    rw [length_cellTriangles]; omega
  rw [hm, hm', hlen]
  have hrep : List.replicate (2 * (m + 1)) (Triangle.empty : Triangle F)
      = Triangle.empty :: Triangle.empty :: List.replicate (2 * m) Triangle.empty := by
    rw [show 2 * (m + 1) = 2 * m + 1 + 1 by ring, List.replicate_succ, List.replicate_succ]
  rw [hrep, set_two]
  simp [cellTriangles]

theorem inner_loop [FloorRing F] (heights : List F) (stride z : Nat) (hs : stride ≤ 32767)
    (hz : z < stride)
    (hlen : heights.length = (stride + 1) * (stride + 1)) (j : Nat) (hj : j ≤ stride) :
    (List.range j).foldlM
        (fun tris (x : Nat) => Mesh.cell_body heights (stride : F) (z : F) (x : F) tris)
        (trianglesAfter heights stride (z * stride))
      = some (trianglesAfter heights stride (z * stride + j)) := by
  induction j with
  | zero => simp
  | succ j ih =>
    have hj' : j < stride := hj
    have hk : z * stride + j < stride * stride := cell_index_lt hj' hz
    rw [List.range_succ, List.foldlM_append, ih (by omega)]
    simp only [Option.bind_eq_bind, Option.some_bind, List.foldlM_cons, List.foldlM_nil]
    rw [cell_body_natCast heights stride z j _ hs hz hj' hlen
      (by rw [length_trianglesAfter _ _ _ hk.le]; omega)]
    simp only [Option.some_bind]
    have hmod : (z * stride + j) % stride = j := by
      rw [Nat.add_comm, Nat.add_mul_mod_self_right, Nat.mod_eq_of_lt hj']
    have hdiv : (z * stride + j) / stride = z := by
      rw [Nat.add_comm, Nat.add_mul_div_right _ _ (by omega : 0 < stride),
        Nat.div_eq_of_lt hj', Nat.zero_add]
    have hstep := trianglesAfter_step heights stride (z * stride + j) hk
    rw [hmod, hdiv] at hstep
    rw [hstep]
    rfl

theorem outer_loop [FloorRing F] (heights : List F) (stride : Nat) (hs : stride ≤ 32767)
    (hlen : heights.length = (stride + 1) * (stride + 1)) (i : Nat) (hi : i ≤ stride) :
    (List.range i).foldlM
        (fun tris (z : Nat) => (List.range stride).foldlM
          (fun tris (x : Nat) => Mesh.cell_body heights (stride : F) (z : F) (x : F) tris) tris)
        (trianglesAfter heights stride 0)
      = some (trianglesAfter heights stride (i * stride)) := by
  induction i with
  | zero => simp
  | succ i ih =>
    rw [List.range_succ, List.foldlM_append, ih (by omega)]
    simp only [Option.bind_eq_bind, Option.some_bind, List.foldlM_cons, List.foldlM_nil]
    rw [inner_loop heights stride i hs hi hlen stride le_rfl]
    simp only [Option.some_bind]
    rw [show i * stride + stride = (i + 1) * stride by ring]
    rfl


/-- The builder on a height array of length `(stride + 1)²` whose length has the exact root
`stride + 1`, for a stride up to `32767`: it returns the triangles of all `stride²` cells in
row-major order. -/
theorem create_from_height_map_eq_of_root [HasSqrt F] [FloorRing F]
    (stride : Nat) (heights : List F) (hs : stride ≤ 32767)
    (hlen : heights.length = (stride + 1) ^ 2)
    (hroot : HasSqrt.sqrt ((heights.length : Nat) : F) = ((stride + 1 : Nat) : F)) :
    Mesh.create_from_height_map heights
      = some ⟨cellTriangles heights stride (stride * stride)⟩ := by
  have hlen' : heights.length = (stride + 1) * (stride + 1) := by rw [hlen]; ring
  have hss : stride * stride ≤ 32767 * 32767 := Nat.mul_le_mul hs hs
  have h0 : static_cast_int (((stride + 1 : Nat) : F)) = some ((stride + 1 : Nat) : Int) :=
    static_cast_int_natCast _ (by omega)
  have h1 : wrap_int (((stride + 1 : Nat) : Int) - 1) = (stride : Int) := by
    have e : ((stride + 1 : Nat) : Int) - 1 = (stride : Int) := by push_cast; ring
    rw [e, wrap_int_natCast stride (by omega)]
  have h2 : wrap_int (wrap_int ((stride : Int) * (stride : Int)) * 2)
      = ((stride * stride * 2 : Nat) : Int) := by
    have e : (stride : Int) * (stride : Int) = ((stride * stride : Nat) : Int) := by push_cast; ring
    have e2 : ((stride * stride : Nat) : Int) * 2 = ((stride * stride * 2 : Nat) : Int) := by
      push_cast; ring
    rw [e, wrap_int_natCast (stride * stride) (by omega), e2,
      wrap_int_natCast (stride * stride * 2) (by omega)]
  have h3 : List.replicate (stride * stride * 2) (Triangle.empty : Triangle F)
      = trianglesAfter heights stride 0 := by
    simp [trianglesAfter, cellTriangles, Nat.mul_comm]
  have h4 : trianglesAfter heights stride (stride * stride)
      = cellTriangles heights stride (stride * stride) := by
    simp [trianglesAfter]
  have h5 : ¬ (((stride * stride * 2 : Nat) : Int) < 0) := by omega
  unfold Mesh.create_from_height_map
  simp only [hroot, h0, Option.bind_eq_bind, Option.some_bind, h1, h2, h5, if_false, h3,
    Int.toNat_natCast, Int.cast_natCast]
  rw [outer_loop heights stride hs hlen' stride le_rfl]
  simp only [Option.some_bind, h4, filterMap_range_getElem?]
  rw [List.take_of_length_le (by rw [length_cellTriangles]; omega)]
  rfl

/-- On a height map of length `(stride + 1)²`, for a stride up to `32767`, the builder returns
the triangles of all `stride²` cells in row-major order. -/
theorem create_from_height_map_eq [HasSqrt F] [FloorRing F] (hsqrt : ExactSqrt F)
    (stride : Nat) (heights : List F) (hs : stride ≤ 32767)
    (hlen : heights.length = (stride + 1) ^ 2) :
    Mesh.create_from_height_map heights
      = some ⟨cellTriangles heights stride (stride * stride)⟩ := by
  apply create_from_height_map_eq_of_root stride heights hs hlen
  apply hsqrt.sqrt_eq (Nat.cast_nonneg _)
  rw [hlen]
  push_cast
  ring

end MeshLemmas

section ViewportLemmas
variable {F : Type} [LinearOrderedField F] [HasSqrt F]

/-- The vertices emitted by the clipping primitive depend on the vertices of the input only. -/
theorem specClip_vertices_congr (plane_p plane_n : Vec4 F) {t t' : Triangle F}
    (h : t.vertices = t'.vertices) :
    (specClip plane_p plane_n t).map Triangle.vertices
      = (specClip plane_p plane_n t').map Triangle.vertices := by
  have h' := h
  simp only [Triangle.vertices, List.cons.injEq, and_true] at h'
  simp only [specClip, insideVertices, outsideVertices, h]
  split <;> simp [Triangle.vertices, h']

theorem flatMap_specClip_vertices_congr (plane_p plane_n : Vec4 F) :
    ∀ {l l' : List (Triangle F)}, l.map Triangle.vertices = l'.map Triangle.vertices →
      (l.flatMap (specClip plane_p plane_n)).map Triangle.vertices
        = (l'.flatMap (specClip plane_p plane_n)).map Triangle.vertices
  | [], [], _ => rfl
  | [], _ :: _, h => by simp at h
  | _ :: _, [], h => by simp at h
  | t :: l, t' :: l', h => by
    simp only [List.map_cons, List.cons.injEq] at h
    simp only [List.flatMap_cons, List.map_append]
    rw [specClip_vertices_congr plane_p plane_n h.1,
      flatMap_specClip_vertices_congr plane_p plane_n h.2]

/-- The triangles taken from the two slots after a call of `clip_against_plane` have the
vertices the clipping primitive of the specification emits, whatever the slots held. -/
theorem clip_against_plane_vertices (plane_p plane_n : Vec4 F) (t o1 o2 : Triangle F) :
    ([(Triangle.clip_against_plane plane_p plane_n t o1 o2).2.1,
      (Triangle.clip_against_plane plane_p plane_n t o1 o2).2.2].take
        (Triangle.clip_against_plane plane_p plane_n t o1 o2).1).map Triangle.vertices
      = (specClip plane_p plane_n t).map Triangle.vertices := by
  rw [clip_eq_buckets]
  simp only [specClip, insideVertices, outsideVertices, Triangle.vertices]
  by_cases h0 : 0 ≤ signedDistance plane_p plane_n t.m_points_0 <;>
  by_cases h1 : 0 ≤ signedDistance plane_p plane_n t.m_points_1 <;>
  by_cases h2 : 0 ≤ signedDistance plane_p plane_n t.m_points_2 <;>
  simp [List.filter, h0, h1, h2, not_le.mp, not_lt.mpr, Triangle.vertices]

/-- One pass of the viewport clipping takes the `front` of the queue off, and appends
triangles with the vertices the clipping primitive emits for the triangles of `front`. -/
theorem clip_pass_vertices (g : Game F) (p : Nat) (plane_p plane_n : Vec4 F)
    (hp : Game.viewport_plane g p = some (plane_p, plane_n)) :
    ∀ (front back : List (Triangle F)) (c0 c1 : Triangle F) (k : Nat),
      ∃ out c0' c1' k',
        Game.clip_pass g p front.length (front ++ back, c0, c1, k)
          = some (back ++ out, c0', c1', k') ∧
        out.map Triangle.vertices
          = (front.flatMap (specClip plane_p plane_n)).map Triangle.vertices
  | [], back, c0, c1, k => ⟨[], c0, c1, k, by simp [Game.clip_pass], rfl⟩
  | test :: front, back, c0, c1, k => by
    obtain ⟨out, c0', c1', k', h, hv⟩ := clip_pass_vertices g p plane_p plane_n hp front
      (back ++ [(Triangle.clip_against_plane plane_p plane_n test c0 c1).2.1,
        (Triangle.clip_against_plane plane_p plane_n test c0 c1).2.2].take
          (Triangle.clip_against_plane plane_p plane_n test c0 c1).1)
      (Triangle.clip_against_plane plane_p plane_n test c0 c1).2.1
      (Triangle.clip_against_plane plane_p plane_n test c0 c1).2.2
      (Triangle.clip_against_plane plane_p plane_n test c0 c1).1
    refine ⟨[(Triangle.clip_against_plane plane_p plane_n test c0 c1).2.1,
        (Triangle.clip_against_plane plane_p plane_n test c0 c1).2.2].take
          (Triangle.clip_against_plane plane_p plane_n test c0 c1).1 ++ out, c0', c1', k', ?_, ?_⟩
    · simp only [List.length_cons, List.cons_append, Game.clip_pass, hp]
      rw [← List.append_assoc] at h
      rw [h, List.append_assoc]
    · rw [List.map_append, hv, clip_against_plane_vertices, List.flatMap_cons, List.map_append]


/-- The viewport clipping of one triangle returns (it never takes the front of an empty
queue) triangles with the vertices of the sequential clip against the top, bottom, left and
right edge, in that order. -/
theorem viewport_clip_vertices (g : Game F) (t : Triangle F) :
    ∃ l, Game.viewport_clip g t = some l ∧
      l.map Triangle.vertices
        = (specSequentialClip
            [topPlane, bottomPlane g.m_height, leftPlane, rightPlane g.m_width] t).map
            Triangle.vertices := by
  obtain ⟨out0, a0, b0, k0, h0, v0⟩ := clip_pass_vertices g 0 topPlane.1 topPlane.2 rfl
    [t] [] Triangle.empty Triangle.empty 0
  obtain ⟨out1, a1, b1, k1, h1, v1⟩ := clip_pass_vertices g 1 (bottomPlane g.m_height).1
    (bottomPlane g.m_height).2 rfl out0 [] a0 b0 0
  obtain ⟨out2, a2, b2, k2, h2, v2⟩ := clip_pass_vertices g 2 leftPlane.1 leftPlane.2 rfl
    out1 [] a1 b1 0
  obtain ⟨out3, a3, b3, k3, h3, v3⟩ := clip_pass_vertices g 3 (rightPlane g.m_width).1
    (rightPlane g.m_width).2 rfl out2 [] a2 b2 0
  simp only [List.length_singleton, List.append_nil, List.nil_append] at h0 h1 h2 h3
  refine ⟨out3, ?_, ?_⟩
  · simp only [Game.viewport_clip, h0, h1, h2, h3, Option.bind_eq_bind, Option.some_bind,
      Option.pure_def]
  · rw [v3, flatMap_specClip_vertices_congr _ _ v2,
      flatMap_specClip_vertices_congr _ _ (flatMap_specClip_vertices_congr _ _ v1),
      flatMap_specClip_vertices_congr _ _ (flatMap_specClip_vertices_congr _ _
        (flatMap_specClip_vertices_congr _ _ v0))]
    rfl


/-- C14, amended: for every triangle, width and height the viewport clipping returns
triangles whose vertices are those of clipping sequentially against the four half-planes in the
order top (point `(0,0,0)`, normal `(0,1,0)`), bottom (point `(0,height-1,0)`, normal
`(0,-1,0)`), left (point `(0,0,0)`, normal `(1,0,0)`), right (point `(width-1,0,0)`, normal
`(-1,0,0)`), each pass applying the clipping primitive once to every triangle accumulated from
the previous pass. -/
theorem viewport_clip_is_sequential_clip (g : Game F) (t : Triangle F) :
    ∃ l, Game.viewport_clip g t = some l ∧
      l.map Triangle.vertices
        = (specSequentialClip
            [topPlane, bottomPlane g.m_height, leftPlane, rightPlane g.m_width] t).map
            Triangle.vertices :=
  viewport_clip_vertices g t

end ViewportLemmas

theorem corner_triangle_code_order :
    (specSequentialClip [topPlane, bottomPlane 100, leftPlane, rightPlane 100]
        (sample_corner_triangle : Triangle ℚ)).map Triangle.vertices
      = [[⟨3, 3, 0, 1⟩, ⟨1, 0, 0, 1⟩, ⟨0, 3 / 2, 0, 1⟩],
         [⟨1, 0, 0, 1⟩, ⟨0, 3 / 2, 0, 1⟩, ⟨0, 1 / 2, 0, 1⟩],
         [⟨3, 3, 0, 1⟩, ⟨1, 0, 0, 1⟩, ⟨3, 0, 0, 1⟩]] := by
  norm_num [specSequentialClip, specClip, insideVertices, outsideVertices, Triangle.vertices,
    signedDistance, Vec4.normalize, Vec4.length, Vec4.dot_product, sqrt_rat_one,
    Vec4.intersect_plane, Vec4.add, Vec4.multiply, Vec4.subtract, Vec4.mk3, topPlane,
    bottomPlane, leftPlane, rightPlane, sample_corner_triangle, Triangle.ofCoords, List.filter]

theorem corner_triangle_claimed_order :
    (specSequentialClip [leftPlane, rightPlane 100, topPlane, bottomPlane 100]
        (sample_corner_triangle : Triangle ℚ)).map Triangle.vertices
      = [[⟨3, 3, 0, 1⟩, ⟨0, 1 / 2, 0, 1⟩, ⟨3, 0, 0, 1⟩],
         [⟨0, 1 / 2, 0, 1⟩, ⟨3, 0, 0, 1⟩, ⟨1, 0, 0, 1⟩],
         [⟨3, 3, 0, 1⟩, ⟨0, 1 / 2, 0, 1⟩, ⟨0, 3 / 2, 0, 1⟩]] := by
  norm_num [specSequentialClip, specClip, insideVertices, outsideVertices, Triangle.vertices,
    signedDistance, Vec4.normalize, Vec4.length, Vec4.dot_product, sqrt_rat_one,
    Vec4.intersect_plane, Vec4.add, Vec4.multiply, Vec4.subtract, Vec4.mk3, topPlane,
    bottomPlane, leftPlane, rightPlane, sample_corner_triangle, Triangle.ofCoords, List.filter]

/-- C14, counterexample: for the triangle `(-1, 1)`, `(3, -1)`, `(3, 3)` in a 100 by 100
viewport, which crosses the top and the left edge, the viewport clipping returns three
triangles that are not those of clipping in the order left, right, top, bottom: the quad left
by the first edge is split along another diagonal. -/
theorem viewport_clip_order_differs :
    (Game.viewport_clip (sample_game sample_camera sample_look none : Game ℚ)
        sample_corner_triangle).map (List.map Triangle.vertices)
      = some [[⟨3, 3, 0, 1⟩, ⟨1, 0, 0, 1⟩, ⟨0, 3 / 2, 0, 1⟩],
         [⟨1, 0, 0, 1⟩, ⟨0, 3 / 2, 0, 1⟩, ⟨0, 1 / 2, 0, 1⟩],
         [⟨3, 3, 0, 1⟩, ⟨1, 0, 0, 1⟩, ⟨3, 0, 0, 1⟩]] ∧
    (specSequentialClip [leftPlane, rightPlane 100, topPlane, bottomPlane 100]
        (sample_corner_triangle : Triangle ℚ)).map Triangle.vertices
      = [[⟨3, 3, 0, 1⟩, ⟨0, 1 / 2, 0, 1⟩, ⟨3, 0, 0, 1⟩],
         [⟨0, 1 / 2, 0, 1⟩, ⟨3, 0, 0, 1⟩, ⟨1, 0, 0, 1⟩],
         [⟨3, 3, 0, 1⟩, ⟨0, 1 / 2, 0, 1⟩, ⟨0, 3 / 2, 0, 1⟩]] ∧
    (Game.viewport_clip (sample_game sample_camera sample_look none : Game ℚ)
        sample_corner_triangle).map (List.map Triangle.vertices)
      ≠ some ((specSequentialClip [leftPlane, rightPlane 100, topPlane, bottomPlane 100]
        (sample_corner_triangle : Triangle ℚ)).map Triangle.vertices) := by
  obtain ⟨l, hl, hv⟩ := viewport_clip_vertices
    (sample_game sample_camera sample_look none : Game ℚ) sample_corner_triangle
  have hcode : (Game.viewport_clip (sample_game sample_camera sample_look none : Game ℚ)
        sample_corner_triangle).map (List.map Triangle.vertices)
      = some [[⟨3, 3, 0, 1⟩, ⟨1, 0, 0, 1⟩, ⟨0, 3 / 2, 0, 1⟩],
         [⟨1, 0, 0, 1⟩, ⟨0, 3 / 2, 0, 1⟩, ⟨0, 1 / 2, 0, 1⟩],
         [⟨3, 3, 0, 1⟩, ⟨1, 0, 0, 1⟩, ⟨3, 0, 0, 1⟩]] := by
    rw [hl, Option.map_some', hv]
    exact congrArg some corner_triangle_code_order
  refine ⟨hcode, corner_triangle_claimed_order, ?_⟩
  rw [hcode, corner_triangle_claimed_order]
  simp

/-! ### The loop over the mesh triangles -/

section ProjectLemmas
variable {F : Type} [LinearOrderedField F]

theorem project_clipped_color (g : Game F) (tri_projected clipped_n : Triangle F) :
    (Game.project_clipped g tri_projected clipped_n).m_color = clipped_n.m_color := by
  simp [Game.project_clipped, Triangle.set_point_at, Triangle.point_at, Triangle.set_color,
    Triangle.set_x_on_point_at, Triangle.set_y_on_point_at]

theorem project_clipped_w (g : Game F) (tri_projected clipped_n : Triangle F) :
    (Game.project_clipped g tri_projected clipped_n).m_points_0.w = 1 ∧
    (Game.project_clipped g tri_projected clipped_n).m_points_1.w = 1 ∧
    (Game.project_clipped g tri_projected clipped_n).m_points_2.w = 1 := by
  simp [Game.project_clipped, Triangle.set_point_at, Triangle.point_at, Triangle.set_color,
    Triangle.set_x_on_point_at, Triangle.set_y_on_point_at, Vec4.add, Vec4.mk3]

theorem project_loop_w (g : Game F) (clipped : List (Triangle F)) :
    ∀ (fuel n : Nat) (tri_projected t : Triangle F),
      t ∈ Game.project_loop g clipped fuel n tri_projected →
        t.m_points_0.w = 1 ∧ t.m_points_1.w = 1 ∧ t.m_points_2.w = 1
  | 0, _, _, _, h => by simp [Game.project_loop] at h
  | fuel + 1, n, tri_projected, t, h => by
    unfold Game.project_loop at h
    cases hc : clipped[n]? with
    | none => simp [hc] at h
    | some c =>
      simp only [hc, List.mem_cons] at h
      rcases h with h | h
      · rw [h]; exact project_clipped_w g tri_projected c
      · exact project_loop_w g clipped fuel (n + 1) _ t h

theorem project_loop_length (g : Game F) (c0 c1 tri_projected : Triangle F) (k : Nat)
    (hk : k ≤ 2) : (Game.project_loop g [c0, c1] k 0 tri_projected).length = k := by
  interval_cases k <;> simp [Game.project_loop]

theorem project_loop_one (g : Game F) (c0 c1 tri_projected : Triangle F) :
    Game.project_loop g [c0, c1] 1 0 tri_projected
      = [Game.project_clipped g tri_projected c0] := by
  simp [Game.project_loop]

end ProjectLemmas

section NearClipLemmas
variable {F : Type} [LinearOrderedField F] [HasSqrt F]

/-- The count returned by the near-plane clip, by the number of vertices in front of it. -/
theorem near_clip_count (t o1 o2 : Triangle F) :
    (Triangle.clip_against_plane near_plane_p near_plane_n t o1 o2).1 = nearClipCount t := by
  rw [clip_eq_buckets]
  simp only [nearClipCount, insideVertices, outsideVertices, Triangle.vertices]
  by_cases h0 : 0 ≤ signedDistance near_plane_p near_plane_n t.m_points_0 <;>
  by_cases h1 : 0 ≤ signedDistance near_plane_p near_plane_n t.m_points_1 <;>
  by_cases h2 : 0 ≤ signedDistance near_plane_p near_plane_n t.m_points_2 <;>
  simp [List.filter, h0, h1, h2, not_le.mp, not_lt.mpr]

theorem nearClipCount_le_two (t : Triangle F) : nearClipCount t ≤ 2 := by
  unfold nearClipCount
  split_ifs <;> omega

theorem nearClipCount_set_color (t : Triangle F) (c : SDL_Color) :
    nearClipCount (t.set_color c) = nearClipCount t := rfl

end NearClipLemmas

section ProcessLemmas
variable {F : Type} [LinearOrderedField F] [HasSqrt F] [FloorRing F]

/-- A mesh triangle whose first world-space vertex is coarse-culled pushes nothing. -/
theorem process_triangle_coarse_culled (g : Game F) (world view : Matrix4x4 F)
    (tri : Triangle F) (h : coarseCulled g (transformTriangle world tri).m_points_0) :
    Game.process_triangle g world view tri = [] := by
  unfold coarseCulled transformTriangle at h
  simp only [Game.process_triangle, Triangle.set_point_at, Triangle.point_at]
  rw [if_pos h]

/-- A mesh triangle that passes the coarse cull and faces away pushes nothing. -/
theorem process_triangle_back_face (g : Game F) (world view : Matrix4x4 F)
    (tri : Triangle F) (hpass : ¬ coarseCulled g (transformTriangle world tri).m_points_0)
    (hback : ¬ Vec4.dot_product (faceNormal (transformTriangle world tri))
      (Vec4.subtract (transformTriangle world tri).m_points_0 g.m_camera) < 0) :
    Game.process_triangle g world view tri = [] := by
  unfold coarseCulled transformTriangle at hpass
  unfold faceNormal transformTriangle at hback
  simp only [Game.process_triangle, Triangle.set_point_at, Triangle.point_at,
    Triangle.set_color]
  rw [if_neg hpass, if_neg hback]

/-- A mesh triangle that passes the coarse cull and faces the camera is shaded, moved to view
space, clipped against the near plane into two fresh slots, and the returned triangles are
projected. -/
theorem process_triangle_front_face (g : Game F) (world view : Matrix4x4 F)
    (tri : Triangle F) (hpass : ¬ coarseCulled g (transformTriangle world tri).m_points_0)
    (hfront : Vec4.dot_product (faceNormal (transformTriangle world tri))
      (Vec4.subtract (transformTriangle world tri).m_points_0 g.m_camera) < 0) :
    Game.process_triangle g world view tri =
      Game.project_loop g
        [(Triangle.clip_against_plane near_plane_p near_plane_n
            ((transformTriangle view (transformTriangle world tri)).set_color
              (shadedColor tri.m_color (shadeIntensity (faceNormal (transformTriangle world tri)))))
            Triangle.empty Triangle.empty).2.1,
         (Triangle.clip_against_plane near_plane_p near_plane_n
            ((transformTriangle view (transformTriangle world tri)).set_color
              (shadedColor tri.m_color (shadeIntensity (faceNormal (transformTriangle world tri)))))
            Triangle.empty Triangle.empty).2.2]
        (Triangle.clip_against_plane near_plane_p near_plane_n
            ((transformTriangle view (transformTriangle world tri)).set_color
              (shadedColor tri.m_color (shadeIntensity (faceNormal (transformTriangle world tri)))))
            Triangle.empty Triangle.empty).1
        0 Triangle.empty := by
  unfold coarseCulled transformTriangle at hpass
  unfold faceNormal transformTriangle at hfront
  simp only [Game.process_triangle, Triangle.set_point_at, Triangle.point_at,
    Triangle.set_color]
  rw [if_neg hpass, if_pos hfront]
  rfl


end ProcessLemmas

theorem sqrt_rat_mul_self (q : ℚ) (hq : 0 ≤ q) : HasSqrt.sqrt (q * q) = q := by
  show Rat.sqrt (q * q) = q
  rw [Rat.sqrt_eq, abs_of_nonneg hq]

theorem sqrt_rat_25 : HasSqrt.sqrt (25 : ℚ) = 5 := by
  have h := sqrt_rat_mul_self 5 (by norm_num)
  norm_num at h
  exact h

theorem sample_view_eq :
    (sample_view sample_camera sample_look : Matrix4x4 ℚ) = Matrix4x4.make_translation 0 (-3) (-6) := by
  apply Matrix4x4.ext_entries
  apply forall_fin4_pairs
  simp only [sample_view, sample_camera, sample_look, Matrix4x4.quick_inverse,
    Matrix4x4.point_at, Matrix4x4.make_translation, Matrix4x4.ofEntries_entries]
  norm_num [Vec4.normalize, Vec4.length, Vec4.dot_product, Vec4.subtract, Vec4.add,
    Vec4.multiply, Vec4.cross_product, Vec4.mk3, sqrt_rat_one]

theorem sample_not_culled (m : Option (Mesh ℚ)) :
    ¬ coarseCulled (sample_game sample_camera sample_look m)
      (transformTriangle sample_world sample_mesh_triangle).m_points_0 := by
  simp only [coarseCulled, transformTriangle, sample_world, sample_mesh_triangle,
    Triangle.ofCoords, sample_game, sample_camera, sample_look, Matrix4x4.multiply_vector,
    Matrix4x4.make_translation, Matrix4x4.ofEntries_entries, Vec4.mk3]
  norm_num [Vec4.distance, Vec4.normalize, Vec4.length, Vec4.dot_product, Vec4.subtract,
    Vec4.mk3, sqrt_rat_25]

theorem sample_front_facing (m : Option (Mesh ℚ)) :
    Vec4.dot_product (faceNormal (transformTriangle sample_world sample_mesh_triangle))
      (Vec4.subtract (transformTriangle sample_world sample_mesh_triangle).m_points_0
        (sample_game sample_camera sample_look m).m_camera) < 0 := by
  simp only [faceNormal, transformTriangle, sample_world, sample_mesh_triangle,
    Triangle.ofCoords, sample_game, sample_camera, sample_look, Matrix4x4.multiply_vector,
    Matrix4x4.make_translation, Matrix4x4.ofEntries_entries, Vec4.mk3]
  norm_num [Vec4.normalize, Vec4.length, Vec4.dot_product, Vec4.subtract,
    Vec4.cross_product, Vec4.mk3, sqrt_rat_one]

theorem sample_viewed :
    (transformTriangle (sample_view sample_camera sample_look)
      (transformTriangle sample_world sample_mesh_triangle) : Triangle ℚ)
      = ⟨⟨0, -3, 4, 1⟩, ⟨0, -3, 5, 1⟩, ⟨1, -3, 5, 1⟩, ⟨0, 0, 255, 204⟩⟩ := by
  rw [sample_view_eq]
  simp only [transformTriangle, sample_world, sample_mesh_triangle,
    Triangle.ofCoords, Matrix4x4.multiply_vector,
    Matrix4x4.make_translation, Matrix4x4.ofEntries_entries, Vec4.mk3]
  norm_num

theorem signedDistance_near_rat (v : Vec4 ℚ) :
    signedDistance near_plane_p near_plane_n v = v.z - 1 / 10 := by
  norm_num [signedDistance, near_plane_p, near_plane_n, Vec4.normalize, Vec4.length,
    Vec4.dot_product, Vec4.mk3, sqrt_rat_one]

/-- The frame of the sample: the one mesh triangle, wholly in front of the near plane, is
pushed once, with the white of the fresh clip slot. -/
theorem sample_process (m : Option (Mesh ℚ)) :
    Game.process_triangle (sample_game sample_camera sample_look m) sample_world
      (sample_view sample_camera sample_look) sample_mesh_triangle
      = [sample_screen_triangle] := by
  rw [process_triangle_front_face _ _ _ _ (sample_not_culled m) (sample_front_facing m),
    sample_viewed]
  rw [three_inside_passthrough near_plane_p near_plane_n _ Triangle.empty Triangle.empty
    (by rw [signedDistance_near_rat]; norm_num [Triangle.set_color])
    (by rw [signedDistance_near_rat]; norm_num [Triangle.set_color])
    (by rw [signedDistance_near_rat]; norm_num [Triangle.set_color])]
  rw [project_loop_one]
  simp only [Game.project_clipped, Triangle.set_point_at, Triangle.point_at, Triangle.set_color,
    Triangle.set_x_on_point_at, Triangle.set_y_on_point_at, sample_game, sample_projection,
    Matrix4x4.multiply_vector, Matrix4x4.ofEntries_entries, Vec4.add, Vec4.divide, Vec4.mk3,
    Triangle.empty, Triangle.white, sample_screen_triangle]
  norm_num

theorem sample_collect :
    Game.collect_triangles (sample_frame : Game ℚ) sample_world
      (sample_view sample_camera sample_look) = [sample_screen_triangle] := by
  simp only [Game.collect_triangles, sample_frame, sample_game, List.flatMap_cons,
    List.flatMap_nil, List.append_nil]
  exact sample_process _

theorem sample_three_in_front :
    (insideVertices near_plane_p near_plane_n
      (transformTriangle (sample_view sample_camera sample_look)
        (transformTriangle sample_world sample_mesh_triangle) : Triangle ℚ)).length = 3 := by
  rw [sample_viewed]
  norm_num [insideVertices, Triangle.vertices, signedDistance_near_rat, List.filter]

/-- C15: in the sample frame (camera `(0, 3, 6)` looking along `+z`, world matrix the
translation by `(0, 0, 10)`) the water-colored mesh triangle `(0,0,0)`, `(0,0,1)`, `(1,0,1)`
survives both culls and lies wholly in front of the near plane, and the one screen-space
triangle pushed for it is white `(255, 255, 255, 255)`: that is the shaded color for no
intensity, since the alpha of the mesh color is 204. -/
theorem shaded_color_lost_on_pass_through :
    (¬ coarseCulled (sample_frame : Game ℚ)
        (transformTriangle sample_world sample_mesh_triangle).m_points_0 ∧
      Vec4.dot_product (faceNormal (transformTriangle sample_world sample_mesh_triangle))
        (Vec4.subtract (transformTriangle sample_world sample_mesh_triangle).m_points_0
          (sample_frame : Game ℚ).m_camera) < 0 ∧
      (insideVertices near_plane_p near_plane_n
        (transformTriangle (sample_view sample_camera sample_look)
          (transformTriangle sample_world sample_mesh_triangle) : Triangle ℚ)).length = 3) ∧
    (Game.collect_triangles (sample_frame : Game ℚ) sample_world
      (sample_view sample_camera sample_look)).map Triangle.m_color
      = [⟨255, 255, 255, 255⟩] ∧
    ∀ intensity : ℚ,
      shadedColor (sample_mesh_triangle : Triangle ℚ).m_color intensity
        ≠ ⟨255, 255, 255, 255⟩ := by
  refine ⟨⟨sample_not_culled _, sample_front_facing _, sample_three_in_front⟩, ?_, ?_⟩
  · rw [sample_collect]
    rfl
  · intro intensity h
    have ha := congrArg SDL_Color.a h
    simp [shadedColor, sample_mesh_triangle, Triangle.ofCoords] at ha

section ProcessTheorems
variable {F : Type} [LinearOrderedField F] [HasSqrt F] [FloorRing F]

theorem process_triangle_w (g : Game F) (world view : Matrix4x4 F) (tri t : Triangle F)
    (ht : t ∈ Game.process_triangle g world view tri) :
    t.m_points_0.w = 1 ∧ t.m_points_1.w = 1 ∧ t.m_points_2.w = 1 := by
  by_cases hpass : coarseCulled g (transformTriangle world tri).m_points_0
  · rw [process_triangle_coarse_culled g world view tri hpass] at ht
    simp at ht
  · by_cases hfront : Vec4.dot_product (faceNormal (transformTriangle world tri))
        (Vec4.subtract (transformTriangle world tri).m_points_0 g.m_camera) < 0
    · rw [process_triangle_front_face g world view tri hpass hfront] at ht
      exact project_loop_w g _ _ _ _ t ht
    · rw [process_triangle_back_face g world view tri hpass hfront] at ht
      simp at ht

/-- C16: every vertex of every triangle pushed onto the screen-space list of a frame has
`w = 1`. -/
theorem screen_triangles_w_one (g : Game F) (world view : Matrix4x4 F) (t : Triangle F)
    (ht : t ∈ Game.collect_triangles g world view) :
    t.m_points_0.w = 1 ∧ t.m_points_1.w = 1 ∧ t.m_points_2.w = 1 := by
  unfold Game.collect_triangles at ht
  cases hm : g.m_mesh with
  | none => simp [hm] at ht
  | some mesh =>
    simp only [hm, List.mem_flatMap] at ht
    obtain ⟨tri, -, h⟩ := ht
    exact process_triangle_w g world view tri t h

/-- C17: a mesh triangle whose first world-space vertex is more than 50 units from the camera
pushes no triangle onto the screen-space list, whatever its other vertices, its facing, the
look direction and the matrices are. -/
theorem coarse_cull_beyond_fifty (g : Game F) (world view : Matrix4x4 F) (tri : Triangle F)
    (hfar : 50 < Vec4.distance (Matrix4x4.multiply_vector world tri.m_points_0) g.m_camera) :
    Game.process_triangle g world view tri = [] :=
  process_triangle_coarse_culled g world view tri (Or.inl hfar)

/-- A front-facing triangle that passes the coarse cull pushes one triangle per triangle the
near-plane clip returns. -/
theorem process_triangle_front_length (g : Game F) (world view : Matrix4x4 F)
    (tri : Triangle F) (hpass : ¬ coarseCulled g (transformTriangle world tri).m_points_0)
    (hfront : Vec4.dot_product (faceNormal (transformTriangle world tri))
      (Vec4.subtract (transformTriangle world tri).m_points_0 g.m_camera) < 0) :
    (Game.process_triangle g world view tri).length
      = nearClipCount (transformTriangle view (transformTriangle world tri)) := by
  rw [process_triangle_front_face g world view tri hpass hfront, near_clip_count,
    nearClipCount_set_color]
  exact project_loop_length g _ _ _ _ (nearClipCount_le_two _)

/-- C18, amended: for a mesh triangle whose world-space triangle passes the coarse cull, with
`normal = normalize(cross(v1 - v0, v2 - v0))`: when `dot(normal, v0 - camera) ≥ 0` nothing is
pushed, and when `dot(normal, v0 - camera) < 0` one triangle is pushed for each triangle the
near-plane clip returns for the view-space triangle (two, one or none). -/
theorem back_face_skip_then_near_clip (g : Game F) (world view : Matrix4x4 F)
    (tri : Triangle F) (hpass : ¬ coarseCulled g (transformTriangle world tri).m_points_0) :
    (Game.process_triangle g world view tri).length =
      if Vec4.dot_product (faceNormal (transformTriangle world tri))
          (Vec4.subtract (transformTriangle world tri).m_points_0 g.m_camera) < 0 then
        nearClipCount (transformTriangle view (transformTriangle world tri))
      else 0 := by
  split_ifs with hfront
  · exact process_triangle_front_length g world view tri hpass hfront
  · rw [process_triangle_back_face g world view tri hpass hfront]
    rfl

end ProcessTheorems

theorem screen_triangles_w_one_witness :
    (sample_screen_triangle : Triangle ℚ) ∈ Game.collect_triangles (sample_frame : Game ℚ)
        sample_world (sample_view sample_camera sample_look) ∧
    ((sample_screen_triangle : Triangle ℚ).m_points_0.w = 1 ∧
      (sample_screen_triangle : Triangle ℚ).m_points_1.w = 1 ∧
      (sample_screen_triangle : Triangle ℚ).m_points_2.w = 1) :=
  have h : (sample_screen_triangle : Triangle ℚ) ∈ Game.collect_triangles
      (sample_frame : Game ℚ) sample_world (sample_view sample_camera sample_look) := by
    rw [sample_collect]
    exact List.mem_singleton.mpr rfl
  ⟨h, screen_triangles_w_one sample_frame sample_world (sample_view sample_camera sample_look)
    sample_screen_triangle h⟩

theorem back_face_skip_then_near_clip_witness :
    ¬ coarseCulled (sample_frame : Game ℚ)
        (transformTriangle sample_world sample_mesh_triangle).m_points_0 ∧
    (Game.process_triangle (sample_frame : Game ℚ) sample_world
        (sample_view sample_camera sample_look) sample_mesh_triangle).length =
      if Vec4.dot_product (faceNormal (transformTriangle sample_world sample_mesh_triangle))
          (Vec4.subtract (transformTriangle sample_world sample_mesh_triangle).m_points_0
            (sample_frame : Game ℚ).m_camera) < 0 then
        nearClipCount (transformTriangle (sample_view sample_camera sample_look)
          (transformTriangle sample_world sample_mesh_triangle) : Triangle ℚ)
      else 0 :=
  ⟨sample_not_culled _, back_face_skip_then_near_clip sample_frame sample_world
    (sample_view sample_camera sample_look) sample_mesh_triangle (sample_not_culled _)⟩

theorem sqrt_rat_3600 : HasSqrt.sqrt (3600 : ℚ) = 60 := by
  have h := sqrt_rat_mul_self 60 (by norm_num)
  norm_num at h
  exact h

theorem sqrt_rat_3721_14400 : HasSqrt.sqrt (3721 / 14400 : ℚ) = 61 / 120 := by
  have h := sqrt_rat_mul_self (61 / 120) (by norm_num)
  norm_num at h
  exact h

theorem sample_far_distance :
    50 < Vec4.distance
      (Matrix4x4.multiply_vector sample_world (sample_mesh_triangle : Triangle ℚ).m_points_0)
      (sample_game sample_far_camera sample_look none : Game ℚ).m_camera := by
  simp only [sample_world, sample_mesh_triangle, Triangle.ofCoords, sample_game,
    sample_far_camera, Matrix4x4.multiply_vector, Matrix4x4.make_translation,
    Matrix4x4.ofEntries_entries, Vec4.mk3]
  norm_num [Vec4.distance, sqrt_rat_3600]

theorem coarse_cull_beyond_fifty_witness :
    50 < Vec4.distance
      (Matrix4x4.multiply_vector sample_world (sample_mesh_triangle : Triangle ℚ).m_points_0)
      (sample_game sample_far_camera sample_look none : Game ℚ).m_camera ∧
    Game.process_triangle (sample_game sample_far_camera sample_look none : Game ℚ)
      sample_world (sample_view sample_far_camera sample_look) sample_mesh_triangle = [] :=
  ⟨sample_far_distance, coarse_cull_beyond_fifty (sample_game sample_far_camera sample_look none)
    sample_world (sample_view sample_far_camera sample_look) sample_mesh_triangle
    sample_far_distance⟩

theorem sample_near_view_eq :
    (sample_view sample_near_camera sample_look_back : Matrix4x4 ℚ)
      = Matrix4x4.ofEntries (-1) 0 0 0 0 1 0 0 0 0 (-1) 0 0 (-(1 / 2)) (1211 / 120) 1 := by
  apply Matrix4x4.ext_entries
  apply forall_fin4_pairs
  simp only [sample_view, sample_near_camera, sample_look_back, Matrix4x4.quick_inverse,
    Matrix4x4.point_at, Matrix4x4.ofEntries_entries]
  norm_num [Vec4.normalize, Vec4.length, Vec4.dot_product, Vec4.subtract, Vec4.add,
    Vec4.multiply, Vec4.cross_product, Vec4.mk3, sqrt_rat_one]

theorem sample_near_not_culled :
    ¬ coarseCulled (sample_game sample_near_camera sample_look_back none : Game ℚ)
      (transformTriangle sample_world sample_mesh_triangle_b).m_points_0 := by
  have hv : (transformTriangle sample_world (sample_mesh_triangle_b : Triangle ℚ)).m_points_0
      = ⟨0, 0, 10, 1⟩ := by
    simp only [transformTriangle, sample_world, sample_mesh_triangle_b,
      Triangle.ofCoords, Matrix4x4.multiply_vector, Matrix4x4.make_translation,
      Matrix4x4.ofEntries_entries, Vec4.mk3]
    norm_num
  have hdot : Vec4.dot_product
      (Vec4.subtract (⟨0, 0, 10, 1⟩ : Vec4 ℚ) sample_near_camera)
      (Vec4.subtract (⟨0, 0, 10, 1⟩ : Vec4 ℚ) sample_near_camera) = 3721 / 14400 := by
    simp only [Vec4.dot_product, Vec4.subtract, Vec4.mk3, sample_near_camera]
    norm_num
  have hdist : Vec4.distance (⟨0, 0, 10, 1⟩ : Vec4 ℚ) sample_near_camera = 61 / 120 := by
    have e : (sample_near_camera.x - 0) * (sample_near_camera.x - 0)
        + (sample_near_camera.y - 0) * (sample_near_camera.y - 0)
        + (sample_near_camera.z - 10) * (sample_near_camera.z - 10) = (3721 / 14400 : ℚ) := by
      simp only [sample_near_camera]
      norm_num
    simp only [Vec4.distance]
    rw [e, sqrt_rat_3721_14400]
  rw [hv]
  unfold coarseCulled
  simp only [sample_game, hdist, Vec4.normalize, Vec4.length, hdot, sqrt_rat_3721_14400]
  simp only [Vec4.dot_product, Vec4.subtract, Vec4.mk3, sample_near_camera, sample_look_back]
  norm_num


theorem sample_near_front_facing :
    Vec4.dot_product (faceNormal (transformTriangle sample_world sample_mesh_triangle_b))
      (Vec4.subtract (transformTriangle sample_world sample_mesh_triangle_b).m_points_0
        (sample_game sample_near_camera sample_look_back none : Game ℚ).m_camera) < 0 := by
  simp only [faceNormal, transformTriangle, sample_world, sample_mesh_triangle_b,
    Triangle.ofCoords, sample_game, sample_near_camera, Matrix4x4.multiply_vector,
    Matrix4x4.make_translation, Matrix4x4.ofEntries_entries, Vec4.mk3]
  norm_num [Vec4.normalize, Vec4.length, Vec4.dot_product, Vec4.subtract,
    Vec4.cross_product, Vec4.mk3, sqrt_rat_one]

theorem sample_near_count :
    nearClipCount (transformTriangle (sample_view sample_near_camera sample_look_back)
      (transformTriangle sample_world sample_mesh_triangle_b) : Triangle ℚ) = 0 := by
  rw [sample_near_view_eq]
  simp only [nearClipCount, insideVertices, Triangle.vertices, signedDistance_near_rat,
    transformTriangle, sample_world, sample_mesh_triangle_b,
    Triangle.ofCoords, Matrix4x4.multiply_vector,
    Matrix4x4.make_translation, Matrix4x4.ofEntries_entries, Vec4.mk3]
  norm_num [List.filter]

/-- C18, counterexample: with the camera at `(0, 1/2, 10 + 11/120)` looking along `-z`, the
world-space triangle `(0,0,10)`, `(1,0,11)`, `(1,0,10)` passes the coarse cull and faces the
camera (`dot(normal, v0 - camera) = -1/2 < 0`), yet nothing is pushed for it: its three
view-space vertices are behind the near plane. -/
theorem front_facing_triangle_behind_near_plane :
    ¬ coarseCulled (sample_game sample_near_camera sample_look_back none : Game ℚ)
      (transformTriangle sample_world sample_mesh_triangle_b).m_points_0 ∧
    Vec4.dot_product (faceNormal (transformTriangle sample_world sample_mesh_triangle_b))
      (Vec4.subtract (transformTriangle sample_world sample_mesh_triangle_b).m_points_0
        (sample_game sample_near_camera sample_look_back none : Game ℚ).m_camera) < 0 ∧
    Game.process_triangle (sample_game sample_near_camera sample_look_back none : Game ℚ)
      sample_world (sample_view sample_near_camera sample_look_back) sample_mesh_triangle_b
      = [] := by
  refine ⟨sample_near_not_culled, sample_near_front_facing, ?_⟩
  apply List.length_eq_zero.mp
  rw [process_triangle_front_length (sample_game sample_near_camera sample_look_back none)
    sample_world (sample_view sample_near_camera sample_look_back) sample_mesh_triangle_b
    sample_near_not_culled sample_near_front_facing]
  exact sample_near_count

/-! ### Depth sort and camera update -/

section SortCamera
variable {F : Type} [LinearOrderedField F]

theorem depth_comp_eq (a b : Triangle F) : Game.depth_comp a b = decide (avgZ a > avgZ b) := rfl

/-- C13: for every list of screen-space triangles, the depth sort returns the same triangles
in another order (a permutation of the list), and in it every adjacent pair `(i, i+1)`
satisfies `avgZ(i) ≥ avgZ(i+1)`, where `avgZ` is the mean of the three vertex `z` values. -/
theorem depth_sort_adjacent_pairs (triangles : List (Triangle F)) :
    List.Perm (Game.depth_sort triangles) triangles ∧
    List.Chain' (fun a b => avgZ a ≥ avgZ b) (Game.depth_sort triangles) := by
  refine ⟨List.mergeSort_perm triangles _, ?_⟩
  apply List.Pairwise.chain'
  have htrans : ∀ a b c : Triangle F, (!Game.depth_comp b a) = true →
      (!Game.depth_comp c b) = true → (!Game.depth_comp c a) = true := by
    intro a b c hab hbc
    simp only [depth_comp_eq, Bool.not_eq_true', decide_eq_false_iff_not, not_lt] at hab hbc ⊢
    exact le_trans hbc hab
  have htotal : ∀ a b : Triangle F,
      ((!Game.depth_comp b a) || (!Game.depth_comp a b)) = true := by
    intro a b
    simp only [depth_comp_eq, Bool.or_eq_true, Bool.not_eq_true', decide_eq_false_iff_not,
      not_lt]
    exact le_total _ _
  have h : (triangles.mergeSort (fun a b => !Game.depth_comp b a)).Pairwise
      (fun a b => (!Game.depth_comp b a) = true) :=
    List.sorted_mergeSort htrans htotal triangles
  refine List.Pairwise.imp ?_ h
  intro a b hab
  simp only [depth_comp_eq, Bool.not_eq_true', decide_eq_false_iff_not, not_lt] at hab
  exact hab

/-- C19: for every prior state, every elapsed time and every combination of pressed keys,
after the camera-update step `0 ≤ pitch ≤ 1.5` and `camera.y ≥ 0.5`. -/
theorem update_camera_clamps [HasExp F] (g : Game F) (keyboard_state : Keys) (elapsed : F) :
    0 ≤ (Game.update_camera g keyboard_state elapsed).m_pitch ∧
    (Game.update_camera g keyboard_state elapsed).m_pitch ≤ 3 / 2 ∧
    1 / 2 ≤ (Game.update_camera g keyboard_state elapsed).m_camera.y := by
  unfold Game.update_camera
  lift_lets
  intro g1 g2 g3 g4 forward w g5 s g6 g7 g8 up direction g9 g10 t g11 t2 g12 g13 g14 g15
  have hp0 : 0 ≤ g15.m_pitch := le_min (le_max_left _ _) (by norm_num)
  have hp1 : g15.m_pitch ≤ 3 / 2 := min_le_right _ _
  split_ifs with h
  · exact ⟨hp0, hp1, le_refl _⟩
  · exact ⟨hp0, hp1, not_lt.mp h⟩

end SortCamera

/-! ### `Vec4::normalize` -/

section Normalize
variable {F : Type} [LinearOrderedField F] [HasSqrt F]

/-- C20: for every vector `v` with `x`, `y`, `z` not all `0`, `length(normalize(v)) = 1` in
exact arithmetic. -/
theorem normalize_has_length_one (hsqrt : ExactSqrt F) (v : Vec4 F) (hv : v.Nonzero) :
    Vec4.length (Vec4.normalize v) = 1 :=
  Vec4.length_normalize hsqrt hv

end Normalize

theorem normalize_has_length_one_witness :
    (⟨3, 4, 0, 1⟩ : Vec4 ℝ).Nonzero ∧
    Vec4.length (Vec4.normalize (⟨3, 4, 0, 1⟩ : Vec4 ℝ)) = 1 :=
  have hv : (⟨3, 4, 0, 1⟩ : Vec4 ℝ).Nonzero := by simp [Vec4.Nonzero]
  ⟨hv, normalize_has_length_one exactSqrt_real ⟨3, 4, 0, 1⟩ hv⟩

/-! ### Flat and single-cell height maps -/

section FlatMesh
variable {F : Type} [LinearOrderedField F]

/-- C12, amended: for the single-cell height map with height 5 at corner `i` and 0 at the
other three, the builder returns two triangles, none of them grass: both are sand when the
raised corner is `h1` or `h4` (index 0 or 3, the two corners both triangles share); when it is
`h2` (index 1) Triangle A is water and Triangle B is sand, and when it is `h3` (index 2)
Triangle A is sand and Triangle B is water. -/
theorem single_cell_raised_corner_colors [HasSqrt F] [FloorRing F] (hsqrt : ExactSqrt F)
    (i : Nat) (hi : i < 4) :
    (Mesh.create_from_height_map (([0, 0, 0, 0] : List F).set i 5)).map
        (fun mesh => mesh.m_triangles.map Triangle.m_color)
      = some (if i = 0 ∨ i = 3 then [sand, sand]
          else if i = 1 then [water, sand] else [sand, water]) := by
  have h5 : (5 : F) ≠ 0 := by norm_num
  have hs : 1 ≤ 32767 := by norm_num
  interval_cases i
  · rw [create_from_height_map_eq hsqrt 1 (([0, 0, 0, 0] : List F).set 0 5) hs rfl]
    simp [cellTriangles, cellTriangleA, cellTriangleB, heightAt, Mesh.color_given_heights,
      water, sand, h5]
  · rw [create_from_height_map_eq hsqrt 1 (([0, 0, 0, 0] : List F).set 1 5) hs rfl]
    simp [cellTriangles, cellTriangleA, cellTriangleB, heightAt, Mesh.color_given_heights,
      water, sand, h5]
  · rw [create_from_height_map_eq hsqrt 1 (([0, 0, 0, 0] : List F).set 2 5) hs rfl]
    simp [cellTriangles, cellTriangleA, cellTriangleB, heightAt, Mesh.color_given_heights,
      water, sand, h5]
  · rw [create_from_height_map_eq hsqrt 1 (([0, 0, 0, 0] : List F).set 3 5) hs rfl]
    simp [cellTriangles, cellTriangleA, cellTriangleB, heightAt, Mesh.color_given_heights,
      water, sand, h5]

end FlatMesh

theorem sqrt_rat_4 : HasSqrt.sqrt (4 : ℚ) = 2 := by
  have h := sqrt_rat_mul_self 2 (by norm_num)
  norm_num at h
  exact h

/-- C12, counterexample: with the east corner `h2` raised, heights `[0, 5, 0, 0]`, Triangle A
has the corners `h1`, `h3`, `h4`, all `0`, and is colored water `(0, 0, 255, 204)`, not sand;
Triangle B is sand. -/
theorem raised_east_corner_leaves_water :
    (Mesh.create_from_height_map ([0, 5, 0, 0] : List ℚ)).map
        (fun mesh => mesh.m_triangles.map Triangle.m_color)
      = some [⟨0, 0, 255, 204⟩, ⟨255, 255, 112, 153⟩] := by
  rw [create_from_height_map_eq_of_root 1 ([0, 5, 0, 0] : List ℚ) (by norm_num) rfl (by
    simp only [List.length_cons, List.length_nil]
    norm_num [sqrt_rat_4])]
  simp [cellTriangles, cellTriangleA, cellTriangleB, heightAt, Mesh.color_given_heights]

theorem single_cell_raised_corner_colors_witness :
    3 < 4 ∧
    (Mesh.create_from_height_map (([0, 0, 0, 0] : List ℝ).set 3 5)).map
        (fun mesh => mesh.m_triangles.map Triangle.m_color)
      = some (if 3 = 0 ∨ 3 = 3 then [sand, sand]
          else if 3 = 1 then [water, sand] else [sand, water]) :=
  ⟨by norm_num, single_cell_raised_corner_colors exactSqrt_real 3 (by norm_num)⟩

/-! ## Cross product, rotations and `quick_inverse` -/

theorem exactTrig_real : ExactTrig ℝ := fun a => by
  show Real.cos a * Real.cos a + Real.sin a * Real.sin a = 1
  have := Real.cos_sq_add_sin_sq a
  nlinarith [this]

section CrossRotation
variable {F : Type} [LinearOrderedField F]

/-- C27: `Vec4::cross_product` is the right-handed cross product: for all vectors `a`, `b`,
`cross(a, b) = (a.y*b.z - a.z*b.y, a.z*b.x - a.x*b.z, a.x*b.y - a.y*b.x)` with `w = 1`, it
is orthogonal to both operands, and `cross((1,0,0), (0,1,0)) = (0,0,1)`. -/
theorem cross_product_right_handed (a b : Vec4 F) :
    Vec4.cross_product a b
      = ⟨a.y * b.z - a.z * b.y, a.z * b.x - a.x * b.z, a.x * b.y - a.y * b.x, 1⟩ ∧
    Vec4.dot_product (Vec4.cross_product a b) a = 0 ∧
    Vec4.dot_product (Vec4.cross_product a b) b = 0 ∧
    Vec4.cross_product (⟨1, 0, 0, 1⟩ : Vec4 F) ⟨0, 1, 0, 1⟩ = ⟨0, 0, 1, 1⟩ := by
  refine ⟨rfl, Vec4.dot_cross_left a b, Vec4.dot_cross_right a b, ?_⟩
  simp [Vec4.cross_product, Vec4.mk3]

theorem multiply_vector_rotation_x [HasTrig F] (a : F) (v : Vec4 F) :
    Matrix4x4.multiply_vector (Matrix4x4.make_rotation_x a) v
      = ⟨v.x, v.y * HasTrig.cos a - v.z * HasTrig.sin a,
         v.y * HasTrig.sin a + v.z * HasTrig.cos a, 1⟩ := by
  obtain ⟨h00, h01, h02, h03, h10, h11, h12, h13, h20, h21, h22, h23, h30, h31, h32, h33⟩ :=
    Matrix4x4.ofEntries_entries (1 : F) 0 0 0 0 (HasTrig.cos a) (HasTrig.sin a) 0
      0 (-HasTrig.sin a) (HasTrig.cos a) 0 0 0 0 1
  simp only [Matrix4x4.multiply_vector, Matrix4x4.make_rotation_x, h00, h01, h02, h03, h10, h11,
    h12, h13, h20, h21, h22, h23, h30, h31, h32, h33, Vec4.mk.injEq]
  refine ⟨by ring, by ring, by ring, by ring⟩

theorem multiply_vector_rotation_y [HasTrig F] (a : F) (v : Vec4 F) :
    Matrix4x4.multiply_vector (Matrix4x4.make_rotation_y a) v
      = ⟨v.x * HasTrig.cos a + v.z * HasTrig.sin a, v.y,
         v.z * HasTrig.cos a - v.x * HasTrig.sin a, 1⟩ := by
  obtain ⟨h00, h01, h02, h03, h10, h11, h12, h13, h20, h21, h22, h23, h30, h31, h32, h33⟩ :=
    Matrix4x4.ofEntries_entries (HasTrig.cos a) 0 (-HasTrig.sin a) 0 0 (1 : F) 0 0
      (HasTrig.sin a) 0 (HasTrig.cos a) 0 0 0 0 1
  simp only [Matrix4x4.multiply_vector, Matrix4x4.make_rotation_y, h00, h01, h02, h03, h10, h11,
    h12, h13, h20, h21, h22, h23, h30, h31, h32, h33, Vec4.mk.injEq]
  refine ⟨by ring, by ring, by ring, by ring⟩

theorem multiply_vector_rotation_z [HasTrig F] (a : F) (v : Vec4 F) :
    Matrix4x4.multiply_vector (Matrix4x4.make_rotation_z a) v
      = ⟨v.x * HasTrig.cos a - v.y * HasTrig.sin a,
         v.x * HasTrig.sin a + v.y * HasTrig.cos a, v.z, 1⟩ := by
  obtain ⟨h00, h01, h02, h03, h10, h11, h12, h13, h20, h21, h22, h23, h30, h31, h32, h33⟩ :=
    Matrix4x4.ofEntries_entries (HasTrig.cos a) (HasTrig.sin a) 0 0
      (-HasTrig.sin a) (HasTrig.cos a) 0 0 0 0 (1 : F) 0 0 0 0 1
  simp only [Matrix4x4.multiply_vector, Matrix4x4.make_rotation_z, h00, h01, h02, h03, h10, h11,
    h12, h13, h20, h21, h22, h23, h30, h31, h32, h33, Vec4.mk.injEq]
  refine ⟨by ring, by ring, by ring, by ring⟩

/-- C28: for every angle `a`, `multiply_vector` with each of `make_rotation_x(a)`,
`make_rotation_y(a)`, `make_rotation_z(a)` maps the axis vector of the rotation to itself,
preserves dot products (`dot(Ru, Rv) = dot(u, v)` for all `u`, `v`), and rotates positively:
`rotateX` maps `(0,1,0)` to `(0, cos a, sin a)`, `rotateY` maps `(0,0,1)` to
`(sin a, 0, cos a)`, `rotateZ` maps `(1,0,0)` to `(cos a, sin a, 0)`. -/
theorem rotations_right_handed [HasTrig F] (htrig : ExactTrig F) (a : F) :
    (Matrix4x4.multiply_vector (Matrix4x4.make_rotation_x a) ⟨1, 0, 0, 1⟩ = ⟨1, 0, 0, 1⟩ ∧
      Matrix4x4.multiply_vector (Matrix4x4.make_rotation_y a) ⟨0, 1, 0, 1⟩ = ⟨0, 1, 0, 1⟩ ∧
      Matrix4x4.multiply_vector (Matrix4x4.make_rotation_z a) ⟨0, 0, 1, 1⟩ = ⟨0, 0, 1, 1⟩) ∧
    (∀ u v : Vec4 F,
      Vec4.dot_product (Matrix4x4.multiply_vector (Matrix4x4.make_rotation_x a) u)
          (Matrix4x4.multiply_vector (Matrix4x4.make_rotation_x a) v) = Vec4.dot_product u v ∧
      Vec4.dot_product (Matrix4x4.multiply_vector (Matrix4x4.make_rotation_y a) u)
          (Matrix4x4.multiply_vector (Matrix4x4.make_rotation_y a) v) = Vec4.dot_product u v ∧
      Vec4.dot_product (Matrix4x4.multiply_vector (Matrix4x4.make_rotation_z a) u)
          (Matrix4x4.multiply_vector (Matrix4x4.make_rotation_z a) v) = Vec4.dot_product u v) ∧
    (Matrix4x4.multiply_vector (Matrix4x4.make_rotation_x a) ⟨0, 1, 0, 1⟩
        = ⟨0, HasTrig.cos a, HasTrig.sin a, 1⟩ ∧
      Matrix4x4.multiply_vector (Matrix4x4.make_rotation_y a) ⟨0, 0, 1, 1⟩
        = ⟨HasTrig.sin a, 0, HasTrig.cos a, 1⟩ ∧
      Matrix4x4.multiply_vector (Matrix4x4.make_rotation_z a) ⟨1, 0, 0, 1⟩
        = ⟨HasTrig.cos a, HasTrig.sin a, 0, 1⟩) := by
  have h := htrig a
  refine ⟨⟨?_, ?_, ?_⟩, ?_, ⟨?_, ?_, ?_⟩⟩
  · rw [multiply_vector_rotation_x]; simp
  · rw [multiply_vector_rotation_y]; simp
  · rw [multiply_vector_rotation_z]; simp
  · intro u v
    simp only [multiply_vector_rotation_x, multiply_vector_rotation_y,
      multiply_vector_rotation_z, Vec4.dot_product]
    refine ⟨?_, ?_, ?_⟩
    · linear_combination (u.y * v.y + u.z * v.z) * h
    · linear_combination (u.x * v.x + u.z * v.z) * h
    · linear_combination (u.x * v.x + u.y * v.y) * h
  · rw [multiply_vector_rotation_x]; simp
  · rw [multiply_vector_rotation_y]; simp
  · rw [multiply_vector_rotation_z]; simp

end CrossRotation

theorem rotations_right_handed_witness :
    ExactTrig ℝ ∧
    (Matrix4x4.multiply_vector (Matrix4x4.make_rotation_x (1 : ℝ)) ⟨1, 0, 0, 1⟩ = ⟨1, 0, 0, 1⟩ ∧
      Matrix4x4.multiply_vector (Matrix4x4.make_rotation_y (1 : ℝ)) ⟨0, 1, 0, 1⟩ = ⟨0, 1, 0, 1⟩ ∧
      Matrix4x4.multiply_vector (Matrix4x4.make_rotation_z (1 : ℝ)) ⟨0, 0, 1, 1⟩
        = ⟨0, 0, 1, 1⟩) :=
  ⟨exactTrig_real, (rotations_right_handed exactTrig_real 1).1⟩

/-- C29: `quick_inverse` is no general inverse: there is an invertible matrix `M`, the uniform
scale by `2` (its inverse is the uniform scale by `1/2`), for which
`multiply(M, quick_inverse(M))` is not the identity matrix. -/
theorem quick_inverse_not_general_inverse :
    ∃ M N : Matrix4x4 ℚ,
      Matrix4x4.multiply M N = Matrix4x4.make_identity ∧
      Matrix4x4.multiply N M = Matrix4x4.make_identity ∧
      Matrix4x4.multiply M (Matrix4x4.quick_inverse M) ≠ Matrix4x4.make_identity := by
  refine ⟨sample_scale, sample_scale_inverse, ?_, ?_, ?_⟩
  · apply Matrix4x4.ext_entries
    apply forall_fin4_pairs
    simp only [Matrix4x4.multiply, sample_scale, sample_scale_inverse, Matrix4x4.make_identity,
      Matrix4x4.ofEntries_entries]
    norm_num
  · apply Matrix4x4.ext_entries
    apply forall_fin4_pairs
    simp only [Matrix4x4.multiply, sample_scale, sample_scale_inverse, Matrix4x4.make_identity,
      Matrix4x4.ofEntries_entries]
    norm_num
  · intro h
    have h00 := congrArg (fun m => m.m_matrix 0 0) h
    simp only [Matrix4x4.multiply, sample_scale, Matrix4x4.quick_inverse,
      Matrix4x4.make_identity, Matrix4x4.ofEntries_entries] at h00
    norm_num at h00

/-! ## Zero lengths, `point_at` and `make_projection` -/

section ZeroNormalize
variable {F : Type} [LinearOrderedField F] [HasSqrt F]

theorem ExactSqrt.sqrt_zero (h : ExactSqrt F) : HasSqrt.sqrt (0 : F) = 0 :=
  h.sqrt_eq le_rfl (by ring)

/-- C23, amended: for every vector whose `x`, `y` and `z` are all `0` the length is `0`, and
`Vec4::normalize` signals no error: it returns the vector of the three quotients of the
components by that length, with `w = 1`. -/
theorem normalize_zero_divides_by_zero_length (hsqrt : ExactSqrt F) (v : Vec4 F)
    (hx : v.x = 0) (hy : v.y = 0) (hz : v.z = 0) :
    Vec4.length v = 0 ∧
    Vec4.normalize v = ⟨v.x / Vec4.length v, v.y / Vec4.length v, v.z / Vec4.length v, 1⟩ := by
  refine ⟨?_, rfl⟩
  simp only [Vec4.length, Vec4.dot_product, hx, hy, hz]
  simpa using hsqrt.sqrt_zero

/-- C26: for every position, target and up with `target ≠ position` and `up` not parallel to
`target - position`, `point_at` returns the matrix with the rows `[right, 0]`, `[up', 0]`,
`[forward, 0]`, `[position, 1]`, where `forward = normalize(target - position)`,
`up' = normalize(up - forward * dot(up, forward))`, `right = cross(up', forward)`, and
`forward`, `up'`, `right` are unit vectors orthogonal to each other. -/
theorem point_at_rows_orthonormal (hsqrt : ExactSqrt F) (pos target up : Vec4 F)
    (htarget : (Vec4.subtract target pos).Nonzero)
    (hup : (Vec4.cross_product up (Vec4.subtract target pos)).Nonzero) :
    let forward := Vec4.normalize (Vec4.subtract target pos)
    let up' := Vec4.normalize
      (Vec4.subtract up (Vec4.multiply forward (Vec4.dot_product up forward)))
    let right := Vec4.cross_product up' forward
    Matrix4x4.point_at pos target up =
        Matrix4x4.ofEntries
          right.x right.y right.z 0
          up'.x up'.y up'.z 0
          forward.x forward.y forward.z 0
          pos.x pos.y pos.z 1 ∧
      (Vec4.length forward = 1 ∧ Vec4.length up' = 1 ∧ Vec4.length right = 1) ∧
      (Vec4.dot_product forward up' = 0 ∧ Vec4.dot_product forward right = 0 ∧
        Vec4.dot_product up' right = 0) := by
  intro forward up' right
  obtain ⟨hrr, huu, hff, hru, hrf, huf⟩ :=
    point_at_orthonormal hsqrt pos target up htarget hup forward _ up' right rfl rfl rfl rfl
  refine ⟨rfl, ⟨?_, ?_, ?_⟩, ?_, ?_, ?_⟩
  · simp only [Vec4.length, hff]; exact hsqrt.sqrt_one
  · simp only [Vec4.length, huu]; exact hsqrt.sqrt_one
  · simp only [Vec4.length, hrr]; exact hsqrt.sqrt_one
  · rw [← huf]; simp only [Vec4.dot_product]; ring
  · rw [← hrf]; simp only [Vec4.dot_product]; ring
  · rw [← hru]; simp only [Vec4.dot_product]; ring

end ZeroNormalize

theorem sqrt_rat_zero : HasSqrt.sqrt (0 : ℚ) = 0 := by
  show Rat.sqrt 0 = 0
  have h := Rat.sqrt_eq 0
  rw [mul_zero, abs_zero] at h
  exact h

/-- C23, counterexample: for the vector `(0, 0, 0)` the length is `0` and `Vec4::normalize`
returns a vector, the one of the three quotients `0 / length`. -/
theorem normalize_zero_vector_returns :
    Vec4.length (⟨0, 0, 0, 1⟩ : Vec4 ℚ) = 0 ∧
    Vec4.normalize (⟨0, 0, 0, 1⟩ : Vec4 ℚ)
      = ⟨0 / Vec4.length (⟨0, 0, 0, 1⟩ : Vec4 ℚ), 0 / Vec4.length (⟨0, 0, 0, 1⟩ : Vec4 ℚ),
         0 / Vec4.length (⟨0, 0, 0, 1⟩ : Vec4 ℚ), 1⟩ := by
  refine ⟨?_, rfl⟩
  simp only [Vec4.length, Vec4.dot_product]
  norm_num [sqrt_rat_zero]

theorem normalize_zero_divides_by_zero_length_witness :
    Vec4.length (⟨0, 0, 0, 1⟩ : Vec4 ℝ) = 0 ∧
    Vec4.normalize (⟨0, 0, 0, 1⟩ : Vec4 ℝ)
      = ⟨0 / Vec4.length (⟨0, 0, 0, 1⟩ : Vec4 ℝ), 0 / Vec4.length (⟨0, 0, 0, 1⟩ : Vec4 ℝ),
         0 / Vec4.length (⟨0, 0, 0, 1⟩ : Vec4 ℝ), 1⟩ :=
  normalize_zero_divides_by_zero_length exactSqrt_real ⟨0, 0, 0, 1⟩ rfl rfl rfl

theorem point_at_rows_orthonormal_witness :
    ((Vec4.subtract (Vec4.mk3 0 0 1) (Vec4.mk3 (0 : ℝ) 0 0)).Nonzero ∧
      (Vec4.cross_product (Vec4.mk3 0 1 0)
        (Vec4.subtract (Vec4.mk3 0 0 1) (Vec4.mk3 (0 : ℝ) 0 0))).Nonzero) ∧
    Vec4.length (Vec4.normalize (Vec4.subtract (Vec4.mk3 0 0 1) (Vec4.mk3 (0 : ℝ) 0 0))) = 1 :=
  ⟨⟨by simp [Vec4.Nonzero, Vec4.subtract, Vec4.mk3],
    by simp [Vec4.Nonzero, Vec4.cross_product, Vec4.subtract, Vec4.mk3]⟩,
   (point_at_rows_orthonormal exactSqrt_real (Vec4.mk3 0 0 0) (Vec4.mk3 0 0 1) (Vec4.mk3 0 1 0)
      (by simp [Vec4.Nonzero, Vec4.subtract, Vec4.mk3])
      (by simp [Vec4.Nonzero, Vec4.cross_product, Vec4.subtract, Vec4.mk3])).2.1.1⟩

section Projection
variable {F : Type} [LinearOrderedField F] [HasTrig F]

theorem make_projection_entries (fov_degrees aspect_ratio near far : F) :
    Matrix4x4.make_projection fov_degrees aspect_ratio near far =
      Matrix4x4.ofEntries
        (aspect_ratio * (1 / HasTrig.tan (fov_degrees * (1 / 2) / 180 * (314159 / 100000))))
        0 0 0
        0 (1 / HasTrig.tan (fov_degrees * (1 / 2) / 180 * (314159 / 100000))) 0 0
        0 0 (far / (far - near)) 1
        0 0 ((-far * near) / (far - near)) 0 := rfl

/-- C24, amended: for every field of view, aspect ratio and near/far pair with `far = near`,
`make_projection` does not reject the configuration: it returns the matrix it returns for any
other pair, whose entries `[2][2]` and `[3][2]` are quotients by `far - near = 0`. -/
theorem make_projection_far_eq_near (fov_degrees aspect_ratio near far : F)
    (h : far = near) :
    far - near = 0 ∧
    Matrix4x4.make_projection fov_degrees aspect_ratio near far =
      Matrix4x4.ofEntries
        (aspect_ratio * (1 / HasTrig.tan (fov_degrees * (1 / 2) / 180 * (314159 / 100000))))
        0 0 0
        0 (1 / HasTrig.tan (fov_degrees * (1 / 2) / 180 * (314159 / 100000))) 0 0
        0 0 (far / (far - near)) 1
        0 0 ((-far * near) / (far - near)) 0 :=
  ⟨sub_eq_zero.mpr h, rfl⟩

/-- C25, amended: for every `fovDegrees`, `aspectRatio`, `near` and `far`, `make_projection`
returns the matrix whose entries are `[0][0] = aspectRatio * fovScale`, `[1][1] = fovScale`,
`[2][2] = far / (far - near)`, `[2][3] = 1`, `[3][2] = (-far * near) / (far - near)` and `0`
everywhere else, where `fovScale = 1 / tan(fovDegrees * 0.5 * 3.14159 / 180)`, the decimal
`3.14159` standing for π. -/
theorem make_projection_literal_pi (fov_degrees aspect_ratio near far : F) :
    (Matrix4x4.make_projection fov_degrees aspect_ratio near far).m_matrix 0 0
      = aspect_ratio * (1 / HasTrig.tan (fov_degrees * (1 / 2) * (314159 / 100000) / 180)) ∧
    (Matrix4x4.make_projection fov_degrees aspect_ratio near far).m_matrix 1 1
      = 1 / HasTrig.tan (fov_degrees * (1 / 2) * (314159 / 100000) / 180) ∧
    (Matrix4x4.make_projection fov_degrees aspect_ratio near far).m_matrix 2 2
      = far / (far - near) ∧
    (Matrix4x4.make_projection fov_degrees aspect_ratio near far).m_matrix 2 3 = 1 ∧
    (Matrix4x4.make_projection fov_degrees aspect_ratio near far).m_matrix 3 2
      = (-far * near) / (far - near) ∧
    ∀ r c : Fin 4, (r, c) ∉ [((0 : Fin 4), (0 : Fin 4)), (1, 1), (2, 2), (2, 3), (3, 2)] →
      (Matrix4x4.make_projection fov_degrees aspect_ratio near far).m_matrix r c = 0 := by
  have e : fov_degrees * (1 / 2) * (314159 / 100000) / 180
      = fov_degrees * (1 / 2) / 180 * (314159 / 100000) := by ring
  rw [e, make_projection_entries]
  obtain ⟨h00, h01, h02, h03, h10, h11, h12, h13, h20, h21, h22, h23, h30, h31, h32, h33⟩ :=
    Matrix4x4.ofEntries_entries
      (aspect_ratio * (1 / HasTrig.tan (fov_degrees * (1 / 2) / 180 * (314159 / 100000))))
        0 0 0
        0 (1 / HasTrig.tan (fov_degrees * (1 / 2) / 180 * (314159 / 100000))) 0 0
        0 0 (far / (far - near)) 1
        0 0 ((-far * near) / (far - near)) 0
  refine ⟨h00, h11, h22, h23, h32, ?_⟩
  intro r c hrc
  fin_cases r <;> fin_cases c <;>
    first
    | exact h01 | exact h02 | exact h03 | exact h10 | exact h12 | exact h13
    | exact h20 | exact h21 | exact h30 | exact h31 | exact h33
    | exact absurd (by decide) hrc

end Projection

/-- C24, counterexample: for a field of view of 90 degrees, aspect ratio `1` and
`near = far = 1`, `make_projection` returns a matrix; its entries `[2][2]` and `[3][2]` are
the quotients `1 / (1 - 1)` and `(-1 * 1) / (1 - 1)`. -/
theorem projection_accepts_equal_near_far :
    Matrix4x4.make_projection (90 : ℝ) 1 1 1 =
      Matrix4x4.ofEntries
        (1 * (1 / Real.tan (90 * (1 / 2) / 180 * (314159 / 100000)))) 0 0 0
        0 (1 / Real.tan (90 * (1 / 2) / 180 * (314159 / 100000))) 0 0
        0 0 (1 / (1 - 1)) 1
        0 0 ((-1 * 1) / (1 - 1)) 0 := rfl

theorem make_projection_far_eq_near_witness :
    (1 : ℝ) = 1 ∧ (1 : ℝ) - 1 = 0 ∧
    Matrix4x4.make_projection (90 : ℝ) 1 1 1 =
      Matrix4x4.ofEntries
        (1 * (1 / HasTrig.tan ((90 : ℝ) * (1 / 2) / 180 * (314159 / 100000)))) 0 0 0
        0 (1 / HasTrig.tan ((90 : ℝ) * (1 / 2) / 180 * (314159 / 100000))) 0 0
        0 0 (1 / (1 - 1)) 1
        0 0 ((-1 * 1) / (1 - 1)) 0 :=
  ⟨rfl, make_projection_far_eq_near (90 : ℝ) 1 1 1 rfl⟩

theorem tan_literal_lt_one : Real.tan (90 * (1 / 2) / 180 * (314159 / 100000)) < 1 := by
  have hpi : (3.141592 : ℝ) < Real.pi := Real.pi_gt_d6
  rw [← Real.tan_pi_div_four]
  apply Real.tan_lt_tan_of_lt_of_lt_pi_div_two
  · have := Real.pi_pos; norm_num; linarith
  · linarith [Real.pi_pos]
  · norm_num at hpi ⊢; linarith

/-- C25, counterexample: for a field of view of 90 degrees (aspect ratio `1`, near `0.1`, far
`1000`) the entry `[1][1]` of the matrix of `make_projection` is not
`1 / tan(90 * 0.5 * π / 180)` with π the mathematical constant: it is `1 / tan(3.14159 / 4)`,
which is greater than `1 = 1 / tan(π / 4)`. -/
theorem make_projection_fov_scale_not_pi :
    (Matrix4x4.make_projection (90 : ℝ) 1 (1 / 10) 1000).m_matrix 1 1
      ≠ 1 / Real.tan (90 * (1 / 2) * Real.pi / 180) := by
  have e : (90 : ℝ) * (1 / 2) * Real.pi / 180 = Real.pi / 4 := by ring
  rw [e, Real.tan_pi_div_four, make_projection_entries]
  rw [(Matrix4x4.ofEntries_entries _ _ _ _ _ _ _ _ _ _ _ _ _ _ _ _).2.2.2.2.2.1]
  intro h
  have ht : HasTrig.tan ((90 : ℝ) * (1 / 2) / 180 * (314159 / 100000)) < 1 :=
    tan_literal_lt_one
  rw [div_self one_ne_zero] at h
  have hne : HasTrig.tan ((90 : ℝ) * (1 / 2) / 180 * (314159 / 100000)) ≠ 0 := by
    intro h0
    rw [h0] at h
    norm_num at h
  have h3 : 1 / HasTrig.tan ((90 : ℝ) * (1 / 2) / 180 * (314159 / 100000))
      * HasTrig.tan ((90 : ℝ) * (1 / 2) / 180 * (314159 / 100000)) = 1 :=
    div_mul_cancel₀ 1 hne
  rw [h, one_mul] at h3
  rw [h3] at ht
  exact lt_irrefl _ ht

/-! ## The viewport rectangle -/

section InsideViewport
variable {F : Type} [LinearOrderedField F] [HasSqrt F]

/-- The signed distance is affine along a segment. -/
theorem signedDistance_mk3_lerp (plane_p plane_n a u : Vec4 F) (s : F) :
    signedDistance plane_p plane_n
        (Vec4.mk3 (a.x + (u.x - a.x) * s) (a.y + (u.y - a.y) * s) (a.z + (u.z - a.z) * s))
      = signedDistance plane_p plane_n a
        + s * (signedDistance plane_p plane_n u - signedDistance plane_p plane_n a) := by
  simp only [signedDistance, Vec4.dot_product, Vec4.mk3]
  ring

/-- The point where an edge from an inside vertex to an outside vertex meets the plane stays
on the inner side of every half-space that holds both end points. -/
theorem intersect_inside_of_inside (hsqrt : ExactSqrt F) (plane_p : Vec4 F) {plane_n : Vec4 F}
    (hn : plane_n.Nonzero) (q_p q_n : Vec4 F) {a u : Vec4 F}
    (ha : 0 ≤ signedDistance plane_p plane_n a) (hu : signedDistance plane_p plane_n u < 0)
    (hqa : 0 ≤ signedDistance q_p q_n a) (hqu : 0 ≤ signedDistance q_p q_n u) :
    0 ≤ signedDistance q_p q_n (Vec4.intersect_plane plane_p plane_n.normalize a u) := by
  rw [Vec4.intersect_plane_normalize hsqrt plane_p hn, intersect_plane_eq_lerp,
    signedDistance_mk3_lerp]
  obtain ⟨h0, h1⟩ := intersectParam_bounds ha hu
  nlinarith [mul_nonneg h0 hqu, mul_nonneg (sub_nonneg.mpr h1.le) hqa]

/-- The point where an edge from an inside vertex to an outside vertex meets the plane is on
the plane. -/
theorem intersect_on_plane (hsqrt : ExactSqrt F) (plane_p : Vec4 F) {plane_n : Vec4 F}
    (hn : plane_n.Nonzero) {a u : Vec4 F}
    (ha : 0 ≤ signedDistance plane_p plane_n a) (hu : signedDistance plane_p plane_n u < 0) :
    0 ≤ signedDistance plane_p plane_n (Vec4.intersect_plane plane_p plane_n.normalize a u) := by
  rw [Vec4.intersect_plane_normalize hsqrt plane_p hn,
    signedDistance_intersect_plane plane_p plane_n a u (by intro h; rw [h] at hu; exact absurd ha (not_le.mpr hu))]

/-- Every vertex the clipping primitive emits is on the inner side of the clipping plane. -/
theorem specClip_inside (hsqrt : ExactSqrt F) (plane_p : Vec4 F) {plane_n : Vec4 F}
    (hn : plane_n.Nonzero) (t : Triangle F) :
    ∀ t' ∈ specClip plane_p plane_n t, ∀ v ∈ t'.vertices,
      0 ≤ signedDistance plane_p plane_n v := by
  intro t' ht' v hv
  have hmem : ∀ {x}, x ∈ insideVertices plane_p plane_n t →
      0 ≤ signedDistance plane_p plane_n x := fun h => mem_insideVertices h
  have hmemo : ∀ {x}, x ∈ outsideVertices plane_p plane_n t →
      signedDistance plane_p plane_n x < 0 := fun h => mem_outsideVertices h
  unfold specClip at ht'
  split at ht'
  · rename_i x y z hin
    rw [List.mem_singleton.mp ht'] at hv
    have hsub : insideVertices plane_p plane_n t = t.vertices :=
      (List.filter_sublist _).eq_of_length
        (by show (insideVertices plane_p plane_n t).length = _; rw [hin]; rfl)
    exact hmem (hsub ▸ hv)
  · rename_i a u w hin hout
    have ha : 0 ≤ signedDistance plane_p plane_n a := hmem (by simp [hin])
    have hu : signedDistance plane_p plane_n u < 0 := hmemo (by simp [hout])
    have hw : signedDistance plane_p plane_n w < 0 := hmemo (by simp [hout])
    simp only [List.mem_singleton] at ht'
    subst ht'
    simp only [Triangle.vertices, List.mem_cons, List.mem_singleton, List.not_mem_nil,
      or_false] at hv
    rcases hv with rfl | rfl | rfl
    · exact ha
    · exact intersect_on_plane hsqrt plane_p hn ha hu
    · exact intersect_on_plane hsqrt plane_p hn ha hw
  · rename_i a b u hin hout
    have ha : 0 ≤ signedDistance plane_p plane_n a := hmem (by simp [hin])
    have hb : 0 ≤ signedDistance plane_p plane_n b := hmem (by simp [hin])
    have hu : signedDistance plane_p plane_n u < 0 := hmemo (by simp [hout])
    simp only [List.mem_cons, List.mem_singleton, List.not_mem_nil, or_false] at ht'
    rcases ht' with rfl | rfl <;>
      simp only [Triangle.vertices, List.mem_cons, List.mem_singleton, List.not_mem_nil,
        or_false] at hv
    · rcases hv with rfl | rfl | rfl
      · exact ha
      · exact hb
      · exact intersect_on_plane hsqrt plane_p hn ha hu
    · rcases hv with rfl | rfl | rfl
      · exact hb
      · exact intersect_on_plane hsqrt plane_p hn ha hu
      · exact intersect_on_plane hsqrt plane_p hn hb hu
  · simp at ht'

/-- The clipping primitive keeps its output on the inner side of every half-space that holds
the input triangle. -/
theorem specClip_keeps_inside (hsqrt : ExactSqrt F) (plane_p : Vec4 F) {plane_n : Vec4 F}
    (hn : plane_n.Nonzero) (q_p q_n : Vec4 F) (t : Triangle F)
    (ht : ∀ v ∈ t.vertices, 0 ≤ signedDistance q_p q_n v) :
    ∀ t' ∈ specClip plane_p plane_n t, ∀ v ∈ t'.vertices,
      0 ≤ signedDistance q_p q_n v := by
  intro t' ht' v hv
  have hmem : ∀ {x}, x ∈ insideVertices plane_p plane_n t →
      0 ≤ signedDistance plane_p plane_n x ∧ 0 ≤ signedDistance q_p q_n x :=
    fun h => ⟨mem_insideVertices h, ht _ (List.mem_filter.mp h).1⟩
  have hmemo : ∀ {x}, x ∈ outsideVertices plane_p plane_n t →
      signedDistance plane_p plane_n x < 0 ∧ 0 ≤ signedDistance q_p q_n x :=
    fun h => ⟨mem_outsideVertices h, ht _ (List.mem_filter.mp h).1⟩
  unfold specClip at ht'
  split at ht'
  · simp only [List.mem_singleton] at ht'
    subst ht'
    exact ht v hv
  · rename_i a u w hin hout
    have ha := hmem (x := a) (by simp [hin])
    have hu := hmemo (x := u) (by simp [hout])
    have hw := hmemo (x := w) (by simp [hout])
    simp only [List.mem_singleton] at ht'
    subst ht'
    simp only [Triangle.vertices, List.mem_cons, List.mem_singleton, List.not_mem_nil,
      or_false] at hv
    rcases hv with rfl | rfl | rfl
    · exact ha.2
    · exact intersect_inside_of_inside hsqrt plane_p hn q_p q_n ha.1 hu.1 ha.2 hu.2
    · exact intersect_inside_of_inside hsqrt plane_p hn q_p q_n ha.1 hw.1 ha.2 hw.2
  · rename_i a b u hin hout
    have ha := hmem (x := a) (by simp [hin])
    have hb := hmem (x := b) (by simp [hin])
    have hu := hmemo (x := u) (by simp [hout])
    simp only [List.mem_cons, List.mem_singleton, List.not_mem_nil, or_false] at ht'
    rcases ht' with rfl | rfl <;>
      simp only [Triangle.vertices, List.mem_cons, List.mem_singleton, List.not_mem_nil,
        or_false] at hv
    · rcases hv with rfl | rfl | rfl
      · exact ha.2
      · exact hb.2
      · exact intersect_inside_of_inside hsqrt plane_p hn q_p q_n ha.1 hu.1 ha.2 hu.2
    · rcases hv with rfl | rfl | rfl
      · exact hb.2
      · exact intersect_inside_of_inside hsqrt plane_p hn q_p q_n ha.1 hu.1 ha.2 hu.2
      · exact intersect_inside_of_inside hsqrt plane_p hn q_p q_n hb.1 hu.1 hb.2 hu.2
  · simp at ht'

/-- After clipping sequentially against a list of planes every vertex left is on the inner
side of every one of them: a later pass never moves a vertex back outside an earlier plane. -/
theorem specSequentialClip_inside (hsqrt : ExactSqrt F) :
    ∀ (planes done : List (Vec4 F × Vec4 F)) (acc : List (Triangle F)),
      (∀ pl ∈ planes, pl.2.Nonzero) →
      (∀ t ∈ acc, ∀ v ∈ t.vertices, ∀ q ∈ done, 0 ≤ signedDistance q.1 q.2 v) →
      ∀ t ∈ planes.foldl (fun acc plane => acc.flatMap (specClip plane.1 plane.2)) acc,
        ∀ v ∈ t.vertices, ∀ q ∈ done ++ planes, 0 ≤ signedDistance q.1 q.2 v
  | [], done, acc, _, hacc => by simpa using hacc
  | pl :: planes, done, acc, hn, hacc => by
    intro t ht v hv q hq
    have hq' : q ∈ (done ++ [pl]) ++ planes := by simpa using hq
    refine specSequentialClip_inside hsqrt planes (done ++ [pl])
      (acc.flatMap (specClip pl.1 pl.2)) (fun p hp => hn p (List.mem_cons_of_mem _ hp)) ?_
      t ht v hv q hq'
    intro t' ht' v' hv' q' hq'
    obtain ⟨t0, ht0, ht0'⟩ := List.mem_flatMap.mp ht'
    rcases List.mem_append.mp hq' with hd | hd
    · exact specClip_keeps_inside hsqrt pl.1 (hn pl (List.mem_cons_self _ _)) q'.1 q'.2 t0
        (fun x hx => hacc t0 ht0 x hx q' hd) t' ht0' v' hv'
    · rw [List.mem_singleton.mp hd]
      exact specClip_inside hsqrt pl.1 (hn pl (List.mem_cons_self _ _)) t0 t' ht0' v' hv'

theorem signedDistance_axis_y (hsqrt : ExactSqrt F) (p v : Vec4 F) :
    signedDistance p ⟨0, 1, 0, 1⟩ v = v.y - p.y := by
  have h1 : HasSqrt.sqrt (1 : F) = 1 := hsqrt.sqrt_one
  simp [signedDistance, Vec4.normalize, Vec4.length, Vec4.dot_product, Vec4.mk3, h1]

theorem signedDistance_axis_neg_y (hsqrt : ExactSqrt F) (p v : Vec4 F) :
    signedDistance p ⟨0, -1, 0, 1⟩ v = p.y - v.y := by
  have h1 : HasSqrt.sqrt (1 : F) = 1 := hsqrt.sqrt_one
  simp [signedDistance, Vec4.normalize, Vec4.length, Vec4.dot_product, Vec4.mk3, h1]
  ring

theorem signedDistance_axis_x (hsqrt : ExactSqrt F) (p v : Vec4 F) :
    signedDistance p ⟨1, 0, 0, 1⟩ v = v.x - p.x := by
  have h1 : HasSqrt.sqrt (1 : F) = 1 := hsqrt.sqrt_one
  simp [signedDistance, Vec4.normalize, Vec4.length, Vec4.dot_product, Vec4.mk3, h1]

theorem signedDistance_axis_neg_x (hsqrt : ExactSqrt F) (p v : Vec4 F) :
    signedDistance p ⟨-1, 0, 0, 1⟩ v = p.x - v.x := by
  have h1 : HasSqrt.sqrt (1 : F) = 1 := hsqrt.sqrt_one
  simp [signedDistance, Vec4.normalize, Vec4.length, Vec4.dot_product, Vec4.mk3, h1]
  ring

/-- C30: for every width, height and screen-space triangle the four viewport-clipping passes
return, and every vertex of every triangle they leave lies inside the viewport rectangle:
`0 ≤ x ≤ width - 1` and `0 ≤ y ≤ height - 1`. -/
theorem viewport_clip_inside_viewport (hsqrt : ExactSqrt F) (g : Game F) (t : Triangle F) :
    ∃ l, Game.viewport_clip g t = some l ∧
      ∀ tri ∈ l, ∀ v ∈ tri.vertices,
        (0 ≤ v.x ∧ v.x ≤ g.m_width - 1) ∧ (0 ≤ v.y ∧ v.y ≤ g.m_height - 1) := by
  obtain ⟨l, hl, hv⟩ := viewport_clip_vertices g t
  refine ⟨l, hl, ?_⟩
  intro tri htri v hvtri
  have hmem : tri.vertices ∈ (specSequentialClip
      [topPlane, bottomPlane g.m_height, leftPlane, rightPlane g.m_width] t).map
        Triangle.vertices := by
    rw [← hv]; exact List.mem_map_of_mem _ htri
  obtain ⟨t', ht', hvert⟩ := List.mem_map.mp hmem
  have hall := specSequentialClip_inside hsqrt
    [topPlane, bottomPlane g.m_height, leftPlane, rightPlane g.m_width] [] [t]
    (by
      intro pl hpl
      simp only [List.mem_cons, List.mem_singleton, List.not_mem_nil, or_false] at hpl
      rcases hpl with rfl | rfl | rfl | rfl <;>
        simp [Vec4.Nonzero, topPlane, bottomPlane, leftPlane, rightPlane])
    (by intro _ _ _ _ q hq; simp at hq)
    t' ht' v (hvert ▸ hvtri)
  have htop := hall topPlane (by simp)
  have hbottom := hall (bottomPlane g.m_height) (by simp)
  have hleft := hall leftPlane (by simp)
  have hright := hall (rightPlane g.m_width) (by simp)
  simp only [topPlane, signedDistance_axis_y hsqrt] at htop
  simp only [bottomPlane, signedDistance_axis_neg_y hsqrt] at hbottom
  simp only [leftPlane, signedDistance_axis_x hsqrt] at hleft
  simp only [rightPlane, signedDistance_axis_neg_x hsqrt] at hright
  refine ⟨⟨by linarith, by linarith⟩, by linarith, by linarith⟩

end InsideViewport

theorem viewport_clip_inside_viewport_witness :
    ExactSqrt ℝ ∧
    ∃ l, Game.viewport_clip (sample_game sample_camera sample_look none : Game ℝ)
        sample_corner_triangle = some l ∧
      ∀ tri ∈ l, ∀ v ∈ tri.vertices,
        (0 ≤ v.x ∧ v.x ≤ (sample_game sample_camera sample_look none : Game ℝ).m_width - 1) ∧
        (0 ≤ v.y ∧ v.y ≤ (sample_game sample_camera sample_look none : Game ℝ).m_height - 1) :=
  ⟨exactSqrt_real, viewport_clip_inside_viewport exactSqrt_real _ _⟩

/-! ## `Mesh::load_from_obj_file` -/

section FaceLemmas
variable {F : Type}

theorem faceTriangle_eq_none (declared : List (Vec4 F)) (line : List Char)
    (hf : leadingToken line ≠ ['f']) :
    faceTriangle declared line = none := by
  unfold faceTriangle faceIndices
  rw [if_neg hf]

end FaceLemmas

section ObjLemmas
variable {F : Type} [LinearOrderedField F]

theorem readAt_pred_eq_nthFromOne {α : Type} (l : List α) (i : Int) :
    readAt l (i - 1) = nthFromOne l i := by
  unfold readAt nthFromOne
  by_cases h : 1 ≤ i
  · rw [if_pos h, if_pos (by omega)]
  · rw [if_neg h, if_neg (by omega)]

/-- A `v x y z` line appends the vertex it declares. -/
theorem load_line_vertex (line : List Char) (vertices : List (Vec4 F))
    (triangles : List (Triangle F)) (p : Vec4 F) (h : declaredVertex line = some p) :
    Mesh.load_line line vertices triangles = some (vertices ++ [p], triangles) := by
  unfold declaredVertex at h
  split at h
  · rename_i htok
    simp only at h
    split at h
    · exact absurd h (by simp)
    · split at h
      · rename_i x y z hx hy hz
        simp only [Option.some.injEq] at h
        unfold Mesh.load_line
        simp only [leadingToken] at htok
        simp only [htok, if_true, hx, hy, hz, Option.bind_eq_bind, Option.some_bind,
          Option.pure_def, h]
      · exact absurd h (by simp)
  · exact absurd h (by simp)

/-- An `f i1 i2 i3` line with indices in range appends its triangle. -/
theorem load_line_face (line : List Char) (vertices : List (Vec4 F))
    (triangles : List (Triangle F)) (tr : Triangle F) (h : faceTriangle vertices line = some tr) :
    Mesh.load_line line vertices triangles = some (vertices, triangles ++ [tr]) := by
  unfold faceTriangle at h
  split at h
  · rename_i i1 i2 i3 hidx
    split at h
    · rename_i p1 p2 p3 h1 h2 h3
      simp only [Option.some.injEq] at h
      unfold faceIndices at hidx
      split at hidx
      · rename_i htok
        simp only at hidx
        split at hidx
        · exact absurd hidx (by simp)
        · split at hidx
          · rename_i j1 j2 j3 hj1 hj2 hj3
            simp only [Option.some.injEq, Prod.mk.injEq] at hidx
            obtain ⟨rfl, rfl, rfl⟩ := hidx
            unfold Mesh.load_line
            simp only [leadingToken] at htok
            have hne : (['f'] : List Char) ≠ ['v'] := by decide
            simp only [htok, hne, if_false, if_true, hj1, hj2, hj3, Option.bind_eq_bind,
              Option.some_bind, Option.pure_def, readAt_pred_eq_nthFromOne, h1, h2, h3,
              Triangle.ofPoints, Triangle.white, ← h]
          · exact absurd hidx (by simp)
      · exact absurd hidx (by simp)
    · exact absurd h (by simp)
  · exact absurd h (by simp)

/-- A line with another leading token leaves the vertices and the triangles as they are. -/
theorem load_line_other (line : List Char) (vertices : List (Vec4 F))
    (triangles : List (Triangle F)) (hv : leadingToken line ≠ ['v'])
    (hf : leadingToken line ≠ ['f']) :
    Mesh.load_line line vertices triangles = some (vertices, triangles) := by
  unfold Mesh.load_line
  simp only [leadingToken] at hv hf
  simp only [hv, hf, if_false]

theorem declaredVertex_eq_none (line : List Char) (hv : leadingToken line ≠ ['v']) :
    (declaredVertex line : Option (Vec4 F)) = none := by
  unfold declaredVertex
  rw [if_neg hv]

theorem declaredVertices_snoc (lines : List (List Char)) (line : List Char) :
    (declaredVertices (lines ++ [line]) : List (Vec4 F))
      = declaredVertices lines ++ (declaredVertex line).toList := by
  unfold declaredVertices
  rw [List.filterMap_append]
  cases h : (declaredVertex line : Option (Vec4 F)) <;> simp [List.filterMap, h]

theorem specTriangles_snoc (lines : List (List Char)) (line : List Char) :
    (specTriangles (lines ++ [line]) : List (Triangle F))
      = specTriangles lines ++ (faceTriangle (declaredVertices lines) line).toList := by
  unfold specTriangles
  rw [List.length_append, List.length_singleton, List.range_succ, List.filterMap_append]
  congr 1
  · apply List.filterMap_congr
    intro k hk
    have hk' : k < lines.length := List.mem_range.mp hk
    rw [List.take_append_of_le_length hk'.le]
    congr 1
    simp [List.getD, List.getElem?_append_left hk']
  · have h1 : (lines ++ [line]).take lines.length = lines := by simp
    have h2 : (lines ++ [line]).getD lines.length [] = line := by simp [List.getD]
    simp only [List.filterMap_cons, List.filterMap_nil, h1, h2]
    cases faceTriangle (declaredVertices lines : List (Vec4 F)) line <;> rfl

/-- The loop of the loader over the lines left, started from the vertices and the triangles of
the lines read: it ends with the vertices and the triangles of all the lines. -/
theorem load_loop (rest : List (List Char)) :
    ∀ (read : List (List Char)), WellFormedObj F (read ++ rest) →
      rest.foldlM
          (fun (state : List (Vec4 F) × List (Triangle F)) line =>
            Mesh.load_line line state.1 state.2)
          (declaredVertices read, specTriangles read)
        = some (declaredVertices (read ++ rest), specTriangles (read ++ rest)) := by
  induction rest with
  | nil => intro read _; simp
  | cons line rest ih =>
    intro read hwf
    have hk := hwf read.length (by simp)
    have h1 : (read ++ line :: rest).take read.length = read := by simp
    have h2 : (read ++ line :: rest).getD read.length [] = line := by
      rw [List.getD_eq_getElem?_getD, List.getElem?_append_right (le_refl _)]
      simp
    rw [h1, h2] at hk
    have hstep : Mesh.load_line line (declaredVertices read : List (Vec4 F))
        (specTriangles read) = some (declaredVertices (read ++ [line]),
          specTriangles (read ++ [line])) := by
      rw [declaredVertices_snoc, specTriangles_snoc]
      by_cases hv : leadingToken line = ['v']
      · have hf : leadingToken line ≠ ['f'] := by rw [hv]; decide
        obtain ⟨p, hp⟩ := Option.isSome_iff_exists.mp (hk.1 hv)
        rw [load_line_vertex line _ _ p hp, hp, faceTriangle_eq_none _ _ hf]
        simp
      · by_cases hf : leadingToken line = ['f']
        · obtain ⟨tr, htr⟩ := Option.isSome_iff_exists.mp (hk.2 hf)
          rw [load_line_face line _ _ tr htr, htr, declaredVertex_eq_none _ hv]
          simp
        · rw [load_line_other line _ _ hv hf, declaredVertex_eq_none _ hv,
            faceTriangle_eq_none _ _ hf]
          simp
    rw [List.foldlM_cons, hstep]
    have e : read ++ line :: rest = (read ++ [line]) ++ rest := by simp
    rw [e] at hwf ⊢
    exact ih (read ++ [line]) hwf

theorem load_from_obj_file_eq (contents : String)
    (hwf : WellFormedObj F (getlines contents.toList [])) :
    (Mesh.load_from_obj_file (some contents) : Option (Except Error (Mesh F)))
      = some (Except.ok ⟨specTriangles (getlines contents.toList [])⟩) := by
  have h := load_loop (F := F) (getlines contents.toList []) [] (by simpa using hwf)
  have e1 : (declaredVertices ([] : List (List Char)) : List (Vec4 F)) = [] := rfl
  have e2 : (specTriangles ([] : List (List Char)) : List (Triangle F)) = [] := rfl
  rw [e1, e2, List.nil_append] at h
  unfold Mesh.load_from_obj_file
  simp only [h, Option.bind_eq_bind, Option.some_bind, Option.pure_def]

theorem specTriangles_color (lines : List (List Char)) :
    ∀ t ∈ (specTriangles lines : List (Triangle F)), t.m_color = ⟨255, 255, 255, 255⟩ := by
  intro t ht
  unfold specTriangles at ht
  obtain ⟨k, _, hk⟩ := List.mem_filterMap.mp ht
  unfold faceTriangle at hk
  split at hk
  · split at hk
    · simp only [Option.some.injEq] at hk
      rw [← hk]
    · exact absurd hk (by simp)
  · exact absurd hk (by simp)

theorem declaredVertices_w (lines : List (List Char)) :
    ∀ v ∈ (declaredVertices lines : List (Vec4 F)), v.w = 1 := by
  intro v hv
  unfold declaredVertices at hv
  obtain ⟨line, _, hline⟩ := List.mem_filterMap.mp hv
  unfold declaredVertex at hline
  split at hline
  · simp only at hline
    split at hline
    · exact absurd hline (by simp)
    · split at hline
      · simp only [Option.some.injEq] at hline
        rw [← hline]
      · exact absurd hline (by simp)
  · exact absurd hline (by simp)

theorem mem_of_nthFromOne {α : Type} {l : List α} {i : Int} {a : α}
    (h : nthFromOne l i = some a) : a ∈ l := by
  unfold nthFromOne at h
  split at h
  · exact List.getElem?_mem h
  · exact absurd h (by simp)

theorem specTriangles_w (lines : List (List Char)) :
    ∀ t ∈ (specTriangles lines : List (Triangle F)), ∀ v ∈ t.vertices, v.w = 1 := by
  intro t ht v hv
  unfold specTriangles at ht
  obtain ⟨k, _, hk⟩ := List.mem_filterMap.mp ht
  unfold faceTriangle at hk
  split at hk
  · split at hk
    · rename_i p1 p2 p3 h1 h2 h3
      simp only [Option.some.injEq] at hk
      rw [← hk] at hv
      simp only [Triangle.vertices, List.mem_cons, List.mem_singleton, List.not_mem_nil,
        or_false] at hv
      rcases hv with rfl | rfl | rfl
      · exact declaredVertices_w _ _ (mem_of_nthFromOne h1)
      · exact declaredVertices_w _ _ (mem_of_nthFromOne h2)
      · exact declaredVertices_w _ _ (mem_of_nthFromOne h3)
    · exact absurd hk (by simp)
  · exact absurd hk (by simp)

/-- A line with the leading token `v` that leaves `x`, `y` and `z` set appends the vertex of
these values. -/
theorem load_line_stored_vertex (line : List Char) (vertices : List (Vec4 F))
    (triangles : List (Triangle F)) (p : Vec4 F) (h : storedVertex line = some p) :
    Mesh.load_line line vertices triangles = some (vertices ++ [p], triangles) := by
  unfold storedVertex at h
  split at h
  · rename_i htok
    simp only at h
    split at h
    · rename_i x y z hx hy hz
      simp only [Option.some.injEq] at h
      unfold Mesh.load_line
      simp only [leadingToken] at htok
      simp only [htok, if_true, hx, hy, hz, Option.bind_eq_bind, Option.some_bind,
        Option.pure_def, h]
    · exact absurd h (by simp)
  · exact absurd h (by simp)

theorem storedVertex_eq_none (line : List Char) (hv : leadingToken line ≠ ['v']) :
    (storedVertex line : Option (Vec4 F)) = none := by
  unfold storedVertex
  rw [if_neg hv]

/-- A `v x y z` line makes the loader push the vertex it declares. -/
theorem storedVertex_of_declared (line : List Char) (p : Vec4 F)
    (h : declaredVertex line = some p) : storedVertex line = some p := by
  unfold declaredVertex at h
  unfold storedVertex
  split at h
  · rename_i htok
    rw [if_pos htok]
    simp only at h ⊢
    split at h
    · exact absurd h (by simp)
    · exact h
  · exact absurd h (by simp)

theorem storedVertices_snoc (lines : List (List Char)) (line : List Char) :
    (storedVertices (lines ++ [line]) : List (Vec4 F))
      = storedVertices lines ++ (storedVertex line).toList := by
  unfold storedVertices
  rw [List.filterMap_append]
  cases h : (storedVertex line : Option (Vec4 F)) <;> simp [List.filterMap, h]

theorem loadedTriangles_snoc (lines : List (List Char)) (line : List Char) :
    (loadedTriangles (lines ++ [line]) : List (Triangle F))
      = loadedTriangles lines ++ (faceTriangle (storedVertices lines) line).toList := by
  unfold loadedTriangles
  rw [List.length_append, List.length_singleton, List.range_succ, List.filterMap_append]
  congr 1
  · apply List.filterMap_congr
    intro k hk
    have hk' : k < lines.length := List.mem_range.mp hk
    rw [List.take_append_of_le_length hk'.le]
    congr 1
    simp [List.getD, List.getElem?_append_left hk']
  · have h1 : (lines ++ [line]).take lines.length = lines := by simp
    have h2 : (lines ++ [line]).getD lines.length [] = line := by simp [List.getD]
    simp only [List.filterMap_cons, List.filterMap_nil, h1, h2]
    cases faceTriangle (storedVertices lines : List (Vec4 F)) line <;> rfl

/-- The loop of the loader over the lines left of a readable source, started from the
vertices and the triangles of the lines read: it ends with those of all the lines. -/
theorem stored_loop (rest : List (List Char)) :
    ∀ (read : List (List Char)), ReadableObj F (read ++ rest) →
      rest.foldlM
          (fun (state : List (Vec4 F) × List (Triangle F)) line =>
            Mesh.load_line line state.1 state.2)
          (storedVertices read, loadedTriangles read)
        = some (storedVertices (read ++ rest), loadedTriangles (read ++ rest)) := by
  induction rest with
  | nil => intro read _; simp
  | cons line rest ih =>
    intro read hwf
    have hk := hwf read.length (by simp)
    have h1 : (read ++ line :: rest).take read.length = read := by simp
    have h2 : (read ++ line :: rest).getD read.length [] = line := by
      rw [List.getD_eq_getElem?_getD, List.getElem?_append_right (le_refl _)]
      simp
    rw [h1, h2] at hk
    have hstep : Mesh.load_line line (storedVertices read : List (Vec4 F))
        (loadedTriangles read) = some (storedVertices (read ++ [line]),
          loadedTriangles (read ++ [line])) := by
      rw [storedVertices_snoc, loadedTriangles_snoc]
      by_cases hv : leadingToken line = ['v']
      · have hf : leadingToken line ≠ ['f'] := by rw [hv]; decide
        obtain ⟨p, hp⟩ := Option.isSome_iff_exists.mp (hk.1 hv)
        rw [load_line_stored_vertex line _ _ p hp, hp, faceTriangle_eq_none _ _ hf]
        simp
      · by_cases hf : leadingToken line = ['f']
        · obtain ⟨tr, htr⟩ := Option.isSome_iff_exists.mp (hk.2 hf)
          rw [load_line_face line _ _ tr htr, htr, storedVertex_eq_none _ hv]
          simp
        · rw [load_line_other line _ _ hv hf, storedVertex_eq_none _ hv,
            faceTriangle_eq_none _ _ hf]
          simp
    rw [List.foldlM_cons, hstep]
    have e : read ++ line :: rest = (read ++ [line]) ++ rest := by simp
    rw [e] at hwf ⊢
    exact ih (read ++ [line]) hwf

theorem load_from_obj_file_readable (contents : String)
    (hr : ReadableObj F (getlines contents.toList [])) :
    (Mesh.load_from_obj_file (some contents) : Option (Except Error (Mesh F)))
      = some (Except.ok ⟨loadedTriangles (getlines contents.toList [])⟩) := by
  have h := stored_loop (F := F) (getlines contents.toList []) [] (by simpa using hr)
  have e1 : (storedVertices ([] : List (List Char)) : List (Vec4 F)) = [] := rfl
  have e2 : (loadedTriangles ([] : List (List Char)) : List (Triangle F)) = [] := rfl
  rw [e1, e2, List.nil_append] at h
  unfold Mesh.load_from_obj_file
  simp only [h, Option.bind_eq_bind, Option.some_bind, Option.pure_def]

/-- C21, amended: for every well-formed text mesh source the loader returns a mesh with one triangle
per `f i1 i2 i3` line, in line order, whose three vertices are the `i1`-th, `i2`-th and
`i3`-th vertices (counting from 1) declared by the `v x y z` lines before it, each with
`w = 1`, colored white and fully opaque; a line with any other leading token leaves the
vertices and the triangles as they are. -/
theorem obj_loader_triangles (contents : String)
    (hwf : WellFormedObj F (getlines contents.toList [])) :
    (Mesh.load_from_obj_file (some contents) : Option (Except Error (Mesh F)))
      = some (Except.ok ⟨specTriangles (getlines contents.toList [])⟩) ∧
    (∀ t ∈ (specTriangles (getlines contents.toList []) : List (Triangle F)),
      t.m_color = ⟨255, 255, 255, 255⟩ ∧ ∀ v ∈ t.vertices, v.w = 1) ∧
    (∀ (line : List Char) (vertices : List (Vec4 F)) (triangles : List (Triangle F)),
      leadingToken line ≠ ['v'] → leadingToken line ≠ ['f'] →
        Mesh.load_line line vertices triangles = some (vertices, triangles)) :=
  ⟨load_from_obj_file_eq contents hwf,
    fun t ht => ⟨specTriangles_color _ t ht, specTriangles_w _ t ht⟩,
    load_line_other⟩

/-- C22, amended: for every text mesh source the loader reads without reading an unset
variable or outside the vector of vertices (every `v` line has two numeric fields and a third
field, numeric or not; every `f` line is an `f i1 i2 i3` line with indices in range), the
loader returns a mesh, not a load error: the mesh of the `f` lines over the vertices pushed,
a malformed third field of a `v` line being read as the value the failed extraction stores.
The loader returns the load error `file` when the file cannot be opened. -/
theorem malformed_last_field_is_read (contents : String)
    (hr : ReadableObj F (getlines contents.toList [])) :
    (Mesh.load_from_obj_file (some contents) : Option (Except Error (Mesh F)))
      = some (Except.ok ⟨loadedTriangles (getlines contents.toList [])⟩) ∧
    (Mesh.load_from_obj_file none : Option (Except Error (Mesh F)))
        = some (Except.error ⟨"file", some "Could not open file"⟩) :=
  ⟨load_from_obj_file_readable contents hr, rfl⟩

end ObjLemmas

/-- A value between the bounds of `float` is stored as it is. -/
theorem store_float_of_lt {F : Type} [LinearOrderedField F] (rest : List Char) (value : F)
    (h1 : value < FLT_OVERFLOW) (h2 : -FLT_OVERFLOW < value) :
    store_float rest value = (⟨rest, false⟩, some value) := by
  unfold store_float
  rw [if_neg (not_le.mpr h1), if_neg (not_le.mpr h2)]

theorem store_float_zero (rest : List Char) :
    store_float rest (0 : ℚ) = (⟨rest, false⟩, some 0) :=
  store_float_of_lt rest 0 (by norm_num [FLT_OVERFLOW]) (by norm_num [FLT_OVERFLOW])

theorem store_float_one (rest : List Char) :
    store_float rest (1 : ℚ) = (⟨rest, false⟩, some 1) :=
  store_float_of_lt rest 1 (by norm_num [FLT_OVERFLOW]) (by norm_num [FLT_OVERFLOW])

theorem store_float_five (rest : List Char) :
    store_float rest (5 : ℚ) = (⟨rest, false⟩, some 5) :=
  store_float_of_lt rest 5 (by norm_num [FLT_OVERFLOW]) (by norm_num [FLT_OVERFLOW])

/-- The literal `1e40` is out of the range of `float`: the extraction stores `FLT_MAX` and
fails the stream. -/
theorem extract_float_out_of_range :
    extract_float ⟨"1e40".toList, false⟩ (none : Option ℚ) = (⟨[], true⟩, some FLT_MAX) := by
  have h : store_float [] (decimal_value false 1 0 false 40 : ℚ) = (⟨[], true⟩, some FLT_MAX) := by
    unfold store_float
    rw [if_pos (by norm_num [decimal_value, FLT_OVERFLOW])]
  simp [extract_float, read_sign, read_digits, isspace, isdigit, h]

theorem sample_obj_lines :
    getlines sample_obj.toList []
      = ["v 0 0 0".toList, "v 1 0 0".toList, "v 0 1 0".toList, "f 1 2 3".toList] := by
  decide

theorem sample_malformed_obj_lines :
    getlines sample_malformed_obj.toList []
      = ["v 0 0 0".toList, "v 1 0 0".toList, "v 0 1 x".toList, "f 1 2 3".toList] := by
  decide

theorem sample_vertex_0 : (declaredVertex "v 0 0 0".toList : Option (Vec4 ℚ)) = some ⟨0, 0, 0, 1⟩ := by
  simp [declaredVertex, leadingToken, extract_string, extract_float, read_sign, read_digits,
    isspace, isdigit, decimal_value, store_float_zero, store_float_one]

theorem sample_vertex_1 : (declaredVertex "v 1 0 0".toList : Option (Vec4 ℚ)) = some ⟨1, 0, 0, 1⟩ := by
  simp [declaredVertex, leadingToken, extract_string, extract_float, read_sign, read_digits,
    isspace, isdigit, decimal_value, store_float_zero, store_float_one]

theorem sample_vertex_2 : (declaredVertex "v 0 1 0".toList : Option (Vec4 ℚ)) = some ⟨0, 1, 0, 1⟩ := by
  simp [declaredVertex, leadingToken, extract_string, extract_float, read_sign, read_digits,
    isspace, isdigit, decimal_value, store_float_zero, store_float_one]

theorem sample_face_indices : faceIndices "f 1 2 3".toList = some (1, 2, 3) := by
  decide

theorem sample_tokens :
    leadingToken "v 0 0 0".toList = ['v'] ∧ leadingToken "v 1 0 0".toList = ['v'] ∧
    leadingToken "v 0 1 0".toList = ['v'] ∧ leadingToken "f 1 2 3".toList = ['f'] ∧
    leadingToken "v 0 1 x".toList = ['v'] := by
  decide


theorem sample_vertex_malformed :
    (declaredVertex "v 0 1 x".toList : Option (Vec4 ℚ)) = none := by
  simp [declaredVertex, leadingToken, extract_string, extract_float, read_sign, read_digits,
    isspace, isdigit, decimal_value, store_float_zero, store_float_one]

theorem sample_declared :
    (declaredVertices ["v 0 0 0".toList, "v 1 0 0".toList, "v 0 1 0".toList] : List (Vec4 ℚ))
      = [⟨0, 0, 0, 1⟩, ⟨1, 0, 0, 1⟩, ⟨0, 1, 0, 1⟩] := by
  simp only [declaredVertices, List.filterMap_cons, List.filterMap_nil, sample_vertex_0,
    sample_vertex_1, sample_vertex_2]

theorem sample_face :
    faceTriangle ([⟨0, 0, 0, 1⟩, ⟨1, 0, 0, 1⟩, ⟨0, 1, 0, 1⟩] : List (Vec4 ℚ)) "f 1 2 3".toList
      = some ⟨⟨0, 0, 0, 1⟩, ⟨1, 0, 0, 1⟩, ⟨0, 1, 0, 1⟩, ⟨255, 255, 255, 255⟩⟩ := by
  unfold faceTriangle
  rw [sample_face_indices]
  simp [nthFromOne]

theorem sample_obj_well_formed : WellFormedObj ℚ (getlines sample_obj.toList []) := by
  rw [sample_obj_lines]
  obtain ⟨t0, t1, t2, t3, _⟩ := sample_tokens
  intro k hk
  simp only [List.length_cons, List.length_nil] at hk
  interval_cases k
  · change (leadingToken "v 0 0 0".toList = ['v'] →
        (declaredVertex "v 0 0 0".toList : Option (Vec4 ℚ)).isSome = true) ∧
      (leadingToken "v 0 0 0".toList = ['f'] → _)
    refine ⟨fun _ => ?_, fun h => absurd (t0.symm.trans h) (by decide)⟩
    rw [sample_vertex_0]
    rfl
  · change (leadingToken "v 1 0 0".toList = ['v'] →
        (declaredVertex "v 1 0 0".toList : Option (Vec4 ℚ)).isSome = true) ∧
      (leadingToken "v 1 0 0".toList = ['f'] → _)
    refine ⟨fun _ => ?_, fun h => absurd (t1.symm.trans h) (by decide)⟩
    rw [sample_vertex_1]
    rfl
  · change (leadingToken "v 0 1 0".toList = ['v'] →
        (declaredVertex "v 0 1 0".toList : Option (Vec4 ℚ)).isSome = true) ∧
      (leadingToken "v 0 1 0".toList = ['f'] → _)
    refine ⟨fun _ => ?_, fun h => absurd (t2.symm.trans h) (by decide)⟩
    rw [sample_vertex_2]
    rfl
  · refine ⟨fun h => absurd (t3.symm.trans h) (by decide), fun _ => ?_⟩
    have e : List.take 3 ["v 0 0 0".toList, "v 1 0 0".toList, "v 0 1 0".toList,
        "f 1 2 3".toList] = ["v 0 0 0".toList, "v 1 0 0".toList, "v 0 1 0".toList] := rfl
    have e2 : List.getD ["v 0 0 0".toList, "v 1 0 0".toList, "v 0 1 0".toList,
        "f 1 2 3".toList] 3 [] = "f 1 2 3".toList := rfl
    rw [e, e2, sample_declared, sample_face]
    rfl

theorem sample_obj_triangles :
    (specTriangles (getlines sample_obj.toList []) : List (Triangle ℚ))
      = [⟨⟨0, 0, 0, 1⟩, ⟨1, 0, 0, 1⟩, ⟨0, 1, 0, 1⟩, ⟨255, 255, 255, 255⟩⟩] := by
  obtain ⟨t0, t1, t2, t3, _⟩ := sample_tokens
  have e : ["v 0 0 0".toList, "v 1 0 0".toList, "v 0 1 0".toList, "f 1 2 3".toList]
      = ((([] ++ ["v 0 0 0".toList]) ++ ["v 1 0 0".toList]) ++ ["v 0 1 0".toList])
        ++ ["f 1 2 3".toList] := rfl
  rw [sample_obj_lines, e, specTriangles_snoc, specTriangles_snoc, specTriangles_snoc,
    specTriangles_snoc]
  rw [faceTriangle_eq_none _ _ (by rw [t0]; decide), faceTriangle_eq_none _ _ (by rw [t1]; decide),
    faceTriangle_eq_none _ _ (by rw [t2]; decide)]
  have e3 : (([] ++ ["v 0 0 0".toList]) ++ ["v 1 0 0".toList]) ++ ["v 0 1 0".toList]
      = ["v 0 0 0".toList, "v 1 0 0".toList, "v 0 1 0".toList] := rfl
  rw [e3, sample_declared, sample_face]
  rfl

theorem obj_loader_triangles_witness :
    WellFormedObj ℚ (getlines sample_obj.toList []) ∧
    (Mesh.load_from_obj_file (some sample_obj) : Option (Except Error (Mesh ℚ)))
      = some (Except.ok
          ⟨[⟨⟨0, 0, 0, 1⟩, ⟨1, 0, 0, 1⟩, ⟨0, 1, 0, 1⟩, ⟨255, 255, 255, 255⟩⟩]⟩) :=
  ⟨sample_obj_well_formed, by
    rw [(obj_loader_triangles sample_obj sample_obj_well_formed).1, sample_obj_triangles]⟩

theorem load_line_malformed (vertices : List (Vec4 ℚ)) (triangles : List (Triangle ℚ)) :
    Mesh.load_line "v 0 1 x".toList vertices triangles
      = some (vertices ++ [⟨0, 1, 0, 1⟩], triangles) := by
  simp [Mesh.load_line, extract_string, extract_float, read_sign, read_digits,
    isspace, isdigit, decimal_value, store_float_zero, store_float_one]

/-- C22, counterexample: the source `v 0 0 0 / v 1 0 0 / v 0 1 x / f 1 2 3` has a malformed
numeric field in its third line, which is no `v x y z` line; the loader returns a mesh, not a
load error: the field is read as `0` and the one triangle has the vertices `(0,0,0)`,
`(1,0,0)`, `(0,1,0)`. -/
theorem malformed_field_loads_a_mesh :
    (declaredVertex "v 0 1 x".toList : Option (Vec4 ℚ)) = none ∧
    (Mesh.load_from_obj_file (some sample_malformed_obj) : Option (Except Error (Mesh ℚ)))
      = some (Except.ok
          ⟨[⟨⟨0, 0, 0, 1⟩, ⟨1, 0, 0, 1⟩, ⟨0, 1, 0, 1⟩, ⟨255, 255, 255, 255⟩⟩]⟩) := by
  refine ⟨sample_vertex_malformed, ?_⟩
  unfold Mesh.load_from_obj_file
  simp only [sample_malformed_obj_lines, List.foldlM_cons, List.foldlM_nil]
  rw [load_line_vertex _ _ _ _ sample_vertex_0]
  simp only [Option.bind_eq_bind, Option.some_bind, List.nil_append]
  rw [load_line_vertex _ _ _ _ sample_vertex_1]
  simp only [Option.some_bind, List.cons_append, List.nil_append, load_line_malformed]
  rw [load_line_face _ _ _ _ sample_face]
  rfl


theorem sample_stored_malformed :
    (storedVertex "v 0 1 x".toList : Option (Vec4 ℚ)) = some ⟨0, 1, 0, 1⟩ := by
  simp [storedVertex, leadingToken, extract_string, extract_float, read_sign, read_digits,
    isspace, isdigit, decimal_value, store_float_zero, store_float_one]

theorem sample_stored :
    (storedVertices ["v 0 0 0".toList, "v 1 0 0".toList, "v 0 1 x".toList] : List (Vec4 ℚ))
      = [⟨0, 0, 0, 1⟩, ⟨1, 0, 0, 1⟩, ⟨0, 1, 0, 1⟩] := by
  simp only [storedVertices, List.filterMap_cons, List.filterMap_nil,
    storedVertex_of_declared _ _ sample_vertex_0, storedVertex_of_declared _ _ sample_vertex_1,
    sample_stored_malformed]

theorem sample_malformed_obj_readable :
    ReadableObj ℚ (getlines sample_malformed_obj.toList []) := by
  rw [sample_malformed_obj_lines]
  obtain ⟨t0, t1, -, t3, t4⟩ := sample_tokens
  intro k hk
  simp only [List.length_cons, List.length_nil] at hk
  interval_cases k
  · change (leadingToken "v 0 0 0".toList = ['v'] →
        (storedVertex "v 0 0 0".toList : Option (Vec4 ℚ)).isSome = true) ∧
      (leadingToken "v 0 0 0".toList = ['f'] → _)
    refine ⟨fun _ => ?_, fun h => absurd (t0.symm.trans h) (by decide)⟩
    rw [storedVertex_of_declared _ _ sample_vertex_0]
    rfl
  · change (leadingToken "v 1 0 0".toList = ['v'] →
        (storedVertex "v 1 0 0".toList : Option (Vec4 ℚ)).isSome = true) ∧
      (leadingToken "v 1 0 0".toList = ['f'] → _)
    refine ⟨fun _ => ?_, fun h => absurd (t1.symm.trans h) (by decide)⟩
    rw [storedVertex_of_declared _ _ sample_vertex_1]
    rfl
  · change (leadingToken "v 0 1 x".toList = ['v'] →
        (storedVertex "v 0 1 x".toList : Option (Vec4 ℚ)).isSome = true) ∧
      (leadingToken "v 0 1 x".toList = ['f'] → _)
    refine ⟨fun _ => ?_, fun h => absurd (t4.symm.trans h) (by decide)⟩
    rw [sample_stored_malformed]
    rfl
  · refine ⟨fun h => absurd (t3.symm.trans h) (by decide), fun _ => ?_⟩
    have e : List.take 3 ["v 0 0 0".toList, "v 1 0 0".toList, "v 0 1 x".toList,
        "f 1 2 3".toList] = ["v 0 0 0".toList, "v 1 0 0".toList, "v 0 1 x".toList] := rfl
    have e2 : List.getD ["v 0 0 0".toList, "v 1 0 0".toList, "v 0 1 x".toList,
        "f 1 2 3".toList] 3 [] = "f 1 2 3".toList := rfl
    rw [e, e2, sample_stored, sample_face]
    rfl

theorem sample_malformed_obj_triangles :
    (loadedTriangles (getlines sample_malformed_obj.toList []) : List (Triangle ℚ))
      = [⟨⟨0, 0, 0, 1⟩, ⟨1, 0, 0, 1⟩, ⟨0, 1, 0, 1⟩, ⟨255, 255, 255, 255⟩⟩] := by
  obtain ⟨t0, t1, -, -, t4⟩ := sample_tokens
  have e : ["v 0 0 0".toList, "v 1 0 0".toList, "v 0 1 x".toList, "f 1 2 3".toList]
      = ((([] ++ ["v 0 0 0".toList]) ++ ["v 1 0 0".toList]) ++ ["v 0 1 x".toList])
        ++ ["f 1 2 3".toList] := rfl
  rw [sample_malformed_obj_lines, e, loadedTriangles_snoc, loadedTriangles_snoc,
    loadedTriangles_snoc, loadedTriangles_snoc]
  rw [faceTriangle_eq_none _ _ (by rw [t0]; decide), faceTriangle_eq_none _ _ (by rw [t1]; decide),
    faceTriangle_eq_none _ _ (by rw [t4]; decide)]
  have e3 : (([] ++ ["v 0 0 0".toList]) ++ ["v 1 0 0".toList]) ++ ["v 0 1 x".toList]
      = ["v 0 0 0".toList, "v 1 0 0".toList, "v 0 1 x".toList] := rfl
  rw [e3, sample_stored, sample_face]
  rfl

theorem malformed_last_field_is_read_witness :
    ReadableObj ℚ (getlines sample_malformed_obj.toList []) ∧
    (declaredVertex "v 0 1 x".toList : Option (Vec4 ℚ)) = none ∧
    (Mesh.load_from_obj_file (some sample_malformed_obj) : Option (Except Error (Mesh ℚ)))
      = some (Except.ok
          ⟨[⟨⟨0, 0, 0, 1⟩, ⟨1, 0, 0, 1⟩, ⟨0, 1, 0, 1⟩, ⟨255, 255, 255, 255⟩⟩]⟩) :=
  ⟨sample_malformed_obj_readable, sample_vertex_malformed, by
    rw [(malformed_last_field_is_read sample_malformed_obj sample_malformed_obj_readable).1,
      sample_malformed_obj_triangles]⟩

theorem sample_shifted_obj_lines :
    getlines sample_shifted_obj.toList []
      = ["v 0 0 0".toList, "v 1 0 0".toList, "v 0 1 x".toList, "v 5 5 5".toList,
          "f 1 2 3".toList] := by
  decide

theorem sample_vertex_5 : (declaredVertex "v 5 5 5".toList : Option (Vec4 ℚ)) = some ⟨5, 5, 5, 1⟩ := by
  simp [declaredVertex, leadingToken, extract_string, extract_float, read_sign, read_digits,
    isspace, isdigit, decimal_value, store_float_five]

theorem sample_token_5 : leadingToken "v 5 5 5".toList = ['v'] := by
  decide

theorem sample_shifted_declared :
    (declaredVertices ["v 0 0 0".toList, "v 1 0 0".toList, "v 0 1 x".toList, "v 5 5 5".toList] :
        List (Vec4 ℚ))
      = [⟨0, 0, 0, 1⟩, ⟨1, 0, 0, 1⟩, ⟨5, 5, 5, 1⟩] := by
  simp only [declaredVertices, List.filterMap_cons, List.filterMap_nil, sample_vertex_0,
    sample_vertex_1, sample_vertex_malformed, sample_vertex_5]

theorem sample_face_declared :
    faceTriangle ([⟨0, 0, 0, 1⟩, ⟨1, 0, 0, 1⟩, ⟨5, 5, 5, 1⟩] : List (Vec4 ℚ)) "f 1 2 3".toList
      = some ⟨⟨0, 0, 0, 1⟩, ⟨1, 0, 0, 1⟩, ⟨5, 5, 5, 1⟩, ⟨255, 255, 255, 255⟩⟩ := by
  unfold faceTriangle
  rw [sample_face_indices]
  simp [nthFromOne]

theorem sample_face_pushed :
    faceTriangle ([⟨0, 0, 0, 1⟩, ⟨1, 0, 0, 1⟩, ⟨0, 1, 0, 1⟩, ⟨5, 5, 5, 1⟩] : List (Vec4 ℚ))
        "f 1 2 3".toList
      = some ⟨⟨0, 0, 0, 1⟩, ⟨1, 0, 0, 1⟩, ⟨0, 1, 0, 1⟩, ⟨255, 255, 255, 255⟩⟩ := by
  unfold faceTriangle
  rw [sample_face_indices]
  simp [nthFromOne]

theorem sample_shifted_obj_triangles :
    (specTriangles (getlines sample_shifted_obj.toList []) : List (Triangle ℚ))
      = [⟨⟨0, 0, 0, 1⟩, ⟨1, 0, 0, 1⟩, ⟨5, 5, 5, 1⟩, ⟨255, 255, 255, 255⟩⟩] := by
  obtain ⟨t0, t1, -, -, t4⟩ := sample_tokens
  have e : ["v 0 0 0".toList, "v 1 0 0".toList, "v 0 1 x".toList, "v 5 5 5".toList,
        "f 1 2 3".toList]
      = (((([] ++ ["v 0 0 0".toList]) ++ ["v 1 0 0".toList]) ++ ["v 0 1 x".toList])
        ++ ["v 5 5 5".toList]) ++ ["f 1 2 3".toList] := rfl
  rw [sample_shifted_obj_lines, e, specTriangles_snoc, specTriangles_snoc, specTriangles_snoc,
    specTriangles_snoc, specTriangles_snoc]
  rw [faceTriangle_eq_none _ _ (by rw [t0]; decide), faceTriangle_eq_none _ _ (by rw [t1]; decide),
    faceTriangle_eq_none _ _ (by rw [t4]; decide),
    faceTriangle_eq_none _ _ (by rw [sample_token_5]; decide)]
  have e3 : ((([] ++ ["v 0 0 0".toList]) ++ ["v 1 0 0".toList]) ++ ["v 0 1 x".toList])
        ++ ["v 5 5 5".toList]
      = ["v 0 0 0".toList, "v 1 0 0".toList, "v 0 1 x".toList, "v 5 5 5".toList] := rfl
  rw [e3, sample_shifted_declared, sample_face_declared]
  rfl

/-- C21, counterexample: in the source `v 0 0 0 / v 1 0 0 / v 0 1 x / v 5 5 5 / f 1 2 3` the
`v x y z` lines declare the vertices `(0,0,0)`, `(1,0,0)` and `(5,5,5)`, so the description
gives `f 1 2 3` the triangle `(0,0,0)`, `(1,0,0)`, `(5,5,5)`; the loader also pushes a vertex
`(0,1,0)` for the line `v 0 1 x`, which is no `v x y z` line, and returns the triangle
`(0,0,0)`, `(1,0,0)`, `(0,1,0)`. -/
theorem malformed_vertex_shifts_the_indices :
    (specTriangles (getlines sample_shifted_obj.toList []) : List (Triangle ℚ))
      = [⟨⟨0, 0, 0, 1⟩, ⟨1, 0, 0, 1⟩, ⟨5, 5, 5, 1⟩, ⟨255, 255, 255, 255⟩⟩] ∧
    (Mesh.load_from_obj_file (some sample_shifted_obj) : Option (Except Error (Mesh ℚ)))
      = some (Except.ok
          ⟨[⟨⟨0, 0, 0, 1⟩, ⟨1, 0, 0, 1⟩, ⟨0, 1, 0, 1⟩, ⟨255, 255, 255, 255⟩⟩]⟩) := by
  refine ⟨sample_shifted_obj_triangles, ?_⟩
  unfold Mesh.load_from_obj_file
  simp only [sample_shifted_obj_lines, List.foldlM_cons, List.foldlM_nil]
  rw [load_line_vertex _ _ _ _ sample_vertex_0]
  simp only [Option.bind_eq_bind, Option.some_bind, List.nil_append]
  rw [load_line_vertex _ _ _ _ sample_vertex_1]
  simp only [Option.some_bind, List.cons_append, List.nil_append, load_line_malformed]
  rw [load_line_vertex _ _ _ _ sample_vertex_5]
  simp only [Option.some_bind, List.cons_append, List.nil_append]
  rw [load_line_face _ _ _ _ sample_face_pushed]
  rfl

/-! ## Invariants of the clipping primitive -/

section ClipInvariants
variable {F : Type} [LinearOrderedField F] [HasSqrt F]

theorem mem_emitted_vertices (plane_p plane_n : Vec4 F) (in_tri o1 o2 tri : Triangle F)
    (h : tri ∈ emitted (Triangle.clip_against_plane plane_p plane_n in_tri o1 o2)) :
    ∃ t' ∈ specClip plane_p plane_n in_tri, t'.vertices = tri.vertices := by
  have hmem : tri.vertices ∈
      (emitted (Triangle.clip_against_plane plane_p plane_n in_tri o1 o2)).map
        Triangle.vertices := List.mem_map_of_mem _ h
  unfold emitted at hmem
  rw [clip_against_plane_vertices] at hmem
  exact List.mem_map.mp hmem

/-- C31: for every plane with a non-zero normal and every input triangle, every vertex of
every triangle `clip_against_plane` emits, in all four cases, has signed distance
`dot(n̂, v) - dot(n̂, planePoint) ≥ 0`. -/
theorem clip_output_inside (hsqrt : ExactSqrt F) (plane_p plane_n : Vec4 F)
    (hn : plane_n.Nonzero) (in_tri out_tri1 out_tri2 : Triangle F) :
    ∀ tri ∈ emitted (Triangle.clip_against_plane plane_p plane_n in_tri out_tri1 out_tri2),
      ∀ v ∈ tri.vertices, 0 ≤ signedDistance plane_p plane_n v := by
  intro tri htri v hv
  obtain ⟨t', ht', hvert⟩ := mem_emitted_vertices plane_p plane_n in_tri out_tri1 out_tri2 tri htri
  exact specClip_inside hsqrt plane_p hn in_tri t' ht' v (hvert ▸ hv)

/-- The calls of `intersect_plane` by the buckets of the specification: from the lone inside
vertex to each outside vertex, or from each inside vertex to the lone outside vertex. -/
theorem intersect_calls_eq_buckets (plane_p plane_n : Vec4 F) (in_tri : Triangle F) :
    Triangle.intersect_calls plane_p plane_n in_tri =
      match insideVertices plane_p plane_n in_tri, outsideVertices plane_p plane_n in_tri with
      | [a], [u, v] => [(a, u), (a, v)]
      | [a, b], [u] => [(a, u), (b, u)]
      | _, _ => [] := by
  simp only [insideVertices, outsideVertices, Triangle.vertices, Triangle.intersect_calls,
    Triangle.Buckets.classify, Triangle.Buckets.init, shortest_distance_normalize]
  by_cases h0 : 0 ≤ signedDistance plane_p plane_n in_tri.m_points_0 <;>
  by_cases h1 : 0 ≤ signedDistance plane_p plane_n in_tri.m_points_1 <;>
  by_cases h2 : 0 ≤ signedDistance plane_p plane_n in_tri.m_points_2 <;>
  simp [List.filter, h0, h1, h2, not_le.mp, not_lt.mpr]

theorem intersect_calls_mem (plane_p plane_n : Vec4 F) (in_tri : Triangle F)
    (call : Vec4 F × Vec4 F) (h : call ∈ Triangle.intersect_calls plane_p plane_n in_tri) :
    call.1 ∈ insideVertices plane_p plane_n in_tri ∧
      call.2 ∈ outsideVertices plane_p plane_n in_tri := by
  rw [intersect_calls_eq_buckets] at h
  split at h
  · rename_i a u v hin hout
    rw [hin, hout]
    simp only [List.mem_cons, List.mem_singleton, List.not_mem_nil, or_false] at h
    rcases h with rfl | rfl <;> simp
  · rename_i a b u hin hout
    rw [hin, hout]
    simp only [List.mem_cons, List.mem_singleton, List.not_mem_nil, or_false] at h
    rcases h with rfl | rfl <;> simp
  · simp at h

/-- C33: for every plane with a non-zero normal and every triangle, each call of
`intersect_plane` made inside `clip_against_plane` has a start point with signed distance
`≥ 0` and an end point with signed distance `< 0`; its denominator `bd - ad` is non-zero and its
parameter `t = (-plane_d - ad) / (bd - ad)` satisfies `0 ≤ t < 1`. -/
theorem intersect_calls_straddle (hsqrt : ExactSqrt F) (plane_p plane_n : Vec4 F)
    (hn : plane_n.Nonzero) (in_tri : Triangle F) :
    ∀ call ∈ Triangle.intersect_calls plane_p plane_n in_tri,
      (0 ≤ signedDistance plane_p plane_n call.1 ∧ signedDistance plane_p plane_n call.2 < 0) ∧
      Vec4.dot_product call.2 (Vec4.normalize (Vec4.normalize plane_n))
        - Vec4.dot_product call.1 (Vec4.normalize (Vec4.normalize plane_n)) ≠ 0 ∧
      0 ≤ (-(-Vec4.dot_product (Vec4.normalize (Vec4.normalize plane_n)) plane_p)
            - Vec4.dot_product call.1 (Vec4.normalize (Vec4.normalize plane_n)))
          / (Vec4.dot_product call.2 (Vec4.normalize (Vec4.normalize plane_n))
            - Vec4.dot_product call.1 (Vec4.normalize (Vec4.normalize plane_n))) ∧
      (-(-Vec4.dot_product (Vec4.normalize (Vec4.normalize plane_n)) plane_p)
            - Vec4.dot_product call.1 (Vec4.normalize (Vec4.normalize plane_n)))
          / (Vec4.dot_product call.2 (Vec4.normalize (Vec4.normalize plane_n))
            - Vec4.dot_product call.1 (Vec4.normalize (Vec4.normalize plane_n))) < 1 := by
  intro call hcall
  obtain ⟨hin, hout⟩ := intersect_calls_mem plane_p plane_n in_tri call hcall
  have ha := mem_insideVertices hin
  have hu := mem_outsideVertices hout
  rw [Vec4.normalize_normalize hsqrt hn]
  have hden : Vec4.dot_product call.2 (Vec4.normalize plane_n)
      - Vec4.dot_product call.1 (Vec4.normalize plane_n)
      = signedDistance plane_p plane_n call.2 - signedDistance plane_p plane_n call.1 := by
    simp only [signedDistance, Vec4.dot_product]; ring
  have hnum : -(-Vec4.dot_product (Vec4.normalize plane_n) plane_p)
      - Vec4.dot_product call.1 (Vec4.normalize plane_n)
      = -signedDistance plane_p plane_n call.1 := by
    simp only [signedDistance, Vec4.dot_product]; ring
  rw [hden, hnum]
  have hneg : signedDistance plane_p plane_n call.2 - signedDistance plane_p plane_n call.1 < 0 := by
    linarith
  refine ⟨⟨ha, hu⟩, ne_of_lt hneg, ?_, ?_⟩
  · exact div_nonneg_of_nonpos (by linarith) hneg.le
  · rw [div_lt_one_of_neg hneg]; linarith

end ClipInvariants

section Algebra
variable {F : Type} [LinearOrderedField F]

/-- C38: for every matrix `A` whose last column is `(0, 0, 0, 1)`, every matrix `B` and every
vector `v`, `multiply_vector(multiply(A, B), v) = multiply_vector(B, multiply_vector(A, v))`
in all four components. -/
theorem multiply_vector_composition_of_affine (A B : Matrix4x4 F) (v : Vec4 F)
    (h03 : A.m_matrix 0 3 = 0) (h13 : A.m_matrix 1 3 = 0) (h23 : A.m_matrix 2 3 = 0)
    (h33 : A.m_matrix 3 3 = 1) :
    Matrix4x4.multiply_vector (Matrix4x4.multiply A B) v
      = Matrix4x4.multiply_vector B (Matrix4x4.multiply_vector A v) := by
  have hw : (Matrix4x4.multiply_vector A v).w = 1 := by
    simp only [Matrix4x4.multiply_vector, h03, h13, h23, h33]; ring
  rw [multiply_vector_multiply_defect, hw]
  simp

/-- C39: for all input vectors and scalars the results of `add`, `subtract`, `multiply`,
`divide`, `normalize`, `cross_product` and `intersect_plane` have `w = 1`, and they are the
same whatever the `w` components of the inputs are. -/
theorem vec4_results_w_one [HasSqrt F] (a b p n : Vec4 F) (k wa wb wp wn : F) :
    ((Vec4.add a b).w = 1 ∧ (Vec4.subtract a b).w = 1 ∧ (Vec4.multiply a k).w = 1 ∧
      (Vec4.divide a k).w = 1 ∧ (Vec4.normalize a).w = 1 ∧ (Vec4.cross_product a b).w = 1 ∧
      (Vec4.intersect_plane p n a b).w = 1) ∧
    (Vec4.add ⟨a.x, a.y, a.z, wa⟩ ⟨b.x, b.y, b.z, wb⟩ = Vec4.add a b ∧
      Vec4.subtract ⟨a.x, a.y, a.z, wa⟩ ⟨b.x, b.y, b.z, wb⟩ = Vec4.subtract a b ∧
      Vec4.multiply ⟨a.x, a.y, a.z, wa⟩ k = Vec4.multiply a k ∧
      Vec4.divide ⟨a.x, a.y, a.z, wa⟩ k = Vec4.divide a k ∧
      Vec4.normalize ⟨a.x, a.y, a.z, wa⟩ = Vec4.normalize a ∧
      Vec4.cross_product ⟨a.x, a.y, a.z, wa⟩ ⟨b.x, b.y, b.z, wb⟩ = Vec4.cross_product a b ∧
      Vec4.intersect_plane ⟨p.x, p.y, p.z, wp⟩ ⟨n.x, n.y, n.z, wn⟩ ⟨a.x, a.y, a.z, wa⟩
          ⟨b.x, b.y, b.z, wb⟩ = Vec4.intersect_plane p n a b) :=
  ⟨⟨rfl, rfl, rfl, rfl, rfl, rfl, rfl⟩, ⟨rfl, rfl, rfl, rfl, rfl, rfl, rfl⟩⟩

end Algebra

theorem multiply_vector_composition_of_affine_witness :
    ((Matrix4x4.make_translation (1 : ℚ) 2 3).m_matrix 0 3 = 0 ∧
      (Matrix4x4.make_translation (1 : ℚ) 2 3).m_matrix 1 3 = 0 ∧
      (Matrix4x4.make_translation (1 : ℚ) 2 3).m_matrix 2 3 = 0 ∧
      (Matrix4x4.make_translation (1 : ℚ) 2 3).m_matrix 3 3 = 1) ∧
    Matrix4x4.multiply_vector
        (Matrix4x4.multiply (Matrix4x4.make_translation 1 2 3) sample_projection)
        (⟨4, 5, 6, 7⟩ : Vec4 ℚ)
      = Matrix4x4.multiply_vector sample_projection
          (Matrix4x4.multiply_vector (Matrix4x4.make_translation 1 2 3) ⟨4, 5, 6, 7⟩) :=
  ⟨⟨rfl, rfl, rfl, rfl⟩,
    multiply_vector_composition_of_affine _ _ _ rfl rfl rfl rfl⟩

/-! ## The view matrix and the projection -/

section ViewMatrix
variable {F : Type} [LinearOrderedField F]

/-- The inverse of a frame matrix applied to a point: the coordinates of the point, taken from
the position of the frame, along the three rows. -/
theorem multiply_vector_quick_inverse_frame (r u f p v : Vec4 F) :
    Matrix4x4.multiply_vector
        (Matrix4x4.quick_inverse
          (Matrix4x4.ofEntries r.x r.y r.z 0 u.x u.y u.z 0 f.x f.y f.z 0 p.x p.y p.z 1)) v
      = ⟨Vec4.dot_product (Vec4.subtract v p) r, Vec4.dot_product (Vec4.subtract v p) u,
         Vec4.dot_product (Vec4.subtract v p) f, 1⟩ := by
  simp only [Matrix4x4.multiply_vector, Matrix4x4.quick_inverse, Matrix4x4.ofEntries_entries,
    Vec4.dot_product, Vec4.subtract, Vec4.mk3, Vec4.mk.injEq]
  refine ⟨by ring, by ring, by ring, by ring⟩

/-- C40: for every position, target and up with `target ≠ position` and `up` not parallel to
`target - position`, the view matrix `V = quick_inverse(point_at(position, target, up))` maps
the position to `(0, 0, 0, 1)` and the target to `(0, 0, length(target - position), 1)`. -/
theorem view_maps_camera_to_origin [HasSqrt F] (hsqrt : ExactSqrt F) (pos target up : Vec4 F)
    (htarget : (Vec4.subtract target pos).Nonzero)
    (hup : (Vec4.cross_product up (Vec4.subtract target pos)).Nonzero) :
    Matrix4x4.multiply_vector
        (Matrix4x4.quick_inverse (Matrix4x4.point_at pos target up)) pos = ⟨0, 0, 0, 1⟩ ∧
    Matrix4x4.multiply_vector
        (Matrix4x4.quick_inverse (Matrix4x4.point_at pos target up)) target
      = ⟨0, 0, Vec4.length (Vec4.subtract target pos), 1⟩ := by
  obtain ⟨hrr, huu, hff, hru, hrf, huf⟩ :=
    point_at_orthonormal hsqrt pos target up htarget hup _ _ _ _ rfl rfl rfl rfl
  have hL := Vec4.length_pos hsqrt htarget
  have hx : (Vec4.subtract target pos).x
      = Vec4.length (Vec4.subtract target pos)
        * (Vec4.normalize (Vec4.subtract target pos)).x := by
    simp only [Vec4.normalize, Vec4.mk3]; field_simp
  have hy : (Vec4.subtract target pos).y
      = Vec4.length (Vec4.subtract target pos)
        * (Vec4.normalize (Vec4.subtract target pos)).y := by
    simp only [Vec4.normalize, Vec4.mk3]; field_simp
  have hz : (Vec4.subtract target pos).z
      = Vec4.length (Vec4.subtract target pos)
        * (Vec4.normalize (Vec4.subtract target pos)).z := by
    simp only [Vec4.normalize, Vec4.mk3]; field_simp
  unfold Matrix4x4.point_at
  simp only [multiply_vector_quick_inverse_frame, Vec4.mk.injEq, and_true]
  refine ⟨⟨?_, ?_, ?_⟩, ?_, ?_, ?_⟩
  · simp only [Vec4.dot_product, Vec4.subtract, Vec4.mk3]; ring
  · simp only [Vec4.dot_product, Vec4.subtract, Vec4.mk3]; ring
  · simp only [Vec4.dot_product, Vec4.subtract, Vec4.mk3]; ring
  · unfold Vec4.dot_product at hrf ⊢
    rw [hx, hy, hz]
    linear_combination Vec4.length (Vec4.subtract target pos) * hrf
  · unfold Vec4.dot_product at huf ⊢
    rw [hx, hy, hz]
    linear_combination Vec4.length (Vec4.subtract target pos) * huf
  · unfold Vec4.dot_product at hff ⊢
    rw [hx, hy, hz]
    linear_combination Vec4.length (Vec4.subtract target pos) * hff

end ViewMatrix

theorem view_maps_camera_to_origin_witness :
    ((Vec4.subtract (Vec4.mk3 0 0 1) (Vec4.mk3 (0 : ℝ) 0 0)).Nonzero ∧
      (Vec4.cross_product (Vec4.mk3 0 1 0)
        (Vec4.subtract (Vec4.mk3 0 0 1) (Vec4.mk3 (0 : ℝ) 0 0))).Nonzero) ∧
    Matrix4x4.multiply_vector
        (Matrix4x4.quick_inverse
          (Matrix4x4.point_at (Vec4.mk3 (0 : ℝ) 0 0) (Vec4.mk3 0 0 1) (Vec4.mk3 0 1 0)))
        (Vec4.mk3 0 0 0) = ⟨0, 0, 0, 1⟩ :=
  ⟨⟨by simp [Vec4.Nonzero, Vec4.subtract, Vec4.mk3],
    by simp [Vec4.Nonzero, Vec4.cross_product, Vec4.subtract, Vec4.mk3]⟩,
   (view_maps_camera_to_origin exactSqrt_real (Vec4.mk3 0 0 0) (Vec4.mk3 0 0 1) (Vec4.mk3 0 1 0)
      (by simp [Vec4.Nonzero, Vec4.subtract, Vec4.mk3])
      (by simp [Vec4.Nonzero, Vec4.cross_product, Vec4.subtract, Vec4.mk3])).1⟩

section Projection4
variable {F : Type} [LinearOrderedField F]

theorem signedDistance_near [HasSqrt F] (hsqrt : ExactSqrt F) (v : Vec4 F) :
    signedDistance near_plane_p near_plane_n v = v.z - 1 / 10 := by
  have h1 : HasSqrt.sqrt (1 : F) = 1 := hsqrt.sqrt_one
  simp [signedDistance, near_plane_p, near_plane_n, Vec4.normalize, Vec4.length,
    Vec4.dot_product, Vec4.mk3, h1]

theorem multiply_vector_projection [HasTrig F] (fov_degrees aspect_ratio near far : F)
    (v : Vec4 F) :
    (Matrix4x4.multiply_vector
        (Matrix4x4.make_projection fov_degrees aspect_ratio near far) v).z
      = v.z * (far / (far - near)) + (-far * near) / (far - near) ∧
    (Matrix4x4.multiply_vector
        (Matrix4x4.make_projection fov_degrees aspect_ratio near far) v).w = v.z := by
  rw [make_projection_entries]
  simp only [Matrix4x4.multiply_vector, Matrix4x4.ofEntries_entries]
  constructor <;> ring

/-- C32: for every view-space triangle every vertex of every triangle the near-plane clip
(point `(0, 0, 0.1)`, normal `(0, 0, 1)`) returns has `z ≥ 0.1`; for the matrix of
`make_projection` the `w` of the projected vertex, the divisor of the perspective divide, is
that `z`, so it is at least `0.1`. -/
theorem perspective_divisor_at_least_near [HasSqrt F] [HasTrig F] (hsqrt : ExactSqrt F)
    (fov_degrees aspect_ratio near far : F) (tri_viewed out_tri1 out_tri2 : Triangle F) :
    ∀ tri ∈ emitted
        (Triangle.clip_against_plane ⟨0, 0, 1 / 10, 1⟩ ⟨0, 0, 1, 1⟩ tri_viewed out_tri1 out_tri2),
      ∀ v ∈ tri.vertices,
        1 / 10 ≤ v.z ∧
        (Matrix4x4.multiply_vector
          (Matrix4x4.make_projection fov_degrees aspect_ratio near far) v).w = v.z ∧
        1 / 10 ≤ (Matrix4x4.multiply_vector
          (Matrix4x4.make_projection fov_degrees aspect_ratio near far) v).w := by
  intro tri htri v hv
  obtain ⟨t', ht', hvert⟩ :=
    mem_emitted_vertices near_plane_p near_plane_n tri_viewed out_tri1 out_tri2 tri htri
  have hz := specClip_inside hsqrt near_plane_p
    (show (near_plane_n : Vec4 F).Nonzero by simp [Vec4.Nonzero, near_plane_n])
    tri_viewed t' ht' v (hvert ▸ hv)
  rw [signedDistance_near hsqrt] at hz
  have hw := (multiply_vector_projection fov_degrees aspect_ratio near far v).2
  refine ⟨by linarith, hw, by rw [hw]; linarith⟩

theorem project_clipped_depth (g : Game F) (tri_projected clipped_n : Triangle F) :
    (Game.project_clipped g tri_projected clipped_n).m_points_0.z
        = projectedDepth g.m_projection_matrix clipped_n.m_points_0 ∧
    (Game.project_clipped g tri_projected clipped_n).m_points_1.z
        = projectedDepth g.m_projection_matrix clipped_n.m_points_1 ∧
    (Game.project_clipped g tri_projected clipped_n).m_points_2.z
        = projectedDepth g.m_projection_matrix clipped_n.m_points_2 := by
  simp [Game.project_clipped, projectedDepth, Triangle.set_point_at, Triangle.point_at,
    Triangle.set_x_on_point_at, Triangle.set_y_on_point_at, Triangle.set_color, Vec4.add,
    Vec4.divide, Vec4.mk3]

theorem projectedDepth_eq [HasTrig F] (fov_degrees aspect_ratio near far : F)
    (hfar : near < far) (v : Vec4 F) (hv : 0 < v.z) :
    projectedDepth (Matrix4x4.make_projection fov_degrees aspect_ratio near far) v
      = far / (far - near) * (1 - near / v.z) := by
  obtain ⟨hz, hw⟩ := multiply_vector_projection fov_degrees aspect_ratio near far v
  have hd : far - near ≠ 0 := by linarith
  simp only [projectedDepth, Vec4.divide, Vec4.mk3, hz, hw]
  field_simp
  ring

/-- C36: for every `0 < near < far` and `P = make_projection(fov, aspect, near, far)`, the depth
after projection and perspective divide of a view-space point with `z > 0` is
`far / (far - near) * (1 - near / z)`; it is `0` at `z = near`, `1` at `z = far` and strictly
increasing in `z`; it is the `z` of the vertices `Game::on_update` pushes. -/
theorem projected_depth_increasing [HasTrig F] (fov_degrees aspect_ratio near far : F)
    (hnear : 0 < near) (hfar : near < far) :
    (∀ v : Vec4 F, 0 < v.z →
      projectedDepth (Matrix4x4.make_projection fov_degrees aspect_ratio near far) v
        = far / (far - near) * (1 - near / v.z)) ∧
    (∀ v : Vec4 F, v.z = near →
      projectedDepth (Matrix4x4.make_projection fov_degrees aspect_ratio near far) v = 0) ∧
    (∀ v : Vec4 F, v.z = far →
      projectedDepth (Matrix4x4.make_projection fov_degrees aspect_ratio near far) v = 1) ∧
    (∀ v v' : Vec4 F, 0 < v.z → v.z < v'.z →
      projectedDepth (Matrix4x4.make_projection fov_degrees aspect_ratio near far) v
        < projectedDepth (Matrix4x4.make_projection fov_degrees aspect_ratio near far) v') ∧
    (∀ (g : Game F) (tri_projected clipped_n : Triangle F),
      (Game.project_clipped g tri_projected clipped_n).m_points_0.z
          = projectedDepth g.m_projection_matrix clipped_n.m_points_0 ∧
      (Game.project_clipped g tri_projected clipped_n).m_points_1.z
          = projectedDepth g.m_projection_matrix clipped_n.m_points_1 ∧
      (Game.project_clipped g tri_projected clipped_n).m_points_2.z
          = projectedDepth g.m_projection_matrix clipped_n.m_points_2) := by
  have hd : 0 < far - near := by linarith
  have hf : 0 < far := by linarith
  refine ⟨fun v hv => projectedDepth_eq _ _ _ _ hfar v hv, ?_, ?_, ?_, project_clipped_depth⟩
  · intro v hv
    rw [projectedDepth_eq _ _ _ _ hfar v (by rw [hv]; exact hnear), hv, div_self hnear.ne']
    ring
  · intro v hv
    rw [projectedDepth_eq _ _ _ _ hfar v (by rw [hv]; exact hf), hv]
    field_simp
  · intro v v' hv hlt
    rw [projectedDepth_eq _ _ _ _ hfar v hv, projectedDepth_eq _ _ _ _ hfar v' (hv.trans hlt)]
    have h1 : near / v'.z < near / v.z := div_lt_div_of_pos_left hnear hv hlt
    have h2 : 0 < far / (far - near) := div_pos hf hd
    nlinarith

end Projection4

theorem projected_depth_increasing_witness :
    ((0 : ℝ) < 1 / 10 ∧ (1 / 10 : ℝ) < 1000) ∧
    (∀ v : Vec4 ℝ, v.z = 1000 →
      projectedDepth (Matrix4x4.make_projection (90 : ℝ) 1 (1 / 10) 1000) v = 1) :=
  ⟨⟨by norm_num, by norm_num⟩,
    (projected_depth_increasing (90 : ℝ) 1 (1 / 10) 1000 (by norm_num) (by norm_num)).2.2.1⟩

theorem perspective_divisor_at_least_near_witness :
    ExactSqrt ℝ ∧
    ∀ tri ∈ emitted
        (Triangle.clip_against_plane (⟨0, 0, 1 / 10, 1⟩ : Vec4 ℝ) ⟨0, 0, 1, 1⟩ sample_two_inside
          Triangle.empty Triangle.empty),
      ∀ v ∈ tri.vertices,
        1 / 10 ≤ v.z ∧
        (Matrix4x4.multiply_vector
          (Matrix4x4.make_projection (90 : ℝ) 1 (1 / 10) 1000) v).w = v.z ∧
        1 / 10 ≤ (Matrix4x4.multiply_vector
          (Matrix4x4.make_projection (90 : ℝ) 1 (1 / 10) 1000) v).w :=
  ⟨exactSqrt_real,
    perspective_divisor_at_least_near exactSqrt_real 90 1 (1 / 10) 1000 sample_two_inside
      Triangle.empty Triangle.empty⟩

/-! ## Shading and the look direction -/

section Shading
variable {F : Type} [LinearOrderedField F]

/-- Two unit vectors have a dot product of at most `1`. -/
theorem dot_le_one_of_unit (a b : Vec4 F) (ha : Vec4.dot_product a a = 1)
    (hb : Vec4.dot_product b b = 1) : Vec4.dot_product a b ≤ 1 := by
  have h := Vec4.dot_cross_self a b
  have h0 := Vec4.dot_self_nonneg (Vec4.cross_product a b)
  rw [h, ha, hb] at h0
  nlinarith

theorem toInt_bounds [FloorRing F] (f : F) (c : Nat) (h0 : 0 ≤ f) (h1 : f ≤ c) :
    0 ≤ toInt f ∧ toInt f ≤ c := by
  unfold toInt
  rw [if_pos h0]
  refine ⟨Int.floor_nonneg.mpr h0, ?_⟩
  have h2 : ((⌊f⌋ : Int) : F) ≤ ((c : Int) : F) := by
    rw [Int.cast_natCast]
    exact (Int.floor_le f).trans h1
  exact Int.cast_le.mp h2

/-- C35: for every non-degenerate world-space triangle the flat-shading factor
`dp = max(0.1, dot(normal, normalize((0, 1, -1))))` satisfies `0.1 ≤ dp ≤ 1`; for every 8-bit
channel value, `channel * dp` lies in `[0, channel]`, its truncation lies in `[0, 255]` and the
converted channel is at most `channel`. -/
theorem shading_factor_bounds [HasSqrt F] [FloorRing F] (hsqrt : ExactSqrt F) (t : Triangle F)
    (hnd : t.winding.Nonzero) :
    (1 / 10 ≤ shadeIntensity (faceNormal t) ∧ shadeIntensity (faceNormal t) ≤ 1) ∧
    ∀ channel : Nat, channel ≤ 255 →
      (0 ≤ (channel : F) * shadeIntensity (faceNormal t) ∧
        (channel : F) * shadeIntensity (faceNormal t) ≤ channel) ∧
      (0 ≤ toInt ((channel : F) * shadeIntensity (faceNormal t)) ∧
        toInt ((channel : F) * shadeIntensity (faceNormal t)) ≤ 255) ∧
      to_uint8 ((channel : F) * shadeIntensity (faceNormal t)) ≤ channel := by
  have hlight : (⟨0, 1, -1, 1⟩ : Vec4 F).Nonzero := by simp [Vec4.Nonzero]
  have hdot : Vec4.dot_product (faceNormal t) (Vec4.normalize ⟨0, 1, -1, 1⟩) ≤ 1 :=
    dot_le_one_of_unit _ _ (Vec4.dot_normalize_self hsqrt hnd)
      (Vec4.dot_normalize_self hsqrt hlight)
  have hlo : 1 / 10 ≤ shadeIntensity (faceNormal t) := le_max_left _ _
  have hhi : shadeIntensity (faceNormal t) ≤ 1 := max_le (by norm_num) hdot
  refine ⟨⟨hlo, hhi⟩, ?_⟩
  intro channel hc
  have hc0 : (0 : F) ≤ channel := Nat.cast_nonneg _
  have h0 : 0 ≤ (channel : F) * shadeIntensity (faceNormal t) :=
    mul_nonneg hc0 (le_trans (by norm_num) hlo)
  have h1 : (channel : F) * shadeIntensity (faceNormal t) ≤ channel := by
    calc (channel : F) * shadeIntensity (faceNormal t) ≤ channel * 1 :=
          mul_le_mul_of_nonneg_left hhi hc0
      _ = channel := mul_one _
  obtain ⟨hi0, hi1⟩ := toInt_bounds _ channel h0 h1
  refine ⟨⟨h0, h1⟩, ⟨hi0, by omega⟩, ?_⟩
  unfold to_uint8
  omega

end Shading

theorem shading_factor_bounds_witness :
    (Triangle.winding (Triangle.ofCoords (0 : ℝ) 0 10 0 0 11 1 0 11 ⟨0, 0, 255, 204⟩)).Nonzero ∧
    (1 / 10 ≤ shadeIntensity
        (faceNormal (Triangle.ofCoords (0 : ℝ) 0 10 0 0 11 1 0 11 ⟨0, 0, 255, 204⟩)) ∧
      shadeIntensity
        (faceNormal (Triangle.ofCoords (0 : ℝ) 0 10 0 0 11 1 0 11 ⟨0, 0, 255, 204⟩)) ≤ 1) :=
  ⟨by norm_num [Vec4.Nonzero, Triangle.winding, Triangle.ofCoords, Vec4.cross_product,
      Vec4.subtract, Vec4.mk3],
    (shading_factor_bounds exactSqrt_real _
      (by norm_num [Vec4.Nonzero, Triangle.winding, Triangle.ofCoords, Vec4.cross_product,
        Vec4.subtract, Vec4.mk3])).1⟩

section LookDirection

theorem multiply_vector_multiply_of_affine {F : Type} [LinearOrderedField F]
    (A B : Matrix4x4 F) (v : Vec4 F)
    (hw : (Matrix4x4.multiply_vector A v).w = 1) :
    Matrix4x4.multiply_vector (Matrix4x4.multiply A B) v
      = Matrix4x4.multiply_vector B (Matrix4x4.multiply_vector A v) := by
  rw [multiply_vector_multiply_defect, hw]
  simp

/-- The look direction for roll `0`, in exact arithmetic. -/
theorem look_direction_eq (g : Game ℝ) (hroll : g.m_roll = 0) :
    (Game.update_look_direction g).m_look_direction
      = ⟨Real.cos g.m_pitch * Real.sin g.m_yaw, -Real.sin g.m_pitch,
         Real.cos g.m_pitch * Real.cos g.m_yaw, 1⟩ := by
  have hc : ∀ x : ℝ, HasTrig.cos x = Real.cos x := fun _ => rfl
  have hs : ∀ x : ℝ, HasTrig.sin x = Real.sin x := fun _ => rfl
  simp only [Game.update_look_direction, Game.camera_rotation, hroll]
  rw [multiply_vector_multiply_of_affine, multiply_vector_multiply_of_affine]
  · simp only [multiply_vector_rotation_x, multiply_vector_rotation_y,
      multiply_vector_rotation_z, hc, hs, Real.cos_zero, Real.sin_zero, Vec4.mk.injEq]
    refine ⟨by ring, by ring, by ring, trivial⟩
  · rw [multiply_vector_rotation_x]
  · rw [multiply_vector_multiply_of_affine]
    · rw [multiply_vector_rotation_y]
    · rw [multiply_vector_rotation_x]

/-- C34: for every yaw, every pitch in `[0, 1.5]` and roll `0`, the look direction
`rotateX(pitch) * rotateY(yaw) * rotateZ(roll)` applied to `(0, 0, 1)` is a unit vector not
parallel to `up = (0, 1, 0)`; in `point_at` both `target - position` and the Gram-Schmidt vector
`up - forward * dot(up, forward)` are non-zero, and the latter has length `cos(pitch) > 0`. -/
theorem look_direction_not_parallel_to_up (g : Game ℝ) (hp0 : 0 ≤ g.m_pitch)
    (hp1 : g.m_pitch ≤ 3 / 2) (hroll : g.m_roll = 0) :
    let look := (Game.update_look_direction g).m_look_direction
    let up : Vec4 ℝ := ⟨0, 1, 0, 1⟩
    let target := Vec4.add g.m_camera look
    let forward := Vec4.normalize (Vec4.subtract target g.m_camera)
    let gram_schmidt := Vec4.subtract up (Vec4.multiply forward (Vec4.dot_product up forward))
    (Vec4.length look = 1 ∧ (Vec4.cross_product up look).Nonzero) ∧
      ((Vec4.subtract target g.m_camera).Nonzero ∧ gram_schmidt.Nonzero) ∧
      (Vec4.length gram_schmidt = Real.cos g.m_pitch ∧ 0 < Real.cos g.m_pitch) := by
  intro look up target forward gram_schmidt
  have hlook : look = ⟨Real.cos g.m_pitch * Real.sin g.m_yaw, -Real.sin g.m_pitch,
      Real.cos g.m_pitch * Real.cos g.m_yaw, 1⟩ := look_direction_eq g hroll
  have hcos : 0 < Real.cos g.m_pitch := by
    apply Real.cos_pos_of_mem_Ioo
    constructor <;> linarith [Real.pi_gt_three]
  have hp := Real.cos_sq_add_sin_sq g.m_pitch
  have hy := Real.cos_sq_add_sin_sq g.m_yaw
  have hdot : Vec4.dot_product look look = 1 := by
    rw [hlook]; simp only [Vec4.dot_product]; nlinarith
  have hlen : Vec4.length look = 1 := by
    simp only [Vec4.length, hdot]; exact sqrt_real_one
  have hsub : Vec4.subtract target g.m_camera = look := by
    simp only [target, Vec4.subtract, Vec4.add, Vec4.mk3, hlook, Vec4.mk.injEq]
    refine ⟨by ring, by ring, by ring, trivial⟩
  have hforward : forward = look := by
    have e : forward = Vec4.normalize look := by simp only [forward, hsub]
    rw [e]
    unfold Vec4.normalize
    rw [hlen, hlook]
    simp only [Vec4.mk3, div_one]
  have hgs : gram_schmidt = ⟨Real.cos g.m_pitch * Real.sin g.m_yaw * Real.sin g.m_pitch,
      Real.cos g.m_pitch * Real.cos g.m_pitch,
      Real.cos g.m_pitch * Real.cos g.m_yaw * Real.sin g.m_pitch, 1⟩ := by
    simp only [gram_schmidt, hforward, up, hlook, Vec4.subtract, Vec4.multiply,
      Vec4.dot_product, Vec4.mk3, Vec4.mk.injEq]
    refine ⟨by ring, by nlinarith, by ring, trivial⟩
  have hgsdot : Vec4.dot_product gram_schmidt gram_schmidt
      = Real.cos g.m_pitch * Real.cos g.m_pitch := by
    rw [hgs]; simp only [Vec4.dot_product]
    have e : Real.sin g.m_pitch ^ 2 = 1 - Real.cos g.m_pitch ^ 2 := by linarith
    have e2 : Real.sin g.m_yaw ^ 2 = 1 - Real.cos g.m_yaw ^ 2 := by linarith
    ring_nf
    rw [e, e2]
    ring
  refine ⟨⟨hlen, ?_⟩, ⟨?_, ?_⟩, ?_, hcos⟩
  · rw [hlook]
    simp only [Vec4.Nonzero, Vec4.cross_product, up, Vec4.mk3]
    by_contra hcon
    push_neg at hcon
    obtain ⟨h1, _, h3⟩ := hcon
    have hcy : Real.cos g.m_yaw = 0 := by
      have : Real.cos g.m_pitch * Real.cos g.m_yaw = 0 := by linarith
      rcases mul_eq_zero.mp this with h | h
      · exact absurd h hcos.ne'
      · exact h
    have hsy : Real.sin g.m_yaw = 0 := by
      have : Real.cos g.m_pitch * Real.sin g.m_yaw = 0 := by linarith
      rcases mul_eq_zero.mp this with h | h
      · exact absurd h hcos.ne'
      · exact h
    rw [hcy, hsy] at hy
    norm_num at hy
  · rw [hsub]
    by_contra hcon
    have h0 : Vec4.dot_product look look = 0 := by
      simp only [Vec4.Nonzero, not_or, not_not] at hcon
      simp only [Vec4.dot_product, hcon.1, hcon.2.1, hcon.2.2]; ring
    rw [hdot] at h0
    exact one_ne_zero h0
  · rw [hgs]
    right; left
    exact (mul_pos hcos hcos).ne'
  · simp only [Vec4.length, hgsdot]
    exact exactSqrt_real.sqrt_eq hcos.le rfl

end LookDirection

theorem look_direction_not_parallel_to_up_witness :
    ((0 : ℝ) ≤ (sample_pose : Game ℝ).m_pitch ∧ (sample_pose : Game ℝ).m_pitch ≤ 3 / 2 ∧
      (sample_pose : Game ℝ).m_roll = 0) ∧
    Vec4.length (Game.update_look_direction (sample_pose : Game ℝ)).m_look_direction = 1 :=
  ⟨⟨by show (0 : ℝ) ≤ 77 / 100; norm_num, by show (77 / 100 : ℝ) ≤ 3 / 2; norm_num, rfl⟩,
    (look_direction_not_parallel_to_up sample_pose (by show (0 : ℝ) ≤ 77 / 100; norm_num)
      (by show (77 / 100 : ℝ) ≤ 3 / 2; norm_num) rfl).1.1⟩

/-! ## Winding -/

section WindingAlgebra
variable {F : Type} [LinearOrderedField F]

theorem winding_one_inside (a u v : Vec4 F) (s1 s2 : F) :
    Vec4.IsMultiple
      (Vec4.cross_product (Vec4.subtract (lerp a u s1) a) (Vec4.subtract (lerp a v s2) a))
      (s1 * s2) (Vec4.cross_product (Vec4.subtract u a) (Vec4.subtract v a)) := by
  simp only [Vec4.IsMultiple, Vec4.cross_product, Vec4.subtract, lerp, Vec4.mk3]
  refine ⟨by ring, by ring, by ring⟩

theorem winding_two_inside_first (a b u : Vec4 F) (s : F) :
    Vec4.IsMultiple
      (Vec4.cross_product (Vec4.subtract b a) (Vec4.subtract (lerp a u s) a))
      s (Vec4.cross_product (Vec4.subtract b a) (Vec4.subtract u a)) := by
  simp only [Vec4.IsMultiple, Vec4.cross_product, Vec4.subtract, lerp, Vec4.mk3]
  refine ⟨by ring, by ring, by ring⟩

theorem winding_two_inside_second (a b u : Vec4 F) (s r : F) :
    Vec4.IsMultiple
      (Vec4.cross_product (Vec4.subtract (lerp a u s) b) (Vec4.subtract (lerp b u r) b))
      (-(r * (1 - s))) (Vec4.cross_product (Vec4.subtract b a) (Vec4.subtract u a)) := by
  simp only [Vec4.IsMultiple, Vec4.cross_product, Vec4.subtract, lerp, Vec4.mk3]
  refine ⟨by ring, by ring, by ring⟩

theorem Vec4.IsMultiple.neg_right {a b c : Vec4 F} {k : F} (h : Vec4.IsMultiple a k b)
    (hx : b.x = -c.x) (hy : b.y = -c.y) (hz : b.z = -c.z) : Vec4.IsMultiple a (-k) c := by
  obtain ⟨h1, h2, h3⟩ := h
  exact ⟨by rw [h1, hx]; ring, by rw [h2, hy]; ring, by rw [h3, hz]; ring⟩

theorem Vec4.IsMultiple.congr_right {a b c : Vec4 F} {k : F} (h : Vec4.IsMultiple a k b)
    (hx : b.x = c.x) (hy : b.y = c.y) (hz : b.z = c.z) : Vec4.IsMultiple a k c := by
  obtain ⟨h1, h2, h3⟩ := h
  exact ⟨by rw [h1, hx], by rw [h2, hy], by rw [h3, hz]⟩


end WindingAlgebra

section Winding
variable {F : Type} [LinearOrderedField F] [HasSqrt F]

/-- The clipping primitive with the meeting points written as points of the edges. -/
theorem clip_eq_lerp (hsqrt : ExactSqrt F) (plane_p plane_n : Vec4 F) (hn : plane_n.Nonzero)
    (in_tri out_tri1 out_tri2 : Triangle F) :
    Triangle.clip_against_plane plane_p plane_n in_tri out_tri1 out_tri2 =
      match insideVertices plane_p plane_n in_tri, outsideVertices plane_p plane_n in_tri with
      | [a, b, c], _ => (1, ⟨a, b, c, out_tri1.m_color⟩, out_tri2)
      | [a], [u, v] =>
          (1, ⟨a, lerp a u (intersectParam plane_p plane_n a u),
                lerp a v (intersectParam plane_p plane_n a v), in_tri.m_color⟩, out_tri2)
      | [a, b], [u] =>
          (2, ⟨a, b, lerp a u (intersectParam plane_p plane_n a u), in_tri.m_color⟩,
              ⟨b, lerp a u (intersectParam plane_p plane_n a u),
                  lerp b u (intersectParam plane_p plane_n b u), in_tri.m_color⟩)
      | _, _ => (0, out_tri1, out_tri2) := by
  rw [clip_eq_buckets]
  simp only [Vec4.intersect_plane_normalize hsqrt plane_p hn, intersect_plane_eq_lerp, lerp]

theorem buckets_of_signs (plane_p plane_n : Vec4 F) (t : Triangle F) (b0 b1 b2 : Bool)
    (h0 : decide (0 ≤ signedDistance plane_p plane_n t.m_points_0) = b0)
    (h1 : decide (0 ≤ signedDistance plane_p plane_n t.m_points_1) = b1)
    (h2 : decide (0 ≤ signedDistance plane_p plane_n t.m_points_2) = b2) :
    insideVertices plane_p plane_n t
      = [(t.m_points_0, b0), (t.m_points_1, b1), (t.m_points_2, b2)].filterMap
          (fun p => if p.2 then some p.1 else none) ∧
    outsideVertices plane_p plane_n t
      = [(t.m_points_0, b0), (t.m_points_1, b1), (t.m_points_2, b2)].filterMap
          (fun p => if p.2 then none else some p.1) := by
  subst h0 h1 h2
  simp only [insideVertices, outsideVertices, Triangle.vertices]
  by_cases h0 : 0 ≤ signedDistance plane_p plane_n t.m_points_0 <;>
  by_cases h1 : 0 ≤ signedDistance plane_p plane_n t.m_points_1 <;>
  by_cases h2 : 0 ≤ signedDistance plane_p plane_n t.m_points_2 <;>
  simp [List.filter, h0, h1, h2, not_le.mp, not_lt.mpr]

/-- C37, amended: for every plane with a non-zero normal and every triangle, each triangle
`clip_against_plane` emits when one or two vertices are inside has `cross(w1-w0, w2-w0)`
equal to a multiple `k` of the input's `cross(v1-v0, v2-v0)`.  With one vertex inside, `k ≥ 0`
when the lone inside vertex is `v0` or `v2`, and `k ≤ 0` when it is `v1`.  With two vertices
inside, the two emitted triangles have multiples of opposite sign: `k1 ≥ 0` and `k2 ≤ 0` when
the lone outside vertex is `v0` or `v2`, `k1 ≤ 0` and `k2 ≥ 0` when it is `v1`. -/
theorem clip_winding_by_case (hsqrt : ExactSqrt F) (plane_p plane_n : Vec4 F)
    (hn : plane_n.Nonzero) (t out_tri1 out_tri2 : Triangle F) :
    (0 ≤ signedDistance plane_p plane_n t.m_points_0 →
      signedDistance plane_p plane_n t.m_points_1 < 0 →
      signedDistance plane_p plane_n t.m_points_2 < 0 →
      ∃ k, 0 ≤ k ∧ Vec4.IsMultiple
        (Triangle.clip_against_plane plane_p plane_n t out_tri1 out_tri2).2.1.winding
        k t.winding) ∧
    (signedDistance plane_p plane_n t.m_points_0 < 0 →
      0 ≤ signedDistance plane_p plane_n t.m_points_1 →
      signedDistance plane_p plane_n t.m_points_2 < 0 →
      ∃ k, k ≤ 0 ∧ Vec4.IsMultiple
        (Triangle.clip_against_plane plane_p plane_n t out_tri1 out_tri2).2.1.winding
        k t.winding) ∧
    (signedDistance plane_p plane_n t.m_points_0 < 0 →
      signedDistance plane_p plane_n t.m_points_1 < 0 →
      0 ≤ signedDistance plane_p plane_n t.m_points_2 →
      ∃ k, 0 ≤ k ∧ Vec4.IsMultiple
        (Triangle.clip_against_plane plane_p plane_n t out_tri1 out_tri2).2.1.winding
        k t.winding) ∧
    (signedDistance plane_p plane_n t.m_points_0 < 0 →
      0 ≤ signedDistance plane_p plane_n t.m_points_1 →
      0 ≤ signedDistance plane_p plane_n t.m_points_2 →
      ∃ k1 k2, (0 ≤ k1 ∧ k2 ≤ 0) ∧
        Vec4.IsMultiple
          (Triangle.clip_against_plane plane_p plane_n t out_tri1 out_tri2).2.1.winding
          k1 t.winding ∧
        Vec4.IsMultiple
          (Triangle.clip_against_plane plane_p plane_n t out_tri1 out_tri2).2.2.winding
          k2 t.winding) ∧
    (0 ≤ signedDistance plane_p plane_n t.m_points_0 →
      signedDistance plane_p plane_n t.m_points_1 < 0 →
      0 ≤ signedDistance plane_p plane_n t.m_points_2 →
      ∃ k1 k2, (k1 ≤ 0 ∧ 0 ≤ k2) ∧
        Vec4.IsMultiple
          (Triangle.clip_against_plane plane_p plane_n t out_tri1 out_tri2).2.1.winding
          k1 t.winding ∧
        Vec4.IsMultiple
          (Triangle.clip_against_plane plane_p plane_n t out_tri1 out_tri2).2.2.winding
          k2 t.winding) ∧
    (0 ≤ signedDistance plane_p plane_n t.m_points_0 →
      0 ≤ signedDistance plane_p plane_n t.m_points_1 →
      signedDistance plane_p plane_n t.m_points_2 < 0 →
      ∃ k1 k2, (0 ≤ k1 ∧ k2 ≤ 0) ∧
        Vec4.IsMultiple
          (Triangle.clip_against_plane plane_p plane_n t out_tri1 out_tri2).2.1.winding
          k1 t.winding ∧
        Vec4.IsMultiple
          (Triangle.clip_against_plane plane_p plane_n t out_tri1 out_tri2).2.2.winding
          k2 t.winding) := by
  have hT : ∀ {x : F}, 0 ≤ x → decide (0 ≤ x) = true := fun h => decide_eq_true h
  have hFl : ∀ {x : F}, x < 0 → decide (0 ≤ x) = false := fun h => decide_eq_false (not_le.mpr h)
  refine ⟨?_, ?_, ?_, ?_, ?_, ?_⟩
  · intro h0 h1 h2
    obtain ⟨hin, hout⟩ := buckets_of_signs plane_p plane_n t _ _ _ (hT h0) (hFl h1) (hFl h2)
    simp only [List.filterMap_cons, List.filterMap_nil, if_true, Bool.false_eq_true,
      if_false] at hin hout
    obtain ⟨b1, _⟩ := intersectParam_bounds h0 h1
    obtain ⟨b2, _⟩ := intersectParam_bounds h0 h2
    rw [clip_eq_lerp hsqrt plane_p plane_n hn, hin, hout]
    exact ⟨_, mul_nonneg b1 b2, winding_one_inside _ _ _ _ _⟩
  · intro h0 h1 h2
    obtain ⟨hin, hout⟩ := buckets_of_signs plane_p plane_n t _ _ _ (hFl h0) (hT h1) (hFl h2)
    simp only [List.filterMap_cons, List.filterMap_nil, if_true, Bool.false_eq_true,
      if_false] at hin hout
    obtain ⟨b1, _⟩ := intersectParam_bounds h1 h0
    obtain ⟨b2, _⟩ := intersectParam_bounds h1 h2
    rw [clip_eq_lerp hsqrt plane_p plane_n hn, hin, hout]
    refine ⟨_, neg_nonpos.mpr (mul_nonneg b1 b2),
      (winding_one_inside _ _ _ _ _).neg_right ?_ ?_ ?_⟩ <;>
    · simp only [Triangle.winding, Vec4.cross_product, Vec4.subtract, Vec4.mk3]; ring
  · intro h0 h1 h2
    obtain ⟨hin, hout⟩ := buckets_of_signs plane_p plane_n t _ _ _ (hFl h0) (hFl h1) (hT h2)
    simp only [List.filterMap_cons, List.filterMap_nil, if_true, Bool.false_eq_true,
      if_false] at hin hout
    obtain ⟨b1, _⟩ := intersectParam_bounds h2 h0
    obtain ⟨b2, _⟩ := intersectParam_bounds h2 h1
    rw [clip_eq_lerp hsqrt plane_p plane_n hn, hin, hout]
    refine ⟨_, mul_nonneg b1 b2, (winding_one_inside _ _ _ _ _).congr_right ?_ ?_ ?_⟩ <;>
    · simp only [Triangle.winding, Vec4.cross_product, Vec4.subtract, Vec4.mk3]; ring
  · intro h0 h1 h2
    obtain ⟨hin, hout⟩ := buckets_of_signs plane_p plane_n t _ _ _ (hFl h0) (hT h1) (hT h2)
    simp only [List.filterMap_cons, List.filterMap_nil, if_true, Bool.false_eq_true,
      if_false] at hin hout
    obtain ⟨s0, s1⟩ := intersectParam_bounds h1 h0
    obtain ⟨r0, _⟩ := intersectParam_bounds h2 h0
    rw [clip_eq_lerp hsqrt plane_p plane_n hn, hin, hout]
    refine ⟨_, _, ⟨s0, neg_nonpos.mpr (mul_nonneg r0 (by linarith))⟩,
      (winding_two_inside_first _ _ _ _).congr_right ?_ ?_ ?_,
      (winding_two_inside_second _ _ _ _ _).congr_right ?_ ?_ ?_⟩ <;>
    · simp only [Triangle.winding, Vec4.cross_product, Vec4.subtract, Vec4.mk3]; ring
  · intro h0 h1 h2
    obtain ⟨hin, hout⟩ := buckets_of_signs plane_p plane_n t _ _ _ (hT h0) (hFl h1) (hT h2)
    simp only [List.filterMap_cons, List.filterMap_nil, if_true, Bool.false_eq_true,
      if_false] at hin hout
    obtain ⟨s0, s1⟩ := intersectParam_bounds h0 h1
    obtain ⟨r0, _⟩ := intersectParam_bounds h2 h1
    rw [clip_eq_lerp hsqrt plane_p plane_n hn, hin, hout]
    refine ⟨-_, - -_, ⟨neg_nonpos.mpr s0, by
        rw [neg_neg]; exact mul_nonneg r0 (by linarith)⟩,
      (winding_two_inside_first _ _ _ _).neg_right ?_ ?_ ?_,
      (winding_two_inside_second _ _ _ _ _).neg_right ?_ ?_ ?_⟩ <;>
    · simp only [Triangle.winding, Vec4.cross_product, Vec4.subtract, Vec4.mk3]; ring
  · intro h0 h1 h2
    obtain ⟨hin, hout⟩ := buckets_of_signs plane_p plane_n t _ _ _ (hT h0) (hT h1) (hFl h2)
    simp only [List.filterMap_cons, List.filterMap_nil, if_true, Bool.false_eq_true,
      if_false] at hin hout
    obtain ⟨s0, s1⟩ := intersectParam_bounds h0 h2
    obtain ⟨r0, _⟩ := intersectParam_bounds h1 h2
    rw [clip_eq_lerp hsqrt plane_p plane_n hn, hin, hout]
    exact ⟨_, _, ⟨s0, neg_nonpos.mpr (mul_nonneg r0 (by linarith))⟩,
      winding_two_inside_first _ _ _ _, winding_two_inside_second _ _ _ _ _⟩

end Winding

theorem sample_middle_inside_buckets :
    insideVertices (near_plane_p : Vec4 ℚ) near_plane_n sample_middle_inside
      = [Vec4.mk3 0 0 1] ∧
    outsideVertices (near_plane_p : Vec4 ℚ) near_plane_n sample_middle_inside
      = [Vec4.mk3 1 0 0, Vec4.mk3 0 1 0] := by
  constructor <;>
    norm_num [insideVertices, outsideVertices, Triangle.vertices, List.filter,
      signedDistance_near_rat, sample_middle_inside, Vec4.mk3]

theorem sample_middle_inside_clip :
    Triangle.clip_against_plane (near_plane_p : Vec4 ℚ) near_plane_n sample_middle_inside
        Triangle.empty Triangle.empty
      = (1, ⟨Vec4.mk3 0 0 1, Vec4.mk3 (9 / 10) 0 (1 / 10), Vec4.mk3 0 (9 / 10) (1 / 10),
          sample_color⟩, Triangle.empty) := by
  rw [clip_eq_buckets, sample_middle_inside_buckets.1, sample_middle_inside_buckets.2]
  norm_num [Vec4.intersect_plane, Vec4.normalize, Vec4.length, Vec4.dot_product, Vec4.add,
    Vec4.subtract, Vec4.multiply, Vec4.mk3, near_plane_p, near_plane_n, sqrt_rat_one,
    sample_middle_inside]

/-- C37, counterexample: for the near plane and the triangle `(1,0,0)`, `(0,0,1)`, `(0,1,0)`,
whose second vertex is the lone inside one, the emitted triangle `(0,0,1)`, `(0.9,0,0.1)`,
`(0,0.9,0.1)` is non-degenerate and its `cross(w1-w0, w2-w0) = (0.81, 0.81, 0.81)` is `-0.81`
times the input's `cross(v1-v0, v2-v0) = (-1, -1, -1)`: no positive multiple. -/
theorem clip_reverses_winding_of_middle_inside :
    (emitted (Triangle.clip_against_plane (near_plane_p : Vec4 ℚ) near_plane_n
        sample_middle_inside Triangle.empty Triangle.empty)
      = [⟨Vec4.mk3 0 0 1, Vec4.mk3 (9 / 10) 0 (1 / 10), Vec4.mk3 0 (9 / 10) (1 / 10),
          sample_color⟩]) ∧
    (sample_middle_inside : Triangle ℚ).winding = ⟨-1, -1, -1, 1⟩ ∧
    (Triangle.clip_against_plane (near_plane_p : Vec4 ℚ) near_plane_n
        sample_middle_inside Triangle.empty Triangle.empty).2.1.winding
      = ⟨81 / 100, 81 / 100, 81 / 100, 1⟩ ∧
    ¬ ∃ k : ℚ, 0 < k ∧ Vec4.IsMultiple
      (Triangle.clip_against_plane (near_plane_p : Vec4 ℚ) near_plane_n
        sample_middle_inside Triangle.empty Triangle.empty).2.1.winding
      k (sample_middle_inside : Triangle ℚ).winding := by
  have hin : (sample_middle_inside : Triangle ℚ).winding = ⟨-1, -1, -1, 1⟩ := by
    norm_num [Triangle.winding, sample_middle_inside, Vec4.cross_product, Vec4.subtract,
      Vec4.mk3]
  have hout : (Triangle.clip_against_plane (near_plane_p : Vec4 ℚ) near_plane_n
        sample_middle_inside Triangle.empty Triangle.empty).2.1.winding
      = ⟨81 / 100, 81 / 100, 81 / 100, 1⟩ := by
    rw [sample_middle_inside_clip]
    norm_num [Triangle.winding, Vec4.cross_product, Vec4.subtract, Vec4.mk3]
  refine ⟨?_, hin, hout, ?_⟩
  · rw [sample_middle_inside_clip]; rfl
  · rintro ⟨k, hk, hx, -, -⟩
    rw [hout, hin] at hx
    simp only at hx
    linarith

theorem clip_winding_by_case_witness :
    (ExactSqrt ℝ ∧ (near_plane_n : Vec4 ℝ).Nonzero) ∧
    ∃ k : ℝ, k ≤ 0 ∧ Vec4.IsMultiple
      (Triangle.clip_against_plane (near_plane_p : Vec4 ℝ) near_plane_n
        sample_middle_inside Triangle.empty Triangle.empty).2.1.winding
      k (sample_middle_inside : Triangle ℝ).winding :=
  ⟨⟨exactSqrt_real, near_plane_n_nonzero⟩,
    (clip_winding_by_case exactSqrt_real near_plane_p near_plane_n near_plane_n_nonzero
      sample_middle_inside Triangle.empty Triangle.empty).2.1
      (by rw [signedDistance_near exactSqrt_real]; norm_num [sample_middle_inside, Vec4.mk3])
      (by rw [signedDistance_near exactSqrt_real]; norm_num [sample_middle_inside, Vec4.mk3])
      (by rw [signedDistance_near exactSqrt_real]; norm_num [sample_middle_inside, Vec4.mk3])⟩

theorem clip_output_inside_witness :
    (ExactSqrt ℝ ∧ (near_plane_n : Vec4 ℝ).Nonzero) ∧
    ∀ tri ∈ emitted (Triangle.clip_against_plane (near_plane_p : Vec4 ℝ) near_plane_n
        sample_two_inside Triangle.empty Triangle.empty),
      ∀ v ∈ tri.vertices, 0 ≤ signedDistance (near_plane_p : Vec4 ℝ) near_plane_n v :=
  ⟨⟨exactSqrt_real, near_plane_n_nonzero⟩,
    clip_output_inside exactSqrt_real near_plane_p near_plane_n near_plane_n_nonzero
      sample_two_inside Triangle.empty Triangle.empty⟩

theorem intersect_calls_straddle_witness :
    (ExactSqrt ℝ ∧ (near_plane_n : Vec4 ℝ).Nonzero) ∧
    ∀ call ∈ Triangle.intersect_calls (near_plane_p : Vec4 ℝ) near_plane_n sample_two_inside,
      0 ≤ signedDistance (near_plane_p : Vec4 ℝ) near_plane_n call.1 ∧
      signedDistance (near_plane_p : Vec4 ℝ) near_plane_n call.2 < 0 :=
  ⟨⟨exactSqrt_real, near_plane_n_nonzero⟩, fun call hcall =>
    (intersect_calls_straddle exactSqrt_real near_plane_p near_plane_n near_plane_n_nonzero
      sample_two_inside call hcall).1⟩

end Sandbox
